import Mathlib

/-!
# N-body simulation: shallow embedding of `SceneObject` and `Application`

The class `SceneObject` and the methods of `Application` that act on the bodies
(`update`, `update_trails`, `update_uniform_buffer_object`, the accumulation block of
`render`, `add_object`, `delete_object`, `save_scene_to_file`, `load_scene_from_file`)
are translated function by function.

The values of the C++ `float` are modelled by an arbitrary linearly ordered field `F`;
the library calls the code makes on it (`sqrt`, `cbrt`, `sin`, `cos`) are passed in as
a record `FloatOps F`, so every definition translated from the source is an ordinary
computable function of its inputs.  The same record holds the rounding of an exact
result to `float` (`toFloat`) and to `double` (`toDouble`); it is applied where an
integer is computed from a rounded value (the accumulation cap of `render`, the trail
capacity of `update_trails`), and a `float` literal of the source that such a
comparison depends on is the binary number it denotes (`0.005f` is `5368709 / 2^30`).
The evolution check is split at the product `Mass * 0.005f` it computes
(`checkTransitions`), so that statements about it hold for the computed value.
Elsewhere the arithmetic is exact.  A throwing `std::vector::at`, an out-of-range
conversion of a `float` to an integer type, a division by a zero total mass or a zero
trail denominator before such a conversion and a failing read of a scene file are
modelled by `Option`; a value the code leaves uninitialised is a parameter.  `realOps`
instantiates the library calls on the real numbers, without rounding, and `roundedOps`
adds the rounding to 24 and to 53 significant binary digits (`roundBinary`); they are
used to state facts about concrete worlds.

The file has two parts: the definitions (the translation of the source, then the
vocabulary of the statements and some sample worlds), and the theorems.
-/

set_option autoImplicit false
set_option linter.unusedSectionVars false

namespace NBody

/-! ## `vec.h` -/

/-- The library calls on `float` used by the simulation, and the rounding of the exact
result of an arithmetic operation to the type in which the code computes it: `toFloat` for
an operation on `float`, `toDouble` for an operation on `double`. -/
structure FloatOps (F : Type) where
  sqrt : F → F
  cbrt : F → F
  sin : F → F
  cos : F → F
  toFloat : F → F
  toDouble : F → F

/-- The type `vec3` of `vec.h`. -/
@[ext]
structure Vec3 (F : Type) where
  x : F
  y : F
  z : F
deriving DecidableEq, Repr

/-- The type `vec4` of `vec.h`. -/
structure Vec4 (F : Type) where
  x : F
  y : F
  z : F
  w : F
deriving DecidableEq, Repr

namespace Vec3

variable {F : Type}

/-- The constructor `vec3(GLfloat s)`. -/
def splat (s : F) : Vec3 F := ⟨s, s, s⟩

instance [Zero F] : Zero (Vec3 F) := ⟨splat 0⟩

/-- Unary minus of `vec3`. -/
instance [Neg F] : Neg (Vec3 F) := ⟨fun u => ⟨-u.x, -u.y, -u.z⟩⟩

/-- The `operator +` of `vec3`. -/
instance [Add F] : Add (Vec3 F) := ⟨fun u v => ⟨u.x + v.x, u.y + v.y, u.z + v.z⟩⟩

/-- The `operator -` of `vec3`. -/
instance [Sub F] : Sub (Vec3 F) := ⟨fun u v => ⟨u.x - v.x, u.y - v.y, u.z - v.z⟩⟩

/-- The `operator * (const GLfloat s)` of `vec3`: it returns `vec3(s*x, s*y, s*z)`. -/
instance [Mul F] : HMul (Vec3 F) F (Vec3 F) := ⟨fun u s => ⟨s * u.x, s * u.y, s * u.z⟩⟩

/-- The `operator / (const GLfloat s)` of `vec3`: multiplication by `1.0 / s`. -/
instance [Mul F] [One F] [Div F] : HDiv (Vec3 F) F (Vec3 F) := ⟨fun u s => u * ((1 : F) / s)⟩

end Vec3

section VecFunctions

variable {F : Type} [LinearOrderedField F]

/-- The function `dot` of `vec.h`. -/
def dot (u v : Vec3 F) : F := u.x * v.x + u.y * v.y + u.z * v.z

/-- The function `length` of `vec.h`. -/
def length (ops : FloatOps F) (v : Vec3 F) : F := ops.sqrt (dot v v)

/-- The function `normalize` of `vec.h`. -/
def normalize (ops : FloatOps F) (v : Vec3 F) : Vec3 F := v / length ops v

/-- The function `quat_mult` of `Camera.cpp`. -/
def quat_mult (q1 q2 : Vec4 F) : Vec4 F :=
  { x := (q1.w * q2.x) + (q1.x * q2.w) + (q1.y * q2.z) - (q1.z * q2.y)
    y := (q1.w * q2.y) - (q1.x * q2.z) + (q1.y * q2.w) + (q1.z * q2.x)
    z := (q1.w * q2.z) + (q1.x * q2.y) - (q1.y * q2.x) + (q1.z * q2.w)
    w := (q1.w * q2.w) - (q1.x * q2.x) - (q1.y * q2.y) - (q1.z * q2.z) }

/-- The function `quat_from_axis_angle` of `Camera.cpp`. -/
def quat_from_axis_angle (ops : FloatOps F) (axis : Vec3 F) (angle_radians : F) : Vec4 F :=
  let half_angle := angle_radians * 0.5
  let s := ops.sin half_angle
  let c := ops.cos half_angle
  ⟨axis.x * s, axis.y * s, axis.z * s, c⟩

end VecFunctions

/-! ## `UBOstructs.h` -/

/-- The struct `GPUmaterial`, with its default member initialisers. -/
structure GPUmaterial (F : Type) where
  albedo : Vec3 F
  emission : F
  metallic : F
  roughness : F
  textureID : Int
deriving DecidableEq, Repr

/-- The struct `GPUobject`; `type` is 0 for a sphere and 1 for a disk. -/
structure GPUobject (F : Type) where
  m : GPUmaterial F
  rot_quat : Vec4 F
  center : Vec3 F
  r1 : F
  r2 : F
  type : Int
deriving DecidableEq, Repr

section Defaults

variable {F : Type} [LinearOrderedField F]

/-- A value-initialised `GPUmaterial`. -/
def GPUmaterial.init : GPUmaterial F :=
  { albedo := Vec3.splat 1, emission := 0, metallic := 0, roughness := 1, textureID := -1 }

/-- A value-initialised `GPUobject`, as `std::vector::resize` creates it: the members
without an initialiser (`center` through the `vec3` constructor, `r1`) are zero. -/
def GPUobject.init : GPUobject F :=
  { m := GPUmaterial.init, rot_quat := ⟨0, 0, 0, 1⟩, center := Vec3.splat 0, r1 := 0, r2 := 0,
    type := 0 }

end Defaults

/-- The constant `MAX_OBJECTS_CPP`. -/
def MAX_OBJECTS_CPP : Nat := 16

/-! ## `SceneObject` -/

/-- The enumeration `ObjectType`. -/
inductive ObjectType where
  | Star
  | BrownDwarf
  | GasGiant
  | RockyPlanet
  | BlackHole
deriving DecidableEq, Repr

/-- The class `SceneObject` (the member `Type` is called `Type_` here). -/
structure SceneObject (F : Type) where
  Name : String
  Type_ : ObjectType
  Mass : F
  velocity : Vec3 F
  Orientation : Vec4 F
  AngularVelocity : Vec3 F
  hasRings : Bool
  MaxTrailPoints : Int
  TrailPoints : List (Vec3 F)
  gpuObjects : List (GPUobject F)
deriving DecidableEq, Repr

namespace SceneObject

variable {F : Type} [LinearOrderedField F]

/-- The method `GetGpuObject(index)`, which is `gpuObjects.at(index)`: it throws
(here: `none`) when the index is out of range. -/
def GetGpuObject (o : SceneObject F) (index : Nat) : Option (GPUobject F) :=
  o.gpuObjects[index]?

/-- A write through the reference returned by the non-const `GetGpuObject(index)`. -/
def modifyGpuObject (o : SceneObject F) (index : Nat) (f : GPUobject F → GPUobject F) :
    Option (SceneObject F) :=
  match o.gpuObjects[index]? with
  | none => none
  | some g => some { o with gpuObjects := o.gpuObjects.set index (f g) }

/-- The method `GetGpuObjectCount`. -/
def GetGpuObjectCount (o : SceneObject F) : Nat := o.gpuObjects.length

/-- The method `GetPosition`. -/
def GetPosition (o : SceneObject F) : Vec3 F :=
  match o.gpuObjects with
  | [] => Vec3.splat 0
  | g :: _ => g.center

/-- The method `SetPosition`. -/
def SetPosition (o : SceneObject F) (new_position : Vec3 F) : SceneObject F :=
  { o with gpuObjects := o.gpuObjects.map fun g => { g with center := new_position } }

/-- The method `ApplyForce`. -/
def ApplyForce (o : SceneObject F) (force : Vec3 F) (dt : F) : SceneObject F :=
  if o.Mass > 0 then
    let acceleration := force / o.Mass
    { o with velocity := o.velocity + acceleration * dt }
  else o

/-- The method `ResetRotation`. -/
def ResetRotation (o : SceneObject F) : SceneObject F :=
  { o with Orientation := ⟨0, 0, 0, 1⟩ }

/-- The `switch` of `SetupAs`, entered after `gpuObjects.clear()`: each case is
`gpuObjects.resize(k)` followed by the assignments of the case.  The case `BlackHole`
assigns no `Mass`. -/
def setupSwitch (o : SceneObject F) : ObjectType → SceneObject F
  | .Star =>
      { o with
        Name := "Star"
        hasRings := false
        gpuObjects :=
          [{ (GPUobject.init : GPUobject F) with
              r1 := 8
              m := { (GPUmaterial.init : GPUmaterial F) with
                      albedo := ⟨1, 0.8, 0.5⟩, emission := 1000 } }]
        Mass := 800 }
  | .BrownDwarf =>
      { o with
        Name := "Brown Dwarf"
        hasRings := false
        gpuObjects :=
          [{ (GPUobject.init : GPUobject F) with
              r1 := 4
              m := { (GPUmaterial.init : GPUmaterial F) with
                      albedo := ⟨0.4, 0.15, 0.1⟩, emission := 7 } }]
        Mass := 250 }
  | .GasGiant =>
      let sphere : GPUobject F :=
        { (GPUobject.init : GPUobject F) with
            r1 := 1.5
            m := { (GPUmaterial.init : GPUmaterial F) with
                    albedo := ⟨0.8, 0.7, 0.6⟩, emission := 0 } }
      { o with
        Name := "Gas Giant"
        gpuObjects :=
          if o.hasRings then
            [sphere,
             { (GPUobject.init : GPUobject F) with
                type := 1, r1 := sphere.r1 * 2.0, r2 := sphere.r1 * 1.2
                m := { (GPUmaterial.init : GPUmaterial F) with albedo := Vec3.splat 0.6 } }]
          else [sphere]
        Mass := 80 }
  | .RockyPlanet =>
      let sphere : GPUobject F :=
        { (GPUobject.init : GPUobject F) with
            r1 := 0.5
            m := { (GPUmaterial.init : GPUmaterial F) with
                    albedo := ⟨0.5, 0.6, 0.8⟩, emission := 0 } }
      { o with
        Name := "Rocky Planet"
        gpuObjects :=
          if o.hasRings then
            [sphere,
             { (GPUobject.init : GPUobject F) with
                type := 1, r1 := sphere.r1 * 2.5, r2 := sphere.r1 * 1.5
                m := { (GPUmaterial.init : GPUmaterial F) with albedo := Vec3.splat 0.7 } }]
          else [sphere]
        Mass := 1 }
  | .BlackHole =>
      let sphere : GPUobject F :=
        { (GPUobject.init : GPUobject F) with
            r1 := 0.5
            m := { (GPUmaterial.init : GPUmaterial F) with
                    albedo := Vec3.splat 0, emission := 0 } }
      { o with
        Name := "Black Hole"
        hasRings := true
        gpuObjects :=
          [sphere,
           { (GPUobject.init : GPUobject F) with
              type := 1, r1 := sphere.r1 * 10.0, r2 := sphere.r1 * 1.5
              m := { (GPUmaterial.init : GPUmaterial F) with
                      albedo := ⟨1.0, 0.8, 0.3⟩, emission := 500 } }] }

/-- The method `SetupAs`. -/
def SetupAs (o : SceneObject F) (newType : ObjectType) : SceneObject F :=
  let currentPos := o.GetPosition
  let currentRot := o.Orientation
  let o1 := setupSwitch { o with Type_ := newType, gpuObjects := [] } newType
  let o2 := o1.SetPosition currentPos
  let o3 := { o2 with Orientation := currentRot }
  { o3 with gpuObjects := o3.gpuObjects.map fun g => { g with rot_quat := o3.Orientation } }

/-- The method `CheckForTypeTransition` for a given value of its local `schwarzschildRadius`:
the reading of `currentType` and `currentRadius`, the collapse branch and the `switch`. -/
def checkTransitions (schwarzschildRadius : F) (o : SceneObject F) : Option (SceneObject F) := do
  let MASS_LIMIT_ROCKY_TO_GIANT : F := 50
  let MASS_LIMIT_GIANT_TO_DWARF : F := 200
  let MASS_LIMIT_DWARF_TO_STAR : F := 600
  let currentType := o.Type_
  let currentRadius := (← o.GetGpuObject 0).r1
  if currentType ≠ ObjectType.BlackHole ∧ currentRadius < schwarzschildRadius then
    let collapsingMass := o.Mass
    let o1 := o.SetupAs ObjectType.BlackHole
    let o2 := { o1 with Mass := collapsingMass }
    let o3 ← o2.modifyGpuObject 0 fun sphere =>
      { sphere with r1 := schwarzschildRadius, m := { sphere.m with roughness := 0 } }
    o3.modifyGpuObject 1 fun disk =>
      { disk with r1 := schwarzschildRadius * 4.0, r2 := schwarzschildRadius * 1.5 }
  else
    match currentType with
    | .Star =>
        if o.Mass < MASS_LIMIT_DWARF_TO_STAR then some (o.SetupAs ObjectType.BrownDwarf)
        else some o
    | .BrownDwarf =>
        if o.Mass > MASS_LIMIT_DWARF_TO_STAR then some (o.SetupAs ObjectType.Star)
        else if o.Mass < MASS_LIMIT_GIANT_TO_DWARF then some (o.SetupAs ObjectType.GasGiant)
        else some o
    | .GasGiant =>
        if o.Mass > MASS_LIMIT_GIANT_TO_DWARF then some (o.SetupAs ObjectType.BrownDwarf)
        else if o.Mass < MASS_LIMIT_ROCKY_TO_GIANT then some (o.SetupAs ObjectType.RockyPlanet)
        else some o
    | .RockyPlanet =>
        if o.Mass > MASS_LIMIT_ROCKY_TO_GIANT then some (o.SetupAs ObjectType.GasGiant)
        else some o
    | .BlackHole => some o

/-- The method `CheckForTypeTransition`.  The constant `SCHWARZSCHILD_FACTOR` is the `float`
literal `0.005f`, which is the number `5368709 / 2^30` (a little below `0.005`); the product
`Mass * SCHWARZSCHILD_FACTOR` is taken exactly. -/
def CheckForTypeTransition (o : SceneObject F) : Option (SceneObject F) :=
  let SCHWARZSCHILD_FACTOR : F := 5368709 / 2 ^ 30
  let schwarzschildRadius := o.Mass * SCHWARZSCHILD_FACTOR
  checkTransitions schwarzschildRadius o

/-- The method `Update`. -/
def Update (ops : FloatOps F) (o : SceneObject F) (dt : F) : Option (SceneObject F) := do
  let o1 ← o.CheckForTypeTransition
  let displacement := o1.velocity * dt
  let o2 := o1.SetPosition (o1.GetPosition + displacement)
  let angle := length ops o2.AngularVelocity * dt
  if angle > 1e-6 then
    let axis := normalize ops o2.AngularVelocity
    let deltaRotation := quat_from_axis_angle ops axis angle
    let o3 := { o2 with Orientation := quat_mult o2.Orientation deltaRotation }
    some { o3 with gpuObjects := o3.gpuObjects.map fun g => { g with rot_quat := o3.Orientation } }
  else some o2

/-- The constructor `SceneObject(type, initial_position, mass)`.  The member `Mass` has no
initialiser, so its value before `SetupAs` runs is indeterminate: it is the parameter
`uninitMass`. -/
def construct (uninitMass : F) (type : ObjectType) (initial_position : Vec3 F) (mass : F) :
    SceneObject F :=
  let o0 : SceneObject F :=
    { Name := "", Type_ := type, Mass := uninitMass, velocity := Vec3.splat 0,
      Orientation := ⟨0, 0, 0, 1⟩, AngularVelocity := ⟨0, 0.15, 0⟩, hasRings := false,
      MaxTrailPoints := 500, TrailPoints := [], gpuObjects := [] }
  let o1 := o0.SetupAs type
  let o2 := if mass > 0 then { o1 with Mass := mass } else o1
  o2.SetPosition initial_position

end SceneObject

/-! ## `Application::update` -/

/-- The members of the class `Application` that `update` reads or writes, together with
the accumulation counters; `cameraTarget` stands for `camera->Target`. -/
structure Application (F : Type) where
  sceneObjects : List (SceneObject F)
  dt : F
  timeScale : F
  gravityEnabled : Bool
  gravitationalConstant : F
  selectedObjectIndex : Int
  cameraTarget : Vec3 F
  frame_acc_count : Int
  curr_acc_index : Int
deriving DecidableEq, Repr

/-- What one pass through the body of the inner `for (j ...)` loop of `update` leaves behind
once both `continue` guards are passed: either the collision branch ran (the loop is left by
`break` with the bodies and `objects_to_delete` as given), or the pass ended normally with
the given `totalForce`. -/
inductive PairOutcome (F : Type) where
  | merged (objs : List (SceneObject F)) (objects_to_delete : List Nat)
  | force (totalForce : Vec3 F)
deriving DecidableEq, Repr

section UpdateLoop

variable {F : Type} [LinearOrderedField F]

/-- The body of the inner loop of `Application::update` for the pair `(i, j)`, from
`SceneObject& obj_i = *sceneObjects[i]` to the end of the `if (gravityEnabled)` block. -/
def pairStep (ops : FloatOps F) (gravityEnabled : Bool) (gravitationalConstant : F)
    (sceneObjects : List (SceneObject F)) (objects_to_delete : List Nat) (totalForce : Vec3 F)
    (i j : Nat) : Option (PairOutcome F) := do
  let obj_i ← sceneObjects[i]?
  let obj_j ← sceneObjects[j]?
  let direction := obj_j.GetPosition - obj_i.GetPosition
  let distanceSq := dot direction direction
  let distance := ops.sqrt distanceSq
  let radius_i := (← obj_i.GetGpuObject 0).r1
  let radius_j := (← obj_j.GetGpuObject 0).r1
  if distance ≤ radius_i + radius_j then
    let larger_obj := if obj_i.Mass > obj_j.Mass then obj_i else obj_j
    let larger_obj_index := if obj_i.Mass > obj_j.Mass then i else j
    let smaller_obj := if obj_i.Mass > obj_j.Mass then obj_j else obj_i
    let smaller_obj_index := if obj_i.Mass > obj_j.Mass then j else i
    let new_velocity :=
      (larger_obj.velocity * larger_obj.Mass + smaller_obj.velocity * smaller_obj.Mass)
        / (larger_obj.Mass + smaller_obj.Mass)
    let r1_cubed := (← larger_obj.GetGpuObject 0).r1 ^ 3
    let r2_cubed := (← smaller_obj.GetGpuObject 0).r1 ^ 3
    let new_radius := ops.cbrt (r1_cubed + r2_cubed)
    let larger1 := { larger_obj with Mass := larger_obj.Mass + smaller_obj.Mass }
    let larger2 := { larger1 with velocity := new_velocity }
    let larger3 ← larger2.modifyGpuObject 0 fun g => { g with r1 := new_radius }
    some (PairOutcome.merged (sceneObjects.set larger_obj_index larger3)
      (objects_to_delete ++ [smaller_obj_index]))
  else if gravityEnabled then
    let distanceSq1 := if distanceSq < 1 then 1 else distanceSq
    let forceMagnitude := gravitationalConstant * (obj_i.Mass * obj_j.Mass) / distanceSq1
    some (PairOutcome.force (totalForce + normalize ops direction * forceMagnitude))
  else some (PairOutcome.force totalForce)

/-- The inner loop `for (int j = 0; j < sceneObjects.size(); ++j)` of `update`, run over the
remaining values `js` of `j`; it returns the bodies, `objects_to_delete` and `totalForce`
at the exit of the loop. -/
def innerLoop (ops : FloatOps F) (gravityEnabled : Bool) (gravitationalConstant : F) (i : Nat) :
    List Nat → List (SceneObject F) → List Nat → Vec3 F →
      Option (List (SceneObject F) × List Nat × Vec3 F)
  | [], sceneObjects, objects_to_delete, totalForce =>
      some (sceneObjects, objects_to_delete, totalForce)
  | j :: js, sceneObjects, objects_to_delete, totalForce =>
      if i = j then
        innerLoop ops gravityEnabled gravitationalConstant i js sceneObjects objects_to_delete
          totalForce
      else if j ∈ objects_to_delete then
        innerLoop ops gravityEnabled gravitationalConstant i js sceneObjects objects_to_delete
          totalForce
      else
        match pairStep ops gravityEnabled gravitationalConstant sceneObjects objects_to_delete
            totalForce i j with
        | none => none
        | some (PairOutcome.merged objs del) => some (objs, del, totalForce)
        | some (PairOutcome.force tf) =>
            innerLoop ops gravityEnabled gravitationalConstant i js sceneObjects objects_to_delete
              tf

/-- The statement `sceneObjects[i]->ApplyForce(totalForce, scaled_dt)`. -/
def applyForceAt (sceneObjects : List (SceneObject F)) (i : Nat) (totalForce : Vec3 F)
    (scaled_dt : F) : List (SceneObject F) :=
  sceneObjects.modify (fun o => o.ApplyForce totalForce scaled_dt) i

/-- One pass through the body of the outer loop of `update` for a body `i` that is not in
`objects_to_delete`: the inner loop over all `j`, then `ApplyForce` on body `i`. -/
def outerStep (ops : FloatOps F) (gravityEnabled : Bool) (gravitationalConstant : F)
    (scaled_dt : F) (i : Nat) (sceneObjects : List (SceneObject F))
    (objects_to_delete : List Nat) : Option (List (SceneObject F) × List Nat) :=
  match innerLoop ops gravityEnabled gravitationalConstant i (List.range sceneObjects.length)
      sceneObjects objects_to_delete (Vec3.splat 0) with
  | none => none
  | some (objs, del, totalForce) => some (applyForceAt objs i totalForce scaled_dt, del)

/-- The outer loop `for (int i = 0; i < sceneObjects.size(); ++i)` of `update`, run over
the remaining values `is` of `i`. -/
def outerLoop (ops : FloatOps F) (gravityEnabled : Bool) (gravitationalConstant : F)
    (scaled_dt : F) :
    List Nat → List (SceneObject F) → List Nat → Option (List (SceneObject F) × List Nat)
  | [], sceneObjects, objects_to_delete => some (sceneObjects, objects_to_delete)
  | i :: is, sceneObjects, objects_to_delete =>
      if i ∈ objects_to_delete then
        outerLoop ops gravityEnabled gravitationalConstant scaled_dt is sceneObjects
          objects_to_delete
      else
        match outerStep ops gravityEnabled gravitationalConstant scaled_dt i sceneObjects
            objects_to_delete with
        | none => none
        | some (objs, del) =>
            outerLoop ops gravityEnabled gravitationalConstant scaled_dt is objs del

/-- The whole pair loop of `update`, started with an empty `objects_to_delete`. -/
def pairLoop (ops : FloatOps F) (gravityEnabled : Bool) (gravitationalConstant : F)
    (scaled_dt : F) (sceneObjects : List (SceneObject F)) :
    Option (List (SceneObject F) × List Nat) :=
  outerLoop ops gravityEnabled gravitationalConstant scaled_dt (List.range sceneObjects.length)
    sceneObjects []

/-- The removal block of `update`: `objects_to_delete` is sorted in descending order and
`sceneObjects.erase(sceneObjects.begin() + index)` is run for each index in that order. -/
def eraseMarked (sceneObjects : List (SceneObject F)) (objects_to_delete : List Nat) :
    List (SceneObject F) :=
  (objects_to_delete.insertionSort (fun a b => b ≤ a)).foldl (fun objs index => objs.eraseIdx index)
    sceneObjects

/-- The loop `for (auto& obj : sceneObjects) obj->Update(scaled_dt)`. -/
def updateAll (ops : FloatOps F) (scaled_dt : F) :
    List (SceneObject F) → Option (List (SceneObject F))
  | [] => some []
  | obj :: rest =>
      match obj.Update ops scaled_dt with
      | none => none
      | some obj1 =>
          match updateAll ops scaled_dt rest with
          | none => none
          | some rest1 => some (obj1 :: rest1)

/-- The centre of mass computed at the start of `update`. -/
def centerOfMassOf (sceneObjects : List (SceneObject F)) : Vec3 F :=
  if sceneObjects.isEmpty then Vec3.splat 0
  else
    let weightedPositionSum :=
      sceneObjects.foldl (fun acc obj => acc + obj.GetPosition * obj.Mass) (Vec3.splat 0)
    let totalMass := sceneObjects.foldl (fun acc obj => acc + obj.Mass) (0 : F)
    if totalMass > 0 then weightedPositionSum / totalMass else Vec3.splat 0

end UpdateLoop

section Trails

variable {F : Type} [LinearOrderedField F] [FloorRing F]

/-- The conversion `static_cast<size_t>(q)` of a `float`: truncation towards zero, which is
undefined (here: `none`) when the truncated value is not a 64-bit unsigned number. -/
def floatToSizeT (q : F) : Option Nat :=
  if -1 < q ∧ q < 2 ^ 64 then some (Int.toNat ⌊q⌋) else none

/-- The conversion of a `size_t` to the `int` member `MaxTrailPoints` (two-complement wrap). -/
def sizeTToInt (n : Nat) : Int :=
  let r : Int := (n : Int) % 2 ^ 32
  if r < 2 ^ 31 then r else r - 2 ^ 32

/-- The conversion of the `int` member `MaxTrailPoints` to `size_t` in the comparison
`obj.TrailPoints.size() > obj.MaxTrailPoints`. -/
def intToSizeT (k : Int) : Nat := Int.toNat (k % 2 ^ 64)

/-- The value of `timeScale * (std::pow(speed, 2) + 1)`: `std::pow(speed, 2)` is a `double`,
so the square, the sum and the product are each rounded to `double`. -/
def trailDenominator (ops : FloatOps F) (timeScale speed : F) : F :=
  ops.toDouble (timeScale * ops.toDouble (ops.toDouble (speed ^ 2) + 1))

/-- The value of `30000 / (timeScale * (std::pow(speed, 2) + 1))`, computed in `double`. -/
def trailQuotient (ops : FloatOps F) (timeScale speed : F) : F :=
  ops.toDouble (30000 / trailDenominator ops timeScale speed)

/-- The body of the per-body loop of `update_trails` for a body whose local `speed` has been
computed: from the assignment to `MaxTrailPoints` to the `while` loop that pops the back of
the trail (the vertex upload that follows is rendering only).  A zero denominator makes the
quotient infinite, and the conversion of an infinity to `size_t` is undefined (here:
`none`). -/
def trailStep (ops : FloatOps F) (timeScale : F) (centerOfMass : Vec3 F) (speed : F)
    (obj : SceneObject F) : Option (SceneObject F) :=
  if trailDenominator ops timeScale speed = 0 then none
  else
    match floatToSizeT (trailQuotient ops timeScale speed) with
    | none => none
    | some n =>
        let obj1 := { obj with MaxTrailPoints := sizeTToInt n }
        let obj2 :=
          { obj1 with TrailPoints := (obj1.GetPosition - centerOfMass) :: obj1.TrailPoints }
        some { obj2 with TrailPoints := obj2.TrailPoints.take (intToSizeT obj2.MaxTrailPoints) }

/-- The value of the local `speed` of the per-body loop of `update_trails`.  With a zero
`totalMass` the code divides by zero and goes on with infinities or with values that are not
numbers; the model has no such values (here: `none`). -/
def relativeSpeed (ops : FloatOps F) (weightedVelocitySum : Vec3 F) (totalMass : F)
    (obj : SceneObject F) : Option F :=
  if totalMass = 0 then none
  else some (length ops (obj.velocity - weightedVelocitySum / totalMass))

/-- The body of the per-body loop of `update_trails`: the computation of `speed`, then
`trailStep`. -/
def updateTrail (ops : FloatOps F) (timeScale : F) (centerOfMass : Vec3 F)
    (weightedVelocitySum : Vec3 F) (totalMass : F) (obj : SceneObject F) :
    Option (SceneObject F) :=
  match relativeSpeed ops weightedVelocitySum totalMass obj with
  | none => none
  | some speed => trailStep ops timeScale centerOfMass speed obj

/-- The loop over the bodies in `update_trails`. -/
def updateTrailsLoop (ops : FloatOps F) (timeScale : F) (centerOfMass : Vec3 F)
    (weightedVelocitySum : Vec3 F) (totalMass : F) :
    List (SceneObject F) → Option (List (SceneObject F))
  | [] => some []
  | obj :: rest =>
      match updateTrail ops timeScale centerOfMass weightedVelocitySum totalMass obj with
      | none => none
      | some obj1 =>
          match updateTrailsLoop ops timeScale centerOfMass weightedVelocitySum totalMass rest with
          | none => none
          | some rest1 => some (obj1 :: rest1)

/-- The method `Application::update_trails` on the bodies (the OpenGL buffers of the trail
renderers are not modelled). -/
def update_trails (ops : FloatOps F) (timeScale : F) (centerOfMass : Vec3 F)
    (sceneObjects : List (SceneObject F)) : Option (List (SceneObject F)) :=
  let totalMass := sceneObjects.foldl (fun acc obj => acc + obj.Mass) (0 : F)
  let weightedVelocitySum :=
    sceneObjects.foldl (fun acc obj => acc + obj.velocity * obj.Mass) (Vec3.mk 0 0 0)
  updateTrailsLoop ops timeScale centerOfMass weightedVelocitySum totalMass sceneObjects

/-- The method `Application::update`. -/
def update (ops : FloatOps F) (app : Application F) : Option (Application F) := do
  let centerOfMass := centerOfMassOf app.sceneObjects
  let scaled_dt := app.dt * app.timeScale
  let app1 ←
    if scaled_dt > 0 then do
      let (objs, objects_to_delete) ←
        pairLoop ops app.gravityEnabled app.gravitationalConstant scaled_dt app.sceneObjects
      let objs1 := if objects_to_delete.isEmpty then objs else eraseMarked objs objects_to_delete
      let objs2 ← updateAll ops scaled_dt objs1
      let objs3 ← update_trails ops app.timeScale centerOfMass objs2
      some { app with sceneObjects := objs3 }
    else some app
  if 0 ≤ app1.selectedObjectIndex ∧ app1.selectedObjectIndex < app1.sceneObjects.length then
    let obj ← app1.sceneObjects[app1.selectedObjectIndex.toNat]?
    some { app1 with cameraTarget := obj.GetPosition }
  else some { app1 with cameraTarget := centerOfMass }

end Trails

/-! ## `Application::update_uniform_buffer_object` -/

/-- The struct `ObjectUBOData`: the array `objects` of `MAX_OBJECTS_CPP` records and the
number of active records. -/
structure ObjectUBOData (F : Type) where
  objects : List (GPUobject F)
  num_objects_active : Int
deriving DecidableEq, Repr

section UniformBuffer

variable {F : Type} [LinearOrderedField F]

/-- The inner loop `for (size_t i = 0; i < sceneObj->GetGpuObjectCount(); ++i)` of
`update_uniform_buffer_object`, run over the remaining values `is` of `i`, on the array
`objects` of `uboData` and on `current_gpu_object_index`; the first branch is the `break`.
A write outside the array is undefined (here: `none`). -/
def uboInnerLoop (sceneObj : SceneObject F) :
    List Nat → List (GPUobject F) → Nat → Option (List (GPUobject F) × Nat)
  | [], objects, current_gpu_object_index => some (objects, current_gpu_object_index)
  | i :: is, objects, current_gpu_object_index =>
      if current_gpu_object_index ≥ MAX_OBJECTS_CPP then
        some (objects, current_gpu_object_index)
      else
        match sceneObj.GetGpuObject i with
        | none => none
        | some g =>
            if current_gpu_object_index < objects.length then
              uboInnerLoop sceneObj is (objects.set current_gpu_object_index g)
                (current_gpu_object_index + 1)
            else none

/-- The loop `for (const auto& sceneObj : sceneObjects)` of `update_uniform_buffer_object`. -/
def uboOuterLoop :
    List (SceneObject F) → List (GPUobject F) → Nat → Option (List (GPUobject F) × Nat)
  | [], objects, current_gpu_object_index => some (objects, current_gpu_object_index)
  | sceneObj :: rest, objects, current_gpu_object_index =>
      match uboInnerLoop sceneObj (List.range sceneObj.GetGpuObjectCount) objects
          current_gpu_object_index with
      | none => none
      | some (objects1, index1) => uboOuterLoop rest objects1 index1

/-- The method `Application::update_uniform_buffer_object` up to the upload of `uboData`.
The local `uboData` is not initialised by the code: the contents of its array before the
loops are the parameter `uninitObjects`. -/
def update_uniform_buffer_object (uninitObjects : List (GPUobject F))
    (sceneObjects : List (SceneObject F)) : Option (ObjectUBOData F) :=
  match uboOuterLoop sceneObjects uninitObjects 0 with
  | none => none
  | some (objects, current_gpu_object_index) =>
      some { objects := objects, num_objects_active := current_gpu_object_index }

end UniformBuffer

/-! ## `Application::render`: the accumulation block -/

/-- The class `Application` together with the further members that the accumulation block
of `render` reads or writes: `cameraFov`, `cameraDistance`, `cameraYaw` and `cameraPitch`
stand for `camera->Fov`, `camera->Distance`, `camera->Yaw` and `camera->Pitch`. -/
structure RenderState (F : Type) extends Application F where
  cameraFov : F
  cameraDistance : F
  cameraYaw : F
  cameraPitch : F
  last_fov : F
  last_distance : F
  last_yaw : F
  last_pitch : F
  last_timeScale : F
  lastSelectedObjectIndex : Int
deriving DecidableEq, Repr

section Accumulation

variable {F : Type} [LinearOrderedField F] [FloorRing F]

/-- The conversion `static_cast<int>(q)` of a `float`: truncation towards zero, which is
undefined (here: `none`) when the truncated value is not a 32-bit signed number. -/
def floatToInt (q : F) : Option Int :=
  if -(2 ^ 31 : F) - 1 < q ∧ q < 2 ^ 31 then some (if 0 ≤ q then ⌊q⌋ else ⌈q⌉) else none

/-- The value of `0.85f / timeScale + 0.15f`, computed in `float`: the literals `0.85f` and
`0.15f` are the numbers `7130317 / 2^23` and `5033165 / 2^25`, and the quotient and the sum
are each rounded to `float`. -/
def accumulationValue (ops : FloatOps F) (timeScale : F) : F :=
  ops.toFloat (ops.toFloat (7130317 / 2 ^ 23 / timeScale) + 5033165 / 2 ^ 25)

/-- The accumulation block of `Application::render`, from the reading of the camera state
to `lastSelectedObjectIndex = selectedObjectIndex` (the camera position and orientation kept
for the reprojection pass are not modelled). -/
def render_observe (ops : FloatOps F) (s : RenderState F) : Option (RenderState F) := do
  let curr_fov := s.cameraFov
  let curr_distance := s.cameraDistance
  let curr_yaw := s.cameraYaw
  let curr_pitch := s.cameraPitch
  let frame_acc_count ←
    if curr_fov = s.last_fov ∧ curr_distance = s.last_distance ∧ curr_yaw = s.last_yaw ∧
        curr_pitch = s.last_pitch ∧ s.timeScale = s.last_timeScale ∧
        s.selectedObjectIndex = s.lastSelectedObjectIndex then do
      let max_frame_count : Int ←
        if s.timeScale ≤ 0 then some 100000
        else if s.timeScale < 1 then floatToInt (accumulationValue ops s.timeScale)
        else some 1
      some (if s.frame_acc_count < max_frame_count then s.frame_acc_count + 1
        else s.frame_acc_count)
    else some 1
  some { s with
    frame_acc_count := frame_acc_count
    last_fov := curr_fov
    last_distance := curr_distance
    last_yaw := curr_yaw
    last_pitch := curr_pitch
    last_timeScale := s.timeScale
    lastSelectedObjectIndex := s.selectedObjectIndex }

/-- The accumulation block run in `n` consecutive frames with nothing else changing the
state in between. -/
def render_observe_frames (ops : FloatOps F) : Nat → RenderState F → Option (RenderState F)
  | 0, s => some s
  | n + 1, s =>
      match render_observe ops s with
      | none => none
      | some s1 => render_observe_frames ops n s1

end Accumulation

/-! ## Scene edits: `add_object`, `delete_object`, `load_scene_from_file` -/

section SceneEdits

variable {F : Type} [LinearOrderedField F]

/-- The function `cross` of `vec.h`. -/
def cross (a b : Vec3 F) : Vec3 F :=
  ⟨a.y * b.z - a.z * b.y, a.z * b.x - a.x * b.z, a.x * b.y - a.y * b.x⟩

/-- The function `quat_conj` of `Camera.cpp`. -/
def quat_conj (q : Vec4 F) : Vec4 F := ⟨-q.x, -q.y, -q.z, q.w⟩

/-- The function `rotate` of `Camera.cpp`. -/
def rotate (qr : Vec4 F) (v : Vec3 F) : Vec3 F :=
  let p : Vec4 F := ⟨v.x, v.y, v.z, 0⟩
  let qr_conj := quat_conj qr
  let res := quat_mult (quat_mult qr p) qr_conj
  ⟨res.x, res.y, res.z⟩

/-- The method `Application::calculate_orbital_velocity`; the constant `DegreesToRadians`
of the header `Angel.h` is a parameter. -/
def calculate_orbital_velocity (ops : FloatOps F) (DegreesToRadians : F)
    (gravitationalConstant : F) (parentMass newObjectMass : F) (directionToNew : Vec3 F)
    (distance eccentricity inclination : F) : Vec3 F :=
  let totalMass := parentMass
  if totalMass ≤ 0 then Vec3.splat 0
  else
    let semiMajorAxis := distance / (1.0 - eccentricity + 1e-6)
    let totalMass1 := totalMass + newObjectMass
    let speedSq := gravitationalConstant * totalMass1 * ((2.0 / distance) - (1.0 / semiMajorAxis))
    if speedSq < 0 then Vec3.splat 0
    else
      let speed := ops.sqrt speedSq
      let up_vec : Vec3 F := ⟨0.0, 1.0, 0.0⟩
      let flat_velocity_dir := normalize ops (cross directionToNew up_vec)
      let inclination_axis := directionToNew
      let inclination_quat :=
        quat_from_axis_angle ops inclination_axis (DegreesToRadians * inclination)
      let final_velocity_dir := rotate inclination_quat flat_velocity_dir
      final_velocity_dir * speed

/-- The method `Application::add_object`.  The constants `M_PI` and `DegreesToRadians`, the
value `rand_value` returned by `rand()`, the constant `RAND_MAX` and the indeterminate
initial `Mass` of the new body are parameters; `init_trails` touches rendering buffers
only. -/
def add_object (ops : FloatOps F) (M_PI DegreesToRadians : F) (rand_value RAND_MAX : Nat)
    (uninitMass : F) (app : Application F) (type : ObjectType)
    (mass distance eccentricity inclination : F) : Application F :=
  let app1 := if app.sceneObjects.isEmpty then { app with selectedObjectIndex := -1 } else app
  let parentObject : Option (SceneObject F) :=
    if 0 ≤ app1.selectedObjectIndex ∧ app1.selectedObjectIndex < app1.sceneObjects.length then
      app1.sceneObjects[app1.selectedObjectIndex.toNat]?
    else none
  let parentMass : F := match parentObject with
    | some o => o.Mass
    | none => 0
  let parentVelocity : Vec3 F := match parentObject with
    | some o => o.velocity
    | none => Vec3.splat 0
  let parentPosition : Vec3 F := match parentObject with
    | some o => o.GetPosition
    | none => Vec3.splat 0
  let randomAngle := ((rand_value : F) / (RAND_MAX : F)) * 2.0 * M_PI
  let directionOnPlane := normalize ops ⟨ops.cos randomAngle, 0.0, ops.sin randomAngle⟩
  let initialPosition := parentPosition + directionOnPlane * distance
  let relativeOrbitalVel :=
    calculate_orbital_velocity ops DegreesToRadians app1.gravitationalConstant parentMass mass
      directionOnPlane distance eccentricity inclination
  let initialVelocity := parentVelocity + relativeOrbitalVel
  let new_obj := SceneObject.construct uninitMass type initialPosition mass
  let new_obj1 := { new_obj with velocity := initialVelocity }
  { app1 with sceneObjects := app1.sceneObjects ++ [new_obj1], frame_acc_count := 1 }

/-- The method `Application::delete_object` (`init_trails` touches rendering buffers only). -/
def delete_object (app : Application F) (obj_index : Int) : Application F :=
  if obj_index < 0 ∨ obj_index ≥ app.sceneObjects.length then app
  else
    { app with
      sceneObjects := app.sceneObjects.eraseIdx obj_index.toNat
      frame_acc_count := 1 }

/-- What the stream reads of `load_scene_from_file` deliver: the file cannot be opened; the
body count cannot be read; or the count is read and the loop over the records has built the
given bodies. -/
inductive SceneFileRead (F : Type) where
  | notOpened
  | noCount
  | loaded (objs : List (SceneObject F))

/-- The control flow of the method `Application::load_scene_from_file` around its stream
reads, whose outcome is the argument `file`. -/
def load_scene_from_file (file : SceneFileRead F) (app : Application F) : Application F :=
  match file with
  | .notOpened => app
  | .noCount => { app with sceneObjects := [] }
  | .loaded objs => { app with sceneObjects := objs, frame_acc_count := 1 }

end SceneEdits

/-! ## Scene files: the text of `save_scene_to_file` and the reads of `load_scene_from_file` -/

/-- A white-space separated item of the text of a scene file: a number written for a
`float` (with its value: the text format is taken to be exact), an integer, or any other
word. -/
inductive SceneToken (F : Type) where
  | num (value : F)
  | int (value : Int)
  | word (text : String)
deriving DecidableEq, Repr

section SceneFiles

variable {F : Type} [LinearOrderedField F]

/-- The test `isspace` on a character: the blank and the characters 9 to 13. -/
def isSpace (c : Char) : Bool := c.toNat = 32 || (9 ≤ c.toNat && c.toNat ≤ 13)

/-- The white-space separated words of a text; `cur` is the word being read, reversed. -/
def wordsAux : List Char → List Char → List (List Char)
  | [], cur => if cur = [] then [] else [cur.reverse]
  | c :: cs, cur =>
      if isSpace c then
        if cur = [] then wordsAux cs [] else cur.reverse :: wordsAux cs []
      else wordsAux cs (c :: cur)

/-- The items that `outfile << name_to_save` contributes to the text of the file: none for
an empty name, one for a name without white space. -/
def nameTokens (name_to_save : String) : List (SceneToken F) :=
  (wordsAux name_to_save.data []).map fun w => SceneToken.word (String.mk w)

/-- The value `static_cast<int>(sceneObj.Type)`. -/
def typeToInt : ObjectType → Int
  | .Star => 0
  | .BrownDwarf => 1
  | .GasGiant => 2
  | .RockyPlanet => 3
  | .BlackHole => 4

/-- The line that `save_scene_to_file` writes for one geometry record. -/
def saveGpuObject (gpuObj : GPUobject F) : List (SceneToken F) :=
  [.num gpuObj.r1, .num gpuObj.r2,
   .num gpuObj.m.albedo.x, .num gpuObj.m.albedo.y, .num gpuObj.m.albedo.z,
   .num gpuObj.m.emission, .num gpuObj.m.metallic, .num gpuObj.m.roughness,
   .int gpuObj.m.textureID]

/-- The lines that `save_scene_to_file` writes for one body. -/
def saveBody (sceneObj : SceneObject F) : List (SceneToken F) :=
  let name_to_save :=
    String.mk (sceneObj.Name.data.map fun c => if c = Char.ofNat 32 then Char.ofNat 95 else c)
  [.int (typeToInt sceneObj.Type_)] ++ nameTokens name_to_save ++
  [.num sceneObj.Mass,
   .num sceneObj.GetPosition.x, .num sceneObj.GetPosition.y, .num sceneObj.GetPosition.z,
   .num sceneObj.velocity.x, .num sceneObj.velocity.y, .num sceneObj.velocity.z,
   .num sceneObj.Orientation.x, .num sceneObj.Orientation.y, .num sceneObj.Orientation.z,
   .num sceneObj.Orientation.w,
   .num sceneObj.AngularVelocity.x, .num sceneObj.AngularVelocity.y,
   .num sceneObj.AngularVelocity.z,
   .int (if sceneObj.hasRings then 1 else 0)] ++
  (sceneObj.gpuObjects.map saveGpuObject).flatten ++
  [.word "---"]

/-- The text that `save_scene_to_file` writes when the file can be opened. -/
def save_scene_to_file (sceneObjects : List (SceneObject F)) : List (SceneToken F) :=
  .int sceneObjects.length :: (sceneObjects.map saveBody).flatten

/-- The read `infile >> x` of a `float`; `none` when the next item is not a number (the
stream is then in its fail state, which is not modelled further). -/
def readFloat : List (SceneToken F) → Option (F × List (SceneToken F))
  | .num q :: rest => some (q, rest)
  | .int k :: rest => some ((k : F), rest)
  | _ => none

/-- The read `infile >> x` of an `int`; `none` when the next item is not an integer. -/
def readInt : List (SceneToken F) → Option (Int × List (SceneToken F))
  | .int k :: rest => some (k, rest)
  | _ => none

/-- The read `infile >> s` of a `std::string`; `none` at the end of the file and on a
number, whose text is not modelled. -/
def readWord : List (SceneToken F) → Option (String × List (SceneToken F))
  | .word s :: rest => some (s, rest)
  | _ => none

/-- The conversion `static_cast<ObjectType>(type_int)`; `none` outside the enumeration. -/
def intToObjectType : Int → Option ObjectType
  | 0 => some .Star
  | 1 => some .BrownDwarf
  | 2 => some .GasGiant
  | 3 => some .RockyPlanet
  | 4 => some .BlackHole
  | _ => none

/-- Three reads of a `float` in a row, into the members of a `vec3`. -/
def readVec3 (tokens : List (SceneToken F)) : Option (Vec3 F × List (SceneToken F)) :=
  match readFloat tokens with
  | none => none
  | some (x, t1) =>
      match readFloat t1 with
      | none => none
      | some (y, t2) =>
          match readFloat t2 with
          | none => none
          | some (z, t3) => some (⟨x, y, z⟩, t3)

/-- The body of the loop over the geometry records in `load_scene_from_file`. -/
def loadGpuObject (gpuObj : GPUobject F) (tokens : List (SceneToken F)) :
    Option (GPUobject F × List (SceneToken F)) := do
  let r1 ← readFloat tokens
  let r2 ← readFloat r1.2
  let albedo ← readVec3 r2.2
  let emission ← readFloat albedo.2
  let metallic ← readFloat emission.2
  let roughness ← readFloat metallic.2
  let textureID ← readInt roughness.2
  some ({ gpuObj with
      r1 := r1.1, r2 := r2.1
      m := { gpuObj.m with
        albedo := albedo.1, emission := emission.1, metallic := metallic.1,
        roughness := roughness.1, textureID := textureID.1 } }, textureID.2)

/-- The loop `for (size_t j = 0; j < sceneObj.GetGpuObjectCount(); ++j)` of
`load_scene_from_file`. -/
def loadGpuObjects :
    List (GPUobject F) → List (SceneToken F) → Option (List (GPUobject F) × List (SceneToken F))
  | [], tokens => some ([], tokens)
  | gpuObj :: rest, tokens =>
      match loadGpuObject gpuObj tokens with
      | none => none
      | some (gpuObj1, t) =>
          match loadGpuObjects rest t with
          | none => none
          | some (rest1, t1) => some (gpuObj1 :: rest1, t1)

/-- The reads of `load_scene_from_file` for one body between the name and the rings flag:
`Mass`, the position, `velocity`, `Orientation` and `AngularVelocity`. -/
def readMotion (tokens : List (SceneToken F)) :
    Option ((F × Vec3 F × Vec3 F × Vec4 F × Vec3 F) × List (SceneToken F)) := do
  let mass ← readFloat tokens
  let loadedPosition ← readVec3 mass.2
  let velocity ← readVec3 loadedPosition.2
  let orientation ← readVec3 velocity.2
  let orientation_w ← readFloat orientation.2
  let angularVelocity ← readVec3 orientation_w.2
  some ((mass.1, loadedPosition.1, velocity.1,
    ⟨orientation.1.x, orientation.1.y, orientation.1.z, orientation_w.1⟩, angularVelocity.1),
    angularVelocity.2)

/-- The statements of `load_scene_from_file` for one body from `bool shouldHaveRings` to the
read of the separator, on the body `sceneObj` holding the values read so far. -/
def loadGeometry (sceneObj : SceneObject F) (type : ObjectType) (rings_int : Int)
    (loadedPosition : Vec3 F) (tokens : List (SceneToken F)) :
    Option (SceneObject F × List (SceneToken F)) :=
  let shouldHaveRings : Bool := rings_int == 1
  let sceneObj1 : SceneObject F :=
    if sceneObj.hasRings ≠ shouldHaveRings then
      SceneObject.SetupAs { sceneObj with hasRings := shouldHaveRings } type
    else sceneObj
  match loadGpuObjects sceneObj1.gpuObjects tokens with
  | none => none
  | some (gpuObjects, t) =>
      let sceneObj2 := SceneObject.SetPosition { sceneObj1 with gpuObjects := gpuObjects }
        loadedPosition
      let sceneObj3 := { sceneObj2 with
        gpuObjects := sceneObj2.gpuObjects.map fun g =>
          { g with rot_quat := sceneObj2.Orientation } }
      match readWord t with
      | none => none
      | some (_, t1) => some (sceneObj3, t1)

/-- The body of the loop over the bodies in `load_scene_from_file`; `uninitMass` is the
indeterminate `Mass` of a body under construction. -/
def loadBody (uninitMass : F) (tokens : List (SceneToken F)) :
    Option (SceneObject F × List (SceneToken F)) := do
  let type_int ← readInt tokens
  let type ← intToObjectType type_int.1
  let new_scene_object := SceneObject.construct uninitMass type (Vec3.splat 0) 0
  let name_from_file ← readWord type_int.2
  let motion ← readMotion name_from_file.2
  let rings_int ← readInt motion.2
  let sceneObj : SceneObject F :=
    { new_scene_object with
      Name := String.mk
        (name_from_file.1.data.map fun c => if c = Char.ofNat 95 then Char.ofNat 32 else c)
      Mass := motion.1.1
      velocity := motion.1.2.2.1
      Orientation := motion.1.2.2.2.1
      AngularVelocity := motion.1.2.2.2.2 }
  loadGeometry sceneObj type rings_int.1 motion.1.2.1 rings_int.2

/-- The loop `for (size_t i = 0; i < object_count; ++i)` of `load_scene_from_file`. -/
def loadBodies (uninitMass : F) :
    Nat → List (SceneToken F) → Option (List (SceneObject F))
  | 0, _ => some []
  | n + 1, tokens =>
      match loadBody uninitMass tokens with
      | none => none
      | some (sceneObj, t) =>
          match loadBodies uninitMass n t with
          | none => none
          | some rest => some (sceneObj :: rest)

/-- What the stream reads of `load_scene_from_file` deliver on the text of a file (`none`
for a file that cannot be opened).  The result is `none` when a read inside the loop fails
(the code then goes on with the stream in its fail state, which is not modelled) and when
the count is negative (the read of a negative number into a `size_t` is not modelled). -/
def readSceneFile (uninitMass : F) : Option (List (SceneToken F)) → Option (SceneFileRead F)
  | none => some SceneFileRead.notOpened
  | some tokens =>
      match tokens with
      | .int object_count :: rest =>
          if 0 ≤ object_count then
            (loadBodies uninitMass object_count.toNat rest).map SceneFileRead.loaded
          else none
      | _ => some SceneFileRead.noCount

end SceneFiles

/-! ## The life of one body -/

section BodySteps

variable {F : Type} [LinearOrderedField F]

/-- The assignments that the collision branch of `update` makes to `larger_obj`, from
`vec3 new_velocity = ...` to `larger_obj->GetGpuObject(0).r1 = new_radius`. -/
def absorb (ops : FloatOps F) (larger_obj smaller_obj : SceneObject F) :
    Option (SceneObject F) := do
  let new_velocity :=
    (larger_obj.velocity * larger_obj.Mass + smaller_obj.velocity * smaller_obj.Mass)
      / (larger_obj.Mass + smaller_obj.Mass)
  let r1_cubed := (← larger_obj.GetGpuObject 0).r1 ^ 3
  let r2_cubed := (← smaller_obj.GetGpuObject 0).r1 ^ 3
  let new_radius := ops.cbrt (r1_cubed + r2_cubed)
  let larger1 := { larger_obj with Mass := larger_obj.Mass + smaller_obj.Mass }
  let larger2 := { larger1 with velocity := new_velocity }
  larger2.modifyGpuObject 0 fun g => { g with r1 := new_radius }

/-- What `update` can do to a body that stays in the world: `ApplyForce`, the absorption of
a smaller body in a merge, and `Update`. -/
inductive BodyStep (F : Type) where
  | force (totalForce : Vec3 F) (dt : F)
  | merge (smaller_obj : SceneObject F)
  | update (dt : F)

/-- One step in the life of a body. -/
def bodyStep (ops : FloatOps F) (o : SceneObject F) : BodyStep F → Option (SceneObject F)
  | .force totalForce dt => some (o.ApplyForce totalForce dt)
  | .merge smaller_obj => absorb ops o smaller_obj
  | .update dt => o.Update ops dt

/-- A sequence of steps in the life of a body. -/
def bodySteps (ops : FloatOps F) : SceneObject F → List (BodyStep F) → Option (SceneObject F)
  | o, [] => some o
  | o, st :: rest =>
      match bodyStep ops o st with
      | none => none
      | some o1 => bodySteps ops o1 rest

end BodySteps

/-! ## Vocabulary of the statements -/

section Vocabulary

variable {F : Type} [LinearOrderedField F]

/-- Componentwise addition makes `vec3` a commutative group, so that forces and momenta can
be summed over a finite set of bodies. -/
instance : AddCommGroup (Vec3 F) where
  add_assoc a b c :=
    Vec3.ext (add_assoc a.x b.x c.x) (add_assoc a.y b.y c.y) (add_assoc a.z b.z c.z)
  zero_add a := Vec3.ext (zero_add a.x) (zero_add a.y) (zero_add a.z)
  add_zero a := Vec3.ext (add_zero a.x) (add_zero a.y) (add_zero a.z)
  add_comm a b := Vec3.ext (add_comm a.x b.x) (add_comm a.y b.y) (add_comm a.z b.z)
  neg_add_cancel a :=
    Vec3.ext (neg_add_cancel a.x) (neg_add_cancel a.y) (neg_add_cancel a.z)
  sub_eq_add_neg a b :=
    Vec3.ext (sub_eq_add_neg a.x b.x) (sub_eq_add_neg a.y b.y) (sub_eq_add_neg a.z b.z)
  nsmul := nsmulRec
  zsmul := zsmulRec

/-- The collision test of `update` on two bodies: both have a primary geometry record and
`distance <= radius_i + radius_j`. -/
def Collides (ops : FloatOps F) (obj_i obj_j : SceneObject F) : Prop :=
  ∃ gi gj, obj_i.GetGpuObject 0 = some gi ∧ obj_j.GetGpuObject 0 = some gj ∧
    ops.sqrt (dot (obj_j.GetPosition - obj_i.GetPosition) (obj_j.GetPosition - obj_i.GetPosition))
      ≤ gi.r1 + gj.r1

/-- Every body of the world has a primary geometry record (`GetGpuObject(0)` does not
throw). -/
def HasGeometry (sceneObjects : List (SceneObject F)) : Prop :=
  ∀ o ∈ sceneObjects, o.gpuObjects ≠ []

/-- A world in which every body has a primary geometry record and no two bodies pass the
collision test. -/
def CollisionFree (ops : FloatOps F) (sceneObjects : List (SceneObject F)) : Prop :=
  HasGeometry sceneObjects ∧
  ∀ (i j : Nat) (oi oj : SceneObject F), i ≠ j → sceneObjects[i]? = some oi → sceneObjects[j]? = some oj →
    ¬ Collides ops oi oj

/-- The pairwise force of the specification on body `i` from body `j`:
`G * m_i * m_j / max(|p_j - p_i|^2, 1)` times the unit vector from `i` to `j`. -/
def gravityForce (ops : FloatOps F) (G : F) (obj_i obj_j : SceneObject F) : Vec3 F :=
  let direction := obj_j.GetPosition - obj_i.GetPosition
  let unit := direction / ops.sqrt (dot direction direction)
  unit * (G * obj_i.Mass * obj_j.Mass / max (dot direction direction) 1)

/-- The force of the specification on body `i` from the body at index `j` of a world. -/
def forceFrom (ops : FloatOps F) (G : F) (sceneObjects : List (SceneObject F))
    (obj_i : SceneObject F) (j : Nat) : Vec3 F :=
  match sceneObjects[j]? with
  | some obj_j => gravityForce ops G obj_i obj_j
  | none => 0

/-- The net force of the specification on the body `obj_i` at index `i`: the sum of the
pairwise forces over every other index `j` of the world, each exactly once. -/
def netForce (ops : FloatOps F) (G : F) (sceneObjects : List (SceneObject F))
    (obj_i : SceneObject F) (i : Nat) : Vec3 F :=
  ∑ j in (Finset.range sceneObjects.length).erase i, forceFrom ops G sceneObjects obj_i j

/-- The total momentum of a world: the sum over the bodies of `velocity * Mass`. -/
def totalMomentum (sceneObjects : List (SceneObject F)) : Vec3 F :=
  (sceneObjects.map fun o => o.velocity * o.Mass).sum

/-- Two bodies with the same mass and the same geometry records (they may differ in
velocity). -/
def SameBody (a b : SceneObject F) : Prop := a.Mass = b.Mass ∧ a.gpuObjects = b.gpuObjects

/-- Two worlds of the same size whose bodies agree index by index in mass and geometry. -/
def SameBodies (cur objs : List (SceneObject F)) : Prop :=
  cur.length = objs.length ∧
    ∀ (k : Nat) (a b : SceneObject F), cur[k]? = some a → objs[k]? = some b → SameBody a b

/-- The value of `g` at the body of index `k`, and zero outside the world. -/
def atIndex (g : SceneObject F → Vec3 F) (l : List (SceneObject F)) (k : Nat) : Vec3 F :=
  match l[k]? with
  | some o => g o
  | none => 0

/-- The primary radius of every body that has one is non-negative. -/
def RadiiNonneg (sceneObjects : List (SceneObject F)) : Prop :=
  ∀ o ∈ sceneObjects, ∀ g, o.GetGpuObject 0 = some g → 0 ≤ g.r1

/-- The inner-loop body `pairStep` with the division in `normalize(direction)` made
partial: `none` when the gravity branch is taken with gravity enabled and the length of
`direction` is zero. -/
def pairStepChecked (ops : FloatOps F) (gravityEnabled : Bool) (gravitationalConstant : F)
    (sceneObjects : List (SceneObject F)) (objects_to_delete : List Nat) (totalForce : Vec3 F)
    (i j : Nat) : Option (PairOutcome F) :=
  match pairStep ops gravityEnabled gravitationalConstant sceneObjects objects_to_delete
      totalForce i j with
  | some (PairOutcome.force tf) =>
      match sceneObjects[i]?, sceneObjects[j]? with
      | some obj_i, some obj_j =>
          if gravityEnabled = true ∧ length ops (obj_j.GetPosition - obj_i.GetPosition) = 0 then
            none
          else some (PairOutcome.force tf)
      | _, _ => none
  | r => r

/-- The inner loop of `update` (see `innerLoop`) with an arbitrary loop body `step`. -/
def innerLoopWith
    (step : List (SceneObject F) → List Nat → Vec3 F → Nat → Nat → Option (PairOutcome F))
    (i : Nat) :
    List Nat → List (SceneObject F) → List Nat → Vec3 F →
      Option (List (SceneObject F) × List Nat × Vec3 F)
  | [], sceneObjects, objects_to_delete, totalForce =>
      some (sceneObjects, objects_to_delete, totalForce)
  | j :: js, sceneObjects, objects_to_delete, totalForce =>
      if i = j then innerLoopWith step i js sceneObjects objects_to_delete totalForce
      else if j ∈ objects_to_delete then
        innerLoopWith step i js sceneObjects objects_to_delete totalForce
      else
        match step sceneObjects objects_to_delete totalForce i j with
        | none => none
        | some (PairOutcome.merged objs del) => some (objs, del, totalForce)
        | some (PairOutcome.force tf) => innerLoopWith step i js sceneObjects objects_to_delete tf

/-- The outer loop of `update` (see `outerStep` and `outerLoop`) with an arbitrary body
`step` of the inner loop. -/
def outerLoopWith
    (step : List (SceneObject F) → List Nat → Vec3 F → Nat → Nat → Option (PairOutcome F))
    (scaled_dt : F) :
    List Nat → List (SceneObject F) → List Nat → Option (List (SceneObject F) × List Nat)
  | [], sceneObjects, objects_to_delete => some (sceneObjects, objects_to_delete)
  | i :: is, sceneObjects, objects_to_delete =>
      if i ∈ objects_to_delete then outerLoopWith step scaled_dt is sceneObjects objects_to_delete
      else
        match innerLoopWith step i (List.range sceneObjects.length) sceneObjects
            objects_to_delete (Vec3.splat 0) with
        | none => none
        | some (objs, del, totalForce) =>
            outerLoopWith step scaled_dt is (applyForceAt objs i totalForce scaled_dt) del

/-- The pair loop of `update` (see `pairLoop`) with `normalize` checked: it is `none` as
soon as a gravity force is computed for a pair whose `direction` has length zero. -/
def pairLoopChecked (ops : FloatOps F) (gravityEnabled : Bool) (gravitationalConstant : F)
    (scaled_dt : F) (sceneObjects : List (SceneObject F)) :
    Option (List (SceneObject F) × List Nat) :=
  outerLoopWith (pairStepChecked ops gravityEnabled gravitationalConstant) scaled_dt
    (List.range sceneObjects.length) sceneObjects []

/-- The geometry records of all the bodies, concatenated in body order. -/
def geometryRecords (sceneObjects : List (SceneObject F)) : List (GPUobject F) :=
  (sceneObjects.map fun o => o.gpuObjects).flatten

/-- The geometry records mirror the transform of the body: every record has the same
`center`, and the `rot_quat` of every record equals the `Orientation` of the body. -/
def GeometryMirrorsTransform (o : SceneObject F) : Prop :=
  (∀ g ∈ o.gpuObjects, ∀ g1 ∈ o.gpuObjects, g.center = g1.center) ∧
    ∀ g ∈ o.gpuObjects, g.rot_quat = o.Orientation

/-- The square of the norm of a quaternion. -/
def quatNormSq (q : Vec4 F) : F := q.x ^ 2 + q.y ^ 2 + q.z ^ 2 + q.w ^ 2

/-- The position of a type on the line Star, BrownDwarf, GasGiant, RockyPlanet. -/
def typeRank : ObjectType → Int
  | .Star => 0
  | .BrownDwarf => 1
  | .GasGiant => 2
  | .RockyPlanet => 3
  | .BlackHole => 4

end Vocabulary

section AccumulationVocabulary

variable {F : Type} [LinearOrderedField F] [FloorRing F]

/-- The integer part of a number: the integer next to it in the direction of zero. -/
def integerPart (q : F) : Int := if 0 ≤ q then ⌊q⌋ else ⌈q⌉

/-- The cap of the frame-accumulation count as the code computes it: 100000 when paused,
the integer part of the `float` value of `0.85f / timeScale + 0.15f` for a time scale
between 0 and 1, else 1. -/
def accumulationCap (ops : FloatOps F) (timeScale : F) : Int :=
  if timeScale ≤ 0 then 100000
  else if timeScale < 1 then integerPart (accumulationValue ops timeScale)
  else 1

/-- The snapshot of the current frame equals the one stored by the previous frame. -/
def Stationary (s : RenderState F) : Prop :=
  s.cameraFov = s.last_fov ∧ s.cameraDistance = s.last_distance ∧ s.cameraYaw = s.last_yaw ∧
    s.cameraPitch = s.last_pitch ∧ s.timeScale = s.last_timeScale ∧
    s.selectedObjectIndex = s.lastSelectedObjectIndex

/-- The relative speed of a body in one call of `update_trails` on the bodies
`sceneObjects`: its speed against the mass-weighted mean velocity of all bodies, which
exists when the total mass is not zero. -/
def trailSpeed (ops : FloatOps F) (sceneObjects : List (SceneObject F))
    (obj : SceneObject F) : Option F :=
  relativeSpeed ops
    (sceneObjects.foldl (fun acc o => acc + o.velocity * o.Mass) (Vec3.mk 0 0 0))
    (sceneObjects.foldl (fun acc o => acc + o.Mass) (0 : F)) obj

end AccumulationVocabulary

section StepTrace

variable {F : Type} [LinearOrderedField F]

/-- The inner loop of `update` (see `innerLoop`), which also reports how the loop ended:
`some j` when body `i` went through the collision branch with body `j` (and the loop was left
by `break`), `none` when the loop ran to its end. -/
def innerLoopTraced (ops : FloatOps F) (gravityEnabled : Bool) (gravitationalConstant : F)
    (i : Nat) :
    List Nat → List (SceneObject F) → List Nat → Vec3 F →
      Option (List (SceneObject F) × List Nat × Vec3 F × Option Nat)
  | [], sceneObjects, objects_to_delete, totalForce =>
      some (sceneObjects, objects_to_delete, totalForce, none)
  | j :: js, sceneObjects, objects_to_delete, totalForce =>
      if i = j then
        innerLoopTraced ops gravityEnabled gravitationalConstant i js sceneObjects
          objects_to_delete totalForce
      else if j ∈ objects_to_delete then
        innerLoopTraced ops gravityEnabled gravitationalConstant i js sceneObjects
          objects_to_delete totalForce
      else
        match pairStep ops gravityEnabled gravitationalConstant sceneObjects objects_to_delete
            totalForce i j with
        | none => none
        | some (PairOutcome.merged objs del) => some (objs, del, totalForce, some j)
        | some (PairOutcome.force tf) =>
            innerLoopTraced ops gravityEnabled gravitationalConstant i js sceneObjects
              objects_to_delete tf

/-- The outer loop of `update` (see `outerStep` and `outerLoop`) with a record of what it
did: `applied` receives, for every pass `i` that is not skipped, the pair of `i` and the
`totalForce` that the pass hands to `ApplyForce`; `collided` receives the two indices of every
pair that goes through the collision branch. -/
def outerLoopTraced (ops : FloatOps F) (gravityEnabled : Bool) (gravitationalConstant : F)
    (scaled_dt : F) :
    List Nat → List (SceneObject F) → List Nat → List (Nat × Vec3 F) → List Nat →
      Option (List (SceneObject F) × List Nat × List (Nat × Vec3 F) × List Nat)
  | [], sceneObjects, objects_to_delete, applied, collided =>
      some (sceneObjects, objects_to_delete, applied, collided)
  | i :: is, sceneObjects, objects_to_delete, applied, collided =>
      if i ∈ objects_to_delete then
        outerLoopTraced ops gravityEnabled gravitationalConstant scaled_dt is sceneObjects
          objects_to_delete applied collided
      else
        match innerLoopTraced ops gravityEnabled gravitationalConstant i
            (List.range sceneObjects.length) sceneObjects objects_to_delete (Vec3.splat 0) with
        | none => none
        | some (objs, del, totalForce, none) =>
            outerLoopTraced ops gravityEnabled gravitationalConstant scaled_dt is
              (applyForceAt objs i totalForce scaled_dt) del (applied ++ [(i, totalForce)])
              collided
        | some (objs, del, totalForce, some j) =>
            outerLoopTraced ops gravityEnabled gravitationalConstant scaled_dt is
              (applyForceAt objs i totalForce scaled_dt) del (applied ++ [(i, totalForce)])
              (collided ++ [i, j])

/-- The whole pair loop of `update` (see `pairLoop`) with the record of the forces applied
and of the bodies that collided. -/
def pairLoopTraced (ops : FloatOps F) (gravityEnabled : Bool) (gravitationalConstant : F)
    (scaled_dt : F) (sceneObjects : List (SceneObject F)) :
    Option (List (SceneObject F) × List Nat × List (Nat × Vec3 F) × List Nat) :=
  outerLoopTraced ops gravityEnabled gravitationalConstant scaled_dt
    (List.range sceneObjects.length) sceneObjects [] [] []

/-- The index, after the removal block of `update`, of the body that had the index `k`
before it and was not removed: `k` minus the number of removed indices below `k`. -/
def survivorIndex (objects_to_delete : List Nat) (k : Nat) : Nat :=
  ((List.range k).filter (fun j => decide (j ∉ objects_to_delete))).length

end StepTrace

/-! ## Exact real arithmetic -/

/-- The real cube root, the exact value of `std::cbrt`. -/
noncomputable def realCbrt (x : ℝ) : ℝ :=
  if 0 ≤ x then x ^ ((1 : ℝ) / 3) else -((-x) ^ ((1 : ℝ) / 3))

/-- The library calls in exact real arithmetic, in which nothing is rounded. -/
noncomputable def realOps : FloatOps ℝ :=
  { sqrt := Real.sqrt, cbrt := realCbrt, sin := Real.sin, cos := Real.cos,
    toFloat := fun x => x, toDouble := fun x => x }

/-! ## Binary rounding -/

section Rounding

variable {F : Type} [LinearOrderedField F] [FloorRing F]

/-- The integer nearest to `y`; when `y` is half-way between two integers, the even one. -/
def roundHalfEven (y : F) : Int :=
  if y - ⌊y⌋ < 1 / 2 then ⌊y⌋
  else if 1 / 2 < y - ⌊y⌋ then ⌊y⌋ + 1
  else if ⌊y⌋ % 2 = 0 then ⌊y⌋ else ⌊y⌋ + 1

/-- The number with `p` significant binary digits nearest to `x`, ties to even: the rounding
of the arithmetic on `float` (`p = 24`) and on `double` (`p = 53`), for results in the normal
range (overflow and subnormal numbers are not modelled). -/
def roundBinary (p : Nat) (x : F) : F :=
  if x = 0 then 0
  else
    let ulp : F := 2 ^ (Int.log 2 |x| - ((p : Int) - 1))
    (roundHalfEven (x / ulp) : F) * ulp

end Rounding

/-- The library calls in exact real arithmetic, with the results of the arithmetic
operations rounded as on `float` and `double`. -/
noncomputable def roundedOps : FloatOps ℝ :=
  { realOps with toFloat := roundBinary 24, toDouble := roundBinary 53 }

/-! ## Sample worlds -/

section Samples

variable (F : Type) [LinearOrderedField F]

/-- A rocky planet built by the constructor at position `p` with mass `m`. -/
def rocky (p : Vec3 F) (m : F) : SceneObject F :=
  SceneObject.construct 0 ObjectType.RockyPlanet p m

/-- Two overlapping rocky planets of masses 30 and 20. -/
def twoUnequalBodies : List (SceneObject F) :=
  [rocky F ⟨0, 0, 0⟩ 30, rocky F ⟨1 / 2, 0, 0⟩ 20]

/-- Three mutually overlapping rocky planets of masses 30, 20 and 10. -/
def threeOverlapping : List (SceneObject F) :=
  [rocky F ⟨0, 0, 0⟩ 30, rocky F ⟨1 / 2, 0, 0⟩ 20, rocky F ⟨0, 1 / 2, 0⟩ 10]

/-- Three rocky planets far apart (pairwise distances 3, 4 and 5). -/
def threeApart : List (SceneObject F) :=
  [rocky F ⟨0, 0, 0⟩ 30, rocky F ⟨3, 0, 0⟩ 20, rocky F ⟨0, 4, 0⟩ 10]

/-- An application holding two overlapping rocky planets of mass 30 each, with the default
settings of the class (`dt = 1/60`, `timeScale = 1`, gravity on, `G = 0.5`). -/
def twoRockyApp : Application F :=
  { sceneObjects := [rocky F ⟨0, 0, 0⟩ 30, rocky F ⟨1 / 2, 0, 0⟩ 30]
    dt := 1 / 60
    timeScale := 1
    gravityEnabled := true
    gravitationalConstant := 0.5
    selectedObjectIndex := 0
    cameraTarget := Vec3.splat 0
    frame_acc_count := 1
    curr_acc_index := 0 }

/-- A black hole built by the constructor with mass 100. -/
def blackHole : SceneObject F :=
  SceneObject.construct 0 ObjectType.BlackHole ⟨0, 0, 0⟩ 100

/-- A render state on top of `twoRockyApp` with the camera of the class `Camera` (field of
view 45, distance 100, yaw 0, pitch -30) unchanged since the previous frame, the given time
scale (also unchanged), accumulation count, and selected index now and in the previous
frame. -/
def stillView (timeScale : F) (count selected lastSelected : Int) : RenderState F :=
  { toApplication :=
      { twoRockyApp F with
        timeScale := timeScale, frame_acc_count := count, selectedObjectIndex := selected }
    cameraFov := 45
    cameraDistance := 100
    cameraYaw := 0
    cameraPitch := -30
    last_fov := 45
    last_distance := 100
    last_yaw := 0
    last_pitch := -30
    last_timeScale := timeScale
    lastSelectedObjectIndex := lastSelected }

/-- Two rocky planets of masses 1 and 2 moving apart with velocities 100 and -50 along x, so
that the mass-weighted mean velocity is zero. -/
def fastPair : List (SceneObject F) :=
  [{ rocky F ⟨0, 0, 0⟩ 1 with velocity := ⟨100, 0, 0⟩ },
   { rocky F ⟨10, 0, 0⟩ 2 with velocity := ⟨-50, 0, 0⟩ }]

/-- A rocky planet at rest with a trail of two earlier positions. -/
def restingBody : SceneObject F :=
  { rocky F ⟨0, 0, 0⟩ 1 with TrailPoints := [⟨1, 1, 1⟩, ⟨2, 2, 2⟩] }

/-- A rocky planet with the orientation `(1, 0, 0, 0)` (a half turn about the x axis) on
which `SetupAs(RockyPlanet)` has run, so that its geometry record carries the same
rotation. -/
def turnedRocky : SceneObject F :=
  SceneObject.SetupAs { rocky F ⟨0, 0, 0⟩ 1 with Orientation := ⟨1, 0, 0, 0⟩ }
    ObjectType.RockyPlanet

/-- A rocky planet with rings and mass 2: the constructor, then `hasRings = true` and
`SetupAs(RockyPlanet)` as the box "Has Rings" of the interface does it, then `Mass = 2` as
the mass field of the interface (or a merge of two bodies of mass 1) leaves it. -/
def ringedRocky : SceneObject F :=
  { SceneObject.SetupAs { rocky F ⟨0, 0, 0⟩ 1 with hasRings := true }
      ObjectType.RockyPlanet with
    Mass := 2 }

/-- The application `twoRockyApp` holding three rocky planets far apart. -/
def threeApartApp : Application F :=
  { twoRockyApp F with sceneObjects := threeApart F }

/-- The application `twoRockyApp` in the middle of an accumulation: five frames accumulated,
buffer index 1. -/
def midAccumulationApp : Application F :=
  { twoRockyApp F with frame_acc_count := 5, curr_acc_index := 1 }

/-- The application `twoRockyApp` holding two overlapping rocky planets of masses 30 and 20
and, at distance 4 from the first, a rocky planet of mass 10. -/
def pairAndBystanderApp : Application F :=
  { twoRockyApp F with
    sceneObjects := [rocky F ⟨0, 0, 0⟩ 30, rocky F ⟨1 / 2, 0, 0⟩ 20, rocky F ⟨0, 4, 0⟩ 10] }

end Samples

/-! # Theorems -/

section BasicLemmas

open SceneObject

variable {F : Type} [LinearOrderedField F]

@[simp] theorem Vec3.add_x (u v : Vec3 F) : (u + v).x = u.x + v.x := rfl
@[simp] theorem Vec3.add_y (u v : Vec3 F) : (u + v).y = u.y + v.y := rfl
@[simp] theorem Vec3.add_z (u v : Vec3 F) : (u + v).z = u.z + v.z := rfl
@[simp] theorem Vec3.sub_x (u v : Vec3 F) : (u - v).x = u.x - v.x := rfl
@[simp] theorem Vec3.sub_y (u v : Vec3 F) : (u - v).y = u.y - v.y := rfl
@[simp] theorem Vec3.sub_z (u v : Vec3 F) : (u - v).z = u.z - v.z := rfl
@[simp] theorem Vec3.neg_x (u : Vec3 F) : (-u).x = -u.x := rfl
@[simp] theorem Vec3.neg_y (u : Vec3 F) : (-u).y = -u.y := rfl
@[simp] theorem Vec3.neg_z (u : Vec3 F) : (-u).z = -u.z := rfl
@[simp] theorem Vec3.mul_x (u : Vec3 F) (s : F) : (u * s).x = s * u.x := rfl
@[simp] theorem Vec3.mul_y (u : Vec3 F) (s : F) : (u * s).y = s * u.y := rfl
@[simp] theorem Vec3.mul_z (u : Vec3 F) (s : F) : (u * s).z = s * u.z := rfl
@[simp] theorem Vec3.div_x (u : Vec3 F) (s : F) : (u / s).x = 1 / s * u.x := rfl
@[simp] theorem Vec3.div_y (u : Vec3 F) (s : F) : (u / s).y = 1 / s * u.y := rfl
@[simp] theorem Vec3.div_z (u : Vec3 F) (s : F) : (u / s).z = 1 / s * u.z := rfl
@[simp] theorem Vec3.zero_x : (0 : Vec3 F).x = 0 := rfl
@[simp] theorem Vec3.zero_y : (0 : Vec3 F).y = 0 := rfl
@[simp] theorem Vec3.zero_z : (0 : Vec3 F).z = 0 := rfl
@[simp] theorem Vec3.splat_x (s : F) : (Vec3.splat s).x = s := rfl
@[simp] theorem Vec3.splat_y (s : F) : (Vec3.splat s).y = s := rfl
@[simp] theorem Vec3.splat_z (s : F) : (Vec3.splat s).z = s := rfl

theorem Vec3.ext_iff3 (u v : Vec3 F) : u = v ↔ u.x = v.x ∧ u.y = v.y ∧ u.z = v.z := by
  cases u; cases v; simp

theorem GetGpuObject_zero (o : SceneObject F) (g : GPUobject F) :
    o.GetGpuObject 0 = some g ↔ ∃ t, o.gpuObjects = g :: t := by
  unfold GetGpuObject
  cases o.gpuObjects <;> simp

/-- The collision branch when `obj_i.Mass > obj_j.Mass`. -/
theorem pairStep_merge_gt (ops : FloatOps F) (gE : Bool) (G : F)
    (objs : List (SceneObject F)) (del : List Nat) (tf : Vec3 F) (i j : Nat)
    (oi oj : SceneObject F) (gi gj : GPUobject F) (ti tj : List (GPUobject F))
    (hi : objs[i]? = some oi) (hj : objs[j]? = some oj)
    (hgi : oi.gpuObjects = gi :: ti) (hgj : oj.gpuObjects = gj :: tj)
    (hcol : ops.sqrt (dot (gj.center - gi.center) (gj.center - gi.center)) ≤ gi.r1 + gj.r1)
    (hm : oi.Mass > oj.Mass) :
    pairStep ops gE G objs del tf i j =
      some (PairOutcome.merged
        (objs.set i
          { oi with
            Mass := oi.Mass + oj.Mass
            velocity := (oi.velocity * oi.Mass + oj.velocity * oj.Mass) / (oi.Mass + oj.Mass)
            gpuObjects := { gi with r1 := ops.cbrt (gi.r1 ^ 3 + gj.r1 ^ 3) } :: ti })
        (del ++ [j])) := by
  simp [pairStep, hi, hj, GetGpuObject, GetPosition, hgi, hgj, hcol, hm, modifyGpuObject]

/-- The collision branch when `obj_i.Mass > obj_j.Mass` is false. -/
theorem pairStep_merge_le (ops : FloatOps F) (gE : Bool) (G : F)
    (objs : List (SceneObject F)) (del : List Nat) (tf : Vec3 F) (i j : Nat)
    (oi oj : SceneObject F) (gi gj : GPUobject F) (ti tj : List (GPUobject F))
    (hi : objs[i]? = some oi) (hj : objs[j]? = some oj)
    (hgi : oi.gpuObjects = gi :: ti) (hgj : oj.gpuObjects = gj :: tj)
    (hcol : ops.sqrt (dot (gj.center - gi.center) (gj.center - gi.center)) ≤ gi.r1 + gj.r1)
    (hm : ¬ oi.Mass > oj.Mass) :
    pairStep ops gE G objs del tf i j =
      some (PairOutcome.merged
        (objs.set j
          { oj with
            Mass := oj.Mass + oi.Mass
            velocity := (oj.velocity * oj.Mass + oi.velocity * oi.Mass) / (oj.Mass + oi.Mass)
            gpuObjects := { gj with r1 := ops.cbrt (gj.r1 ^ 3 + gi.r1 ^ 3) } :: tj })
        (del ++ [i])) := by
  simp [pairStep, hi, hj, GetGpuObject, GetPosition, hgi, hgj, hcol, hm, modifyGpuObject]

/-- The gravity branch. -/
theorem pairStep_force (ops : FloatOps F) (gE : Bool) (G : F)
    (objs : List (SceneObject F)) (del : List Nat) (tf : Vec3 F) (i j : Nat)
    (oi oj : SceneObject F) (gi gj : GPUobject F) (ti tj : List (GPUobject F))
    (hi : objs[i]? = some oi) (hj : objs[j]? = some oj)
    (hgi : oi.gpuObjects = gi :: ti) (hgj : oj.gpuObjects = gj :: tj)
    (hcol : ¬ ops.sqrt (dot (gj.center - gi.center) (gj.center - gi.center)) ≤ gi.r1 + gj.r1) :
    pairStep ops gE G objs del tf i j =
      some (PairOutcome.force
        (if gE then
          tf + normalize ops (gj.center - gi.center) *
            (G * (oi.Mass * oj.Mass) /
              (if dot (gj.center - gi.center) (gj.center - gi.center) < 1 then 1
               else dot (gj.center - gi.center) (gj.center - gi.center)))
         else tf)) := by
  cases gE <;>
  simp [pairStep, hi, hj, GetGpuObject, GetPosition, hgi, hgj, hcol, modifyGpuObject]



theorem Collides_iff (ops : FloatOps F) (oi oj : SceneObject F) :
    Collides ops oi oj ↔ ∃ gi gj ti tj, oi.gpuObjects = gi :: ti ∧ oj.gpuObjects = gj :: tj ∧
      ops.sqrt (dot (gj.center - gi.center) (gj.center - gi.center)) ≤ gi.r1 + gj.r1 := by
  constructor
  · rintro ⟨gi, gj, hgi, hgj, h⟩
    obtain ⟨ti, hti⟩ := (GetGpuObject_zero oi gi).1 hgi
    obtain ⟨tj, htj⟩ := (GetGpuObject_zero oj gj).1 hgj
    refine ⟨gi, gj, ti, tj, hti, htj, ?_⟩
    simpa [GetPosition, hti, htj] using h
  · rintro ⟨gi, gj, ti, tj, hti, htj, h⟩
    refine ⟨gi, gj, (GetGpuObject_zero oi gi).2 ⟨ti, hti⟩, (GetGpuObject_zero oj gj).2 ⟨tj, htj⟩, ?_⟩
    simpa [GetPosition, hti, htj] using h

theorem getElem?_set_self_of_some {α : Type} (l : List α) (i : Nat) (a b : α)
    (h : l[i]? = some a) : (l.set i b)[i]? = some b := by
  have hlt : i < l.length := by
    by_contra hge
    rw [List.getElem?_eq_none (by omega)] at h
    cases h
  simp [List.getElem?_set, hlt]

theorem getElem?_set_other {α : Type} (l : List α) (i k : Nat) (b : α) (h : i ≠ k) :
    (l.set i b)[k]? = l[k]? := by
  simp [List.getElem?_set, h]

theorem SetupAs_Type (o : SceneObject F) (t : ObjectType) : (o.SetupAs t).Type_ = t := by
  cases t <;> rfl

end BasicLemmas

section RoundingLemmas
variable {F : Type} [LinearOrderedField F] [FloorRing F]

/-- A number strictly within one half of an integer rounds to that integer. -/
theorem roundHalfEven_eq (y : F) (n : Int) (h1 : (n : F) - 1 / 2 < y) (h2 : y < n + 1 / 2) :
    roundHalfEven y = n := by
  unfold roundHalfEven
  by_cases hy : (n : F) ≤ y
  · have hf : ⌊y⌋ = n := by
      rw [Int.floor_eq_iff]
      constructor
      · exact hy
      · linarith
    rw [hf, if_pos (by linarith)]
  · have hy1 : y < n := not_le.1 hy
    have hf : ⌊y⌋ = n - 1 := by
      rw [Int.floor_eq_iff]
      push_cast
      constructor <;> linarith
    rw [hf]
    push_cast
    rw [if_neg (by linarith), if_pos (by linarith)]
    ring

/-- The rounding of a positive number `x` with `2^e <= x < 2^(e+1)` whose quotient by
`2^(e - (p - 1))` is strictly within one half of the integer `n`. -/
theorem roundBinary_eq (p : Nat) (x : F) (e n : Int) (he1 : (2 : F) ^ e ≤ x)
    (he2 : x < (2 : F) ^ (e + 1))
    (hn1 : (n : F) - 1 / 2 < x / 2 ^ (e - ((p : Int) - 1)))
    (hn2 : x / 2 ^ (e - ((p : Int) - 1)) < n + 1 / 2) :
    roundBinary p x = n * 2 ^ (e - ((p : Int) - 1)) := by
  have hpos : 0 < x := lt_of_lt_of_le (zpow_pos (by norm_num) e) he1
  have hlog : Int.log 2 |x| = e := by
    rw [abs_of_pos hpos]
    have h1 : e ≤ Int.log 2 x := by
      rw [← Int.zpow_le_iff_le_log (by norm_num) hpos]
      exact_mod_cast he1
    have h2 : Int.log 2 x < e + 1 := by
      rw [← Int.lt_zpow_iff_log_lt (by norm_num) hpos]
      exact_mod_cast he2
    omega
  unfold roundBinary
  rw [if_neg (ne_of_gt hpos)]
  simp only []
  rw [hlog, roundHalfEven_eq _ n hn1 hn2]

end RoundingLemmas

section RoundingOrder
variable {F : Type} [LinearOrderedField F] [FloorRing F]

end RoundingOrder

section RoundingMonotone
variable {F : Type} [LinearOrderedField F] [FloorRing F]

end RoundingMonotone

section SampleLemmas

open SceneObject

variable {F : Type} [LinearOrderedField F]


theorem rocky_gpuObjects (p : Vec3 F) (m : F) :
    ∃ g, (rocky F p m).gpuObjects = [g] ∧ g.center = p ∧ g.r1 = 0.5 := by
  unfold rocky construct
  split_ifs <;>
  exact ⟨_, by simp [SetupAs, setupSwitch, SetPosition]; rfl, rfl, rfl⟩

theorem rocky_Mass (p : Vec3 F) (m : F) (hm : 0 < m) : (rocky F p m).Mass = m := by
  simp [rocky, construct, hm, SetPosition]

theorem rocky_velocity (p : Vec3 F) (m : F) : (rocky F p m).velocity = Vec3.splat 0 := by
  unfold rocky construct
  split_ifs <;> rfl

theorem rocky_Type (p : Vec3 F) (m : F) : (rocky F p m).Type_ = ObjectType.RockyPlanet := by
  unfold rocky construct
  split_ifs <;> rfl

theorem ApplyForce_Mass (o : SceneObject F) (f : Vec3 F) (dt : F) :
    (o.ApplyForce f dt).Mass = o.Mass := by
  unfold ApplyForce
  split_ifs <;> rfl

theorem ApplyForce_gpuObjects (o : SceneObject F) (f : Vec3 F) (dt : F) :
    (o.ApplyForce f dt).gpuObjects = o.gpuObjects := by
  unfold ApplyForce
  split_ifs <;> rfl


theorem pairLoop_pair_le (ops : FloatOps F) (gE : Bool) (G dt : F) (a b : SceneObject F)
    (ga gb : GPUobject F) (ta tb : List (GPUobject F))
    (hga : a.gpuObjects = ga :: ta) (hgb : b.gpuObjects = gb :: tb)
    (hcol : ops.sqrt (dot (gb.center - ga.center) (gb.center - ga.center)) ≤ ga.r1 + gb.r1)
    (hm : ¬ a.Mass > b.Mass) :
    pairLoop ops gE G dt [a, b] =
      some ([a.ApplyForce (Vec3.splat 0) dt,
             SceneObject.ApplyForce
               { b with
                 Mass := b.Mass + a.Mass
                 velocity := (b.velocity * b.Mass + a.velocity * a.Mass) / (b.Mass + a.Mass)
                 gpuObjects := { gb with r1 := ops.cbrt (gb.r1 ^ 3 + ga.r1 ^ 3) } :: tb }
               (Vec3.splat 0) dt], [0]) := by
  have h01 : List.range 2 = [0, 1] := rfl
  have hp := pairStep_merge_le ops gE G [a, b] [] (Vec3.splat 0) 0 1 a b ga gb ta tb rfl rfl
    hga hgb hcol hm
  simp [pairLoop, h01, outerLoop, outerStep, innerLoop, hp, applyForceAt]

theorem pairLoop_pair_gt (ops : FloatOps F) (gE : Bool) (G dt : F) (a b : SceneObject F)
    (ga gb : GPUobject F) (ta tb : List (GPUobject F))
    (hga : a.gpuObjects = ga :: ta) (hgb : b.gpuObjects = gb :: tb)
    (hcol : ops.sqrt (dot (gb.center - ga.center) (gb.center - ga.center)) ≤ ga.r1 + gb.r1)
    (hm : a.Mass > b.Mass) :
    pairLoop ops gE G dt [a, b] =
      some ([SceneObject.ApplyForce
               { a with
                 Mass := a.Mass + b.Mass
                 velocity := (a.velocity * a.Mass + b.velocity * b.Mass) / (a.Mass + b.Mass)
                 gpuObjects := { ga with r1 := ops.cbrt (ga.r1 ^ 3 + gb.r1 ^ 3) } :: ta }
               (Vec3.splat 0) dt, b], [1]) := by
  have h01 : List.range 2 = [0, 1] := rfl
  have hp := pairStep_merge_gt ops gE G [a, b] [] (Vec3.splat 0) 0 1 a b ga gb ta tb rfl rfl
    hga hgb hcol hm
  simp [pairLoop, h01, outerLoop, outerStep, innerLoop, hp, applyForceAt]

end SampleLemmas

section RealSamples

open SceneObject

theorem rocky_collides (p q : Vec3 ℝ) (m n : ℝ) (h : dot (q - p) (q - p) ≤ 1) :
    Collides realOps (rocky ℝ p m) (rocky ℝ q n) := by
  obtain ⟨g, hg, hc, hr⟩ := rocky_gpuObjects p m
  obtain ⟨g2, hg2, hc2, hr2⟩ := rocky_gpuObjects q n
  rw [Collides_iff]
  refine ⟨g, g2, [], [], hg, hg2, ?_⟩
  rw [hc, hc2, hr, hr2]
  show Real.sqrt _ ≤ _
  rw [Real.sqrt_le_iff]
  constructor
  · norm_num
  · norm_num; exact h

theorem rocky_not_collides (p q : Vec3 ℝ) (m n : ℝ) (h : 1 < dot (q - p) (q - p)) :
    ¬ Collides realOps (rocky ℝ p m) (rocky ℝ q n) := by
  obtain ⟨g, hg, hc, hr⟩ := rocky_gpuObjects p m
  obtain ⟨g2, hg2, hc2, hr2⟩ := rocky_gpuObjects q n
  rw [Collides_iff]
  rintro ⟨gi, gj, ti, tj, h1, h2, h3⟩
  rw [hg] at h1; rw [hg2] at h2
  simp only [List.cons.injEq] at h1 h2
  obtain ⟨rfl, -⟩ := h1
  obtain ⟨rfl, -⟩ := h2
  rw [hc, hc2, hr, hr2] at h3
  have h4 : Real.sqrt (dot (q - p) (q - p)) ≤ 1 := by
    have e : (0.5 : ℝ) + 0.5 = 1 := by norm_num
    rw [← e]; exact h3
  rw [Real.sqrt_le_iff] at h4
  norm_num at h4
  linarith

end RealSamples

section MergeClaims

open SceneObject

variable {F : Type} [LinearOrderedField F]

/-- C2: for a colliding pair with positive masses the survivor's velocity after the merge
is `(m_i*v_i + m_j*v_j) / (m_i + m_j)`, and its new mass times its new velocity is
`m_i*v_i + m_j*v_j`. -/
theorem merge_conserves_momentum (ops : FloatOps F) (gravityEnabled : Bool) (G : F)
    (objs : List (SceneObject F)) (del : List Nat) (totalForce : Vec3 F) (i j : Nat)
    (oi oj : SceneObject F)
    (hi : objs[i]? = some oi) (hj : objs[j]? = some oj) (hcol : Collides ops oi oj)
    (hmi : 0 < oi.Mass) (hmj : 0 < oj.Mass) :
    ∃ objs1 k l s, pairStep ops gravityEnabled G objs del totalForce i j
        = some (PairOutcome.merged objs1 (del ++ [k])) ∧
      ((k = i ∧ l = j) ∨ (k = j ∧ l = i)) ∧
      objs1[l]? = some s ∧
      s.velocity = (oi.velocity * oi.Mass + oj.velocity * oj.Mass) / (oi.Mass + oj.Mass) ∧
      s.velocity * s.Mass = oi.velocity * oi.Mass + oj.velocity * oj.Mass := by
  obtain ⟨gi, gj, ti, tj, hgi, hgj, hc⟩ := (Collides_iff ops oi oj).1 hcol
  have hne : oi.Mass + oj.Mass ≠ 0 := by positivity
  have hne2 : oj.Mass + oi.Mass ≠ 0 := by positivity
  by_cases hm : oi.Mass > oj.Mass
  · refine ⟨_, j, i, _, pairStep_merge_gt ops gravityEnabled G objs del totalForce i j oi oj
      gi gj ti tj hi hj hgi hgj hc hm, Or.inr ⟨rfl, rfl⟩,
      getElem?_set_self_of_some objs i oi _ hi, rfl, ?_⟩
    ext <;> simp <;> field_simp
  · refine ⟨_, i, j, _, pairStep_merge_le ops gravityEnabled G objs del totalForce i j oi oj
      gi gj ti tj hi hj hgi hgj hc hm, Or.inl ⟨rfl, rfl⟩,
      getElem?_set_self_of_some objs j oj _ hj, ?_, ?_⟩
    · ext <;> simp <;> field_simp <;> ring
    · ext <;> simp <;> field_simp <;> ring

/-- C3: with an exact cube root, the survivor's primary radius `r` after the merge of a
colliding pair satisfies `r^3 = r1_i^3 + r1_j^3`, where `r1_i` and `r1_j` are the primary
radii of the two bodies before the merge. -/
theorem merge_radius_volume_additive (ops : FloatOps F) (gravityEnabled : Bool) (G : F)
    (objs : List (SceneObject F)) (del : List Nat) (totalForce : Vec3 F) (i j : Nat)
    (oi oj : SceneObject F)
    (hcbrt : ∀ x : F, ops.cbrt x ^ 3 = x)
    (hi : objs[i]? = some oi) (hj : objs[j]? = some oj)
    (hcol : Collides ops oi oj) :
    ∃ objs1 k l s g gi gj, pairStep ops gravityEnabled G objs del totalForce i j
        = some (PairOutcome.merged objs1 (del ++ [k])) ∧
      ((k = i ∧ l = j) ∨ (k = j ∧ l = i)) ∧
      objs1[l]? = some s ∧ s.GetGpuObject 0 = some g ∧
      oi.GetGpuObject 0 = some gi ∧ oj.GetGpuObject 0 = some gj ∧
      g.r1 ^ 3 = gi.r1 ^ 3 + gj.r1 ^ 3 := by
  obtain ⟨gi, gj, ti, tj, hgi, hgj, hc⟩ := (Collides_iff ops oi oj).1 hcol
  have hgi0 := (GetGpuObject_zero oi gi).2 ⟨ti, hgi⟩
  have hgj0 := (GetGpuObject_zero oj gj).2 ⟨tj, hgj⟩
  by_cases hm : oi.Mass > oj.Mass
  · exact ⟨_, j, i, _, _, gi, gj,
      pairStep_merge_gt ops gravityEnabled G objs del totalForce i j oi oj
        gi gj ti tj hi hj hgi hgj hc hm, Or.inr ⟨rfl, rfl⟩,
      getElem?_set_self_of_some objs i oi _ hi, (GetGpuObject_zero _ _).2 ⟨_, rfl⟩,
      hgi0, hgj0, hcbrt _⟩
  · exact ⟨_, i, j, _, _, gi, gj,
      pairStep_merge_le ops gravityEnabled G objs del totalForce i j oi oj
        gi gj ti tj hi hj hgi hgj hc hm, Or.inl ⟨rfl, rfl⟩,
      getElem?_set_self_of_some objs j oj _ hj, (GetGpuObject_zero _ _).2 ⟨_, rfl⟩,
      hgi0, hgj0, (hcbrt _).trans (add_comm _ _)⟩

/-- C10: for a body that does not meet the collapse condition, the type after one
`CheckForTypeTransition` follows the table (Star to BrownDwarf iff mass < 600; BrownDwarf to
Star iff mass > 600, to GasGiant iff mass < 200; GasGiant to BrownDwarf iff mass > 200, to
RockyPlanet iff mass < 50; RockyPlanet to GasGiant iff mass > 50), is unchanged otherwise (so
at a threshold mass of a row nothing happens), and a changed type is a neighbour on the line
Star, BrownDwarf, GasGiant, RockyPlanet. -/
theorem transition_table (o : SceneObject F) (g : GPUobject F)
    (hg : o.GetGpuObject 0 = some g)
    (hc : ¬ (o.Type_ ≠ ObjectType.BlackHole ∧ g.r1 < o.Mass * (5368709 / 2 ^ 30))) :
    ∃ o1, o.CheckForTypeTransition = some o1 ∧
      (o.Type_ = ObjectType.Star →
        (o1.Type_ = ObjectType.BrownDwarf ↔ o.Mass < 600) ∧
        (o1.Type_ = ObjectType.Star ↔ ¬ o.Mass < 600)) ∧
      (o.Type_ = ObjectType.BrownDwarf →
        (o1.Type_ = ObjectType.Star ↔ o.Mass > 600) ∧
        (o1.Type_ = ObjectType.GasGiant ↔ o.Mass < 200) ∧
        (o1.Type_ = ObjectType.BrownDwarf ↔ ¬ o.Mass > 600 ∧ ¬ o.Mass < 200)) ∧
      (o.Type_ = ObjectType.GasGiant →
        (o1.Type_ = ObjectType.BrownDwarf ↔ o.Mass > 200) ∧
        (o1.Type_ = ObjectType.RockyPlanet ↔ o.Mass < 50) ∧
        (o1.Type_ = ObjectType.GasGiant ↔ ¬ o.Mass > 200 ∧ ¬ o.Mass < 50)) ∧
      (o.Type_ = ObjectType.RockyPlanet →
        (o1.Type_ = ObjectType.GasGiant ↔ o.Mass > 50) ∧
        (o1.Type_ = ObjectType.RockyPlanet ↔ ¬ o.Mass > 50)) ∧
      (o.Type_ = ObjectType.BlackHole → o1.Type_ = ObjectType.BlackHole) ∧
      (o1.Type_ ≠ o.Type_ →
        o1.Type_ ≠ ObjectType.BlackHole ∧ o.Type_ ≠ ObjectType.BlackHole ∧
        (typeRank o1.Type_ = typeRank o.Type_ + 1 ∨ typeRank o1.Type_ + 1 = typeRank o.Type_)) := by
  simp only [CheckForTypeTransition, checkTransitions, hg, Option.pure_def, Option.bind_eq_bind, Option.some_bind]
  rw [if_neg hc]
  rcases ht : o.Type_ with _ | _ | _ | _ | _
  · by_cases h : o.Mass < 600
    · rw [if_pos h]
      refine ⟨_, rfl, ?_⟩
      simp [SetupAs_Type, typeRank, h]
    · rw [if_neg h]
      refine ⟨_, rfl, ?_⟩
      simp [ht, h]
  · by_cases h : o.Mass > 600
    · have h2 : ¬ o.Mass < 200 := by intro h3; linarith
      rw [if_pos h]
      refine ⟨_, rfl, ?_⟩
      simp [SetupAs_Type, typeRank, h, h2]
    · by_cases h2 : o.Mass < 200
      · rw [if_neg h, if_pos h2]
        refine ⟨_, rfl, ?_⟩
        simp [SetupAs_Type, typeRank, h2, h]
      · rw [if_neg h, if_neg h2]
        refine ⟨_, rfl, ?_⟩
        simp [ht, h, h2]
  · by_cases h : o.Mass > 200
    · have h2 : ¬ o.Mass < 50 := by intro h3; linarith
      rw [if_pos h]
      refine ⟨_, rfl, ?_⟩
      simp [SetupAs_Type, typeRank, h, h2]
    · by_cases h2 : o.Mass < 50
      · rw [if_neg h, if_pos h2]
        refine ⟨_, rfl, ?_⟩
        simp [SetupAs_Type, typeRank, h2, h]
      · rw [if_neg h, if_neg h2]
        refine ⟨_, rfl, ?_⟩
        simp [ht, h, h2]
  · by_cases h : o.Mass > 50
    · rw [if_pos h]
      refine ⟨_, rfl, ?_⟩
      simp [SetupAs_Type, typeRank, h]
    · rw [if_neg h]
      refine ⟨_, rfl, ?_⟩
      simp [ht, h]
  · exact ⟨o, rfl, by simp [ht]⟩

end MergeClaims

section MergeWitnesses

open SceneObject

theorem twoUnequal_get0 : (twoUnequalBodies ℝ)[0]? = some (rocky ℝ ⟨0, 0, 0⟩ 30) := rfl

theorem twoUnequal_get1 : (twoUnequalBodies ℝ)[1]? = some (rocky ℝ ⟨1 / 2, 0, 0⟩ 20) := rfl

theorem twoUnequal_collides :
    Collides realOps (rocky ℝ ⟨0, 0, 0⟩ 30) (rocky ℝ ⟨1 / 2, 0, 0⟩ 20) :=
  rocky_collides _ _ _ _ (by norm_num [dot])

/-- Witness of C2 on two overlapping rocky planets of masses 30 and 20. -/
theorem merge_conserves_momentum_witness :
    ∃ objs1 k l s, pairStep realOps true (1 / 2) (twoUnequalBodies ℝ) [] (Vec3.splat 0) 0 1
        = some (PairOutcome.merged objs1 ([] ++ [k])) ∧
      ((k = 0 ∧ l = 1) ∨ (k = 1 ∧ l = 0)) ∧
      objs1[l]? = some s ∧
      s.velocity =
        ((rocky ℝ ⟨0, 0, 0⟩ 30).velocity * (rocky ℝ ⟨0, 0, 0⟩ 30).Mass +
          (rocky ℝ ⟨1 / 2, 0, 0⟩ 20).velocity * (rocky ℝ ⟨1 / 2, 0, 0⟩ 20).Mass) /
          ((rocky ℝ ⟨0, 0, 0⟩ 30).Mass + (rocky ℝ ⟨1 / 2, 0, 0⟩ 20).Mass) ∧
      s.velocity * s.Mass =
        (rocky ℝ ⟨0, 0, 0⟩ 30).velocity * (rocky ℝ ⟨0, 0, 0⟩ 30).Mass +
          (rocky ℝ ⟨1 / 2, 0, 0⟩ 20).velocity * (rocky ℝ ⟨1 / 2, 0, 0⟩ 20).Mass :=
  merge_conserves_momentum realOps true (1 / 2) (twoUnequalBodies ℝ) [] (Vec3.splat 0) 0 1
    _ _ twoUnequal_get0 twoUnequal_get1 twoUnequal_collides
    (by rw [rocky_Mass _ _ (by norm_num)]; norm_num)
    (by rw [rocky_Mass _ _ (by norm_num)]; norm_num)

theorem realCbrt_cube_nonneg (x : ℝ) (hx : 0 ≤ x) : (x ^ ((1 : ℝ) / 3)) ^ 3 = x := by
  rw [← Real.rpow_natCast, ← Real.rpow_mul hx]
  norm_num

theorem realCbrt_cube (x : ℝ) : realCbrt x ^ 3 = x := by
  unfold realCbrt
  split_ifs with h
  · exact realCbrt_cube_nonneg x h
  · have h1 : 0 ≤ -x := by linarith
    have h2 := realCbrt_cube_nonneg (-x) h1
    have h3 : (-((-x) ^ ((1 : ℝ) / 3))) ^ 3 = -(((-x) ^ ((1 : ℝ) / 3)) ^ 3) := by ring
    rw [h3, h2]; ring

theorem realCbrt_nonneg (x : ℝ) (hx : 0 ≤ x) : 0 ≤ realCbrt x := by
  unfold realCbrt
  rw [if_pos hx]
  exact Real.rpow_nonneg hx _

/-- Witness of C3 on two overlapping rocky planets, with the real cube root. -/
theorem merge_radius_volume_additive_witness :
    ∃ objs1 k l s g gi gj,
      pairStep realOps true (1 / 2) (twoUnequalBodies ℝ) [] (Vec3.splat 0) 0 1
        = some (PairOutcome.merged objs1 ([] ++ [k])) ∧
      ((k = 0 ∧ l = 1) ∨ (k = 1 ∧ l = 0)) ∧
      objs1[l]? = some s ∧ s.GetGpuObject 0 = some g ∧
      (rocky ℝ ⟨0, 0, 0⟩ 30).GetGpuObject 0 = some gi ∧
      (rocky ℝ ⟨1 / 2, 0, 0⟩ 20).GetGpuObject 0 = some gj ∧
      g.r1 ^ 3 = gi.r1 ^ 3 + gj.r1 ^ 3 :=
  merge_radius_volume_additive realOps true (1 / 2) (twoUnequalBodies ℝ) [] (Vec3.splat 0) 0 1
    _ _ realCbrt_cube twoUnequal_get0 twoUnequal_get1 twoUnequal_collides

/-- Witness of C10: a freshly constructed rocky planet of mass 60 becomes a GasGiant. -/
theorem transition_table_witness :
    ∃ o1, (rocky ℚ ⟨0, 0, 0⟩ 60).CheckForTypeTransition = some o1 ∧
      o1.Type_ = ObjectType.GasGiant := by
  obtain ⟨g, hg, -, hr⟩ := rocky_gpuObjects (⟨0, 0, 0⟩ : Vec3 ℚ) 60
  have hm := rocky_Mass (⟨0, 0, 0⟩ : Vec3 ℚ) 60 (by norm_num)
  obtain ⟨o1, h1, -, -, -, h2, -⟩ :=
    transition_table (rocky ℚ ⟨0, 0, 0⟩ 60) g ((GetGpuObject_zero _ _).2 ⟨_, hg⟩)
      (by rw [hr, hm]; norm_num)
  exact ⟨o1, h1, (h2 (rocky_Type _ _)).1.2 (by rw [hm]; norm_num)⟩

end MergeWitnesses
section LoopLemmas
open SceneObject
variable {F : Type} [LinearOrderedField F]

theorem HasGeometry_set (objs : List (SceneObject F)) (l : Nat) (s : SceneObject F)
    (h : HasGeometry objs) (hs : s.gpuObjects ≠ []) : HasGeometry (objs.set l s) := by
  intro o ho
  rcases List.mem_or_eq_of_mem_set ho with h1 | h1
  · exact h o h1
  · rw [h1]; exact hs

theorem HasGeometry_applyForceAt (objs : List (SceneObject F)) (i : Nat) (f : Vec3 F) (dt : F)
    (h : HasGeometry objs) : HasGeometry (applyForceAt objs i f dt) := by
  intro o ho
  obtain ⟨k, hk, rfl⟩ := List.getElem_of_mem ho
  unfold applyForceAt at hk ⊢
  rw [List.getElem_modify]
  have hk2 : k < objs.length := by simpa using hk
  split_ifs
  · rw [ApplyForce_gpuObjects]
    exact h _ (List.getElem_mem hk2)
  · exact h _ (List.getElem_mem hk2)

theorem length_applyForceAt (objs : List (SceneObject F)) (i : Nat) (f : Vec3 F) (dt : F) :
    (applyForceAt objs i f dt).length = objs.length := by
  simp [applyForceAt]

/-- One pass through the inner-loop body either merges (appending `i` or `j` to
`objects_to_delete`) or continues with a force; it never throws on bodies with geometry. -/
theorem pairStep_cases (ops : FloatOps F) (gE : Bool) (G : F)
    (objs : List (SceneObject F)) (del : List Nat) (tf : Vec3 F) (i j : Nat)
    (hgeo : HasGeometry objs) (hi : i < objs.length) (hj : j < objs.length) :
    (∃ objs1 k, pairStep ops gE G objs del tf i j = some (PairOutcome.merged objs1 (del ++ [k])) ∧
        (k = i ∨ k = j) ∧ objs1.length = objs.length ∧ HasGeometry objs1) ∨
    (∃ tf1, pairStep ops gE G objs del tf i j = some (PairOutcome.force tf1)) := by
  have hi1 : objs[i]? = some objs[i] := List.getElem?_eq_getElem hi
  have hj1 : objs[j]? = some objs[j] := List.getElem?_eq_getElem hj
  obtain ⟨gi, ti, hgi⟩ := List.exists_cons_of_ne_nil (hgeo _ (List.getElem_mem hi))
  obtain ⟨gj, tj, hgj⟩ := List.exists_cons_of_ne_nil (hgeo _ (List.getElem_mem hj))
  by_cases hcol : ops.sqrt (dot (gj.center - gi.center) (gj.center - gi.center)) ≤ gi.r1 + gj.r1
  · left
    by_cases hm : objs[i].Mass > objs[j].Mass
    · exact ⟨_, j, pairStep_merge_gt ops gE G objs del tf i j _ _ gi gj ti tj hi1 hj1 hgi hgj
        hcol hm, Or.inr rfl, by simp, HasGeometry_set _ _ _ hgeo (by simp)⟩
    · exact ⟨_, i, pairStep_merge_le ops gE G objs del tf i j _ _ gi gj ti tj hi1 hj1 hgi hgj
        hcol hm, Or.inl rfl, by simp, HasGeometry_set _ _ _ hgeo (by simp)⟩
  · right
    exact ⟨_, pairStep_force ops gE G objs del tf i j _ _ gi gj ti tj hi1 hj1 hgi hgj hcol⟩

/-- The inner loop ends, and appends at most one index, not marked before, to
`objects_to_delete`. -/
theorem innerLoop_total (ops : FloatOps F) (gE : Bool) (G : F) (i : Nat)
    (objs : List (SceneObject F)) (del : List Nat)
    (hgeo : HasGeometry objs) (hi : i < objs.length) (hid : i ∉ del) :
    ∀ (js : List Nat) (tf : Vec3 F), (∀ j ∈ js, j < objs.length) →
      ∃ objs1 del1 tf1, innerLoop ops gE G i js objs del tf = some (objs1, del1, tf1) ∧
        objs1.length = objs.length ∧ HasGeometry objs1 ∧
        (del1 = del ∨ ∃ k, k ∉ del ∧ k < objs.length ∧ del1 = del ++ [k]) := by
  intro js
  induction js with
  | nil =>
    intro tf _
    exact ⟨objs, del, tf, rfl, rfl, hgeo, Or.inl rfl⟩
  | cons j js ih =>
    intro tf hjs
    have hjs1 : ∀ j ∈ js, j < objs.length := fun k hk => hjs k (List.mem_cons_of_mem _ hk)
    have hj : j < objs.length := hjs j (List.mem_cons_self _ _)
    unfold innerLoop
    by_cases hij : i = j
    · rw [if_pos hij]; exact ih tf hjs1
    · rw [if_neg hij]
      by_cases hjd : j ∈ del
      · rw [if_pos hjd]; exact ih tf hjs1
      · rw [if_neg hjd]
        rcases pairStep_cases ops gE G objs del tf i j hgeo hi hj with
          ⟨objs1, k, hp, hk, hlen, hg1⟩ | ⟨tf1, hp⟩
        · rw [hp]
          refine ⟨objs1, del ++ [k], tf, rfl, hlen, hg1, Or.inr ⟨k, ?_, ?_, rfl⟩⟩
          · rcases hk with rfl | rfl
            · exact hid
            · exact hjd
          · rcases hk with rfl | rfl
            · exact hi
            · exact hj
        · rw [hp]; exact ih tf1 hjs1

/-- The outer loop ends; `objects_to_delete` only grows, by at most one index per pass,
and never holds an index twice. -/
theorem outerLoop_total (ops : FloatOps F) (gE : Bool) (G dt : F) :
    ∀ (is : List Nat) (objs : List (SceneObject F)) (del : List Nat),
      HasGeometry objs → (∀ i ∈ is, i < objs.length) → del.Nodup →
      (∀ k ∈ del, k < objs.length) →
      ∃ objs1 del1, outerLoop ops gE G dt is objs del = some (objs1, del1) ∧
        objs1.length = objs.length ∧ HasGeometry objs1 ∧ del1.Nodup ∧
        (∀ k ∈ del1, k < objs.length) ∧
        del <+: del1 ∧ del1.length ≤ del.length + is.length := by
  intro is
  induction is with
  | nil =>
    intro objs del hgeo _ hnd hlt
    exact ⟨objs, del, rfl, rfl, hgeo, hnd, hlt, List.prefix_refl _, by simp⟩
  | cons i is ih =>
    intro objs del hgeo his hnd hlt
    have his1 : ∀ k ∈ is, k < objs.length := fun k hk => his k (List.mem_cons_of_mem _ hk)
    have hi : i < objs.length := his i (List.mem_cons_self _ _)
    unfold outerLoop
    by_cases hid : i ∈ del
    · rw [if_pos hid]
      obtain ⟨objs1, del1, h1, h2, h3, h4, h5, h6, h7⟩ := ih objs del hgeo his1 hnd hlt
      exact ⟨objs1, del1, h1, h2, h3, h4, h5, h6, by simp only [List.length_cons]; omega⟩
    · rw [if_neg hid]
      obtain ⟨objs1, del1, tf1, hin, hlen, hg1, hdel⟩ :=
        innerLoop_total ops gE G i objs del hgeo hi hid (List.range objs.length) (Vec3.splat 0)
          (fun j hj => List.mem_range.1 hj)
      unfold outerStep
      rw [hin]
      have hnd1 : del1.Nodup := by
        rcases hdel with rfl | ⟨k, hk, -, rfl⟩
        · exact hnd
        · exact List.Nodup.append hnd (List.nodup_singleton k) (by simpa using hk)
      have hlt1 : ∀ k ∈ del1, k < (applyForceAt objs1 i tf1 dt).length := by
        rw [length_applyForceAt, hlen]
        rcases hdel with rfl | ⟨k, -, hk, rfl⟩
        · exact hlt
        · intro k1 hk1
          rcases List.mem_append.1 hk1 with h | h
          · exact hlt k1 h
          · rw [List.mem_singleton.1 h]; exact hk
      have hlen1 : (applyForceAt objs1 i tf1 dt).length = objs.length := by
        rw [length_applyForceAt, hlen]
      obtain ⟨objs2, del2, h1, h2, h3, h4, h5, h6, h7⟩ :=
        ih (applyForceAt objs1 i tf1 dt) del1 (HasGeometry_applyForceAt _ _ _ _ hg1)
          (by rw [hlen1]; exact his1) hnd1 hlt1
      refine ⟨objs2, del2, h1, h2.trans hlen1, h3, h4, ?_, ?_, ?_⟩
      · rw [← hlen1]; exact h5
      · rcases hdel with rfl | ⟨k, -, -, rfl⟩
        · exact h6
        · exact (List.prefix_append del [k]).trans h6
      · have hle : del1.length ≤ del.length + 1 := by
          rcases hdel with rfl | ⟨k, -, -, rfl⟩
          · omega
          · simp
        simp only [List.length_cons]
        omega

end LoopLemmas

section Three
open SceneObject
variable {F : Type} [LinearOrderedField F]

/-- The pass of body 0 in a three-body world in which body 0 is heavier than body 1 and the
two collide: body 0 absorbs body 1. -/
theorem outerStep_three_first (ops : FloatOps F) (gE : Bool) (G dt : F) (a b c : SceneObject F)
    (ga gb : GPUobject F) (ta tb : List (GPUobject F))
    (hga : a.gpuObjects = ga :: ta) (hgb : b.gpuObjects = gb :: tb)
    (hcol : ops.sqrt (dot (gb.center - ga.center) (gb.center - ga.center)) ≤ ga.r1 + gb.r1)
    (hm : a.Mass > b.Mass) :
    ∃ a1, outerStep ops gE G dt 0 [a, b, c] [] = some ([a1, b, c], [1]) ∧
      a1.Mass = a.Mass + b.Mass ∧
      a1.gpuObjects = { ga with r1 := ops.cbrt (ga.r1 ^ 3 + gb.r1 ^ 3) } :: ta := by
  have h012 : List.range 3 = [0, 1, 2] := rfl
  have hp := pairStep_merge_gt ops gE G [a, b, c] [] (Vec3.splat 0) 0 1 a b ga gb ta tb rfl rfl
    hga hgb hcol hm
  have key : outerStep ops gE G dt 0 [a, b, c] [] =
      some ([SceneObject.ApplyForce
        { a with
          Mass := a.Mass + b.Mass
          velocity := (a.velocity * a.Mass + b.velocity * b.Mass) / (a.Mass + b.Mass)
          gpuObjects := { ga with r1 := ops.cbrt (ga.r1 ^ 3 + gb.r1 ^ 3) } :: ta }
        (Vec3.splat 0) dt, b, c], [1]) := by
    simp [h012, outerStep, innerLoop, hp, applyForceAt]
  exact ⟨_, key, ApplyForce_Mass _ _ _, ApplyForce_gpuObjects _ _ _⟩

/-- The pass of body 2 in a three-body world in which body 1 is already marked and body 2
collides with a body 0 that is not lighter: body 0 absorbs body 2. -/
theorem outerStep_three_last (ops : FloatOps F) (gE : Bool) (G dt : F) (a b c : SceneObject F)
    (ga gc : GPUobject F) (ta tc : List (GPUobject F))
    (hga : a.gpuObjects = ga :: ta) (hgc : c.gpuObjects = gc :: tc)
    (hcol : ops.sqrt (dot (ga.center - gc.center) (ga.center - gc.center)) ≤ gc.r1 + ga.r1)
    (hm : ¬ c.Mass > a.Mass) :
    ∃ a1 c1, outerStep ops gE G dt 2 [a, b, c] [1] = some ([a1, b, c1], [1, 2]) ∧
      a1.Mass = a.Mass + c.Mass := by
  have h012 : List.range 3 = [0, 1, 2] := rfl
  have hp := pairStep_merge_le ops gE G [a, b, c] [1] (Vec3.splat 0) 2 0 c a gc ga tc ta rfl rfl
    hgc hga hcol hm
  have key : outerStep ops gE G dt 2 [a, b, c] [1] =
      some ([{ a with
          Mass := a.Mass + c.Mass
          velocity := (a.velocity * a.Mass + c.velocity * c.Mass) / (a.Mass + c.Mass)
          gpuObjects := { ga with r1 := ops.cbrt (ga.r1 ^ 3 + gc.r1 ^ 3) } :: ta },
        b, c.ApplyForce (Vec3.splat 0) dt], [1, 2]) := by
    simp [h012, outerStep, innerLoop, hp, applyForceAt]
  exact ⟨_, _, key, rfl⟩

/-- Three bodies: body 0 absorbs body 1 in the pass of body 0 and then absorbs body 2 in the
pass of body 2. -/
theorem pairLoop_three_chain (ops : FloatOps F) (gE : Bool) (G dt : F) (a b c : SceneObject F)
    (ga gb gc : GPUobject F) (ta tb tc : List (GPUobject F))
    (hga : a.gpuObjects = ga :: ta) (hgb : b.gpuObjects = gb :: tb)
    (hgc : c.gpuObjects = gc :: tc)
    (hcol1 : ops.sqrt (dot (gb.center - ga.center) (gb.center - ga.center)) ≤ ga.r1 + gb.r1)
    (hm1 : a.Mass > b.Mass)
    (hcol2 : ops.sqrt (dot (ga.center - gc.center) (ga.center - gc.center))
      ≤ gc.r1 + ops.cbrt (ga.r1 ^ 3 + gb.r1 ^ 3))
    (hm2 : ¬ c.Mass > a.Mass + b.Mass) :
    ∃ objs1 s, pairLoop ops gE G dt [a, b, c] = some (objs1, [1, 2]) ∧
      objs1[0]? = some s ∧ s.Mass = a.Mass + b.Mass + c.Mass := by
  have h012 : List.range 3 = [0, 1, 2] := rfl
  obtain ⟨a1, h1, hma1, hga1⟩ := outerStep_three_first ops gE G dt a b c ga gb ta tb hga hgb
    hcol1 hm1
  obtain ⟨a2, c2, h2, hma2⟩ := outerStep_three_last ops gE G dt a1 b c _ gc ta tc hga1 hgc
    hcol2 (by rw [hma1]; exact hm2)
  refine ⟨[a2, b, c2], a2, ?_, rfl, by rw [hma2, hma1]⟩
  simp [pairLoop, h012, outerLoop, h1, h2]

end Three

section Free
open SceneObject
variable {F : Type} [LinearOrderedField F]

theorem SameBody_refl (a : SceneObject F) : SameBody a a := ⟨rfl, rfl⟩

theorem SameBody_ApplyForce (a : SceneObject F) (f : Vec3 F) (dt : F) :
    SameBody (a.ApplyForce f dt) a := ⟨ApplyForce_Mass a f dt, ApplyForce_gpuObjects a f dt⟩

theorem GetPosition_congr (a b : SceneObject F) (h : a.gpuObjects = b.gpuObjects) :
    a.GetPosition = b.GetPosition := by
  unfold GetPosition; rw [h]

theorem gravityForce_congr (ops : FloatOps F) (G : F) (a a1 b b1 : SceneObject F)
    (ha : SameBody a a1) (hb : SameBody b b1) :
    gravityForce ops G a b = gravityForce ops G a1 b1 := by
  unfold gravityForce
  rw [GetPosition_congr a a1 ha.2, GetPosition_congr b b1 hb.2, ha.1, hb.1]

theorem Collides_congr (ops : FloatOps F) (a a1 b b1 : SceneObject F)
    (ha : SameBody a a1) (hb : SameBody b b1) :
    Collides ops a b ↔ Collides ops a1 b1 := by
  unfold Collides GetGpuObject
  rw [GetPosition_congr a a1 ha.2, GetPosition_congr b b1 hb.2, ha.2, hb.2]

theorem dot_neg_sub (p q : Vec3 F) : dot (p - q) (p - q) = dot (q - p) (q - p) := by
  simp only [dot, Vec3.sub_x, Vec3.sub_y, Vec3.sub_z]; ring

/-- The force of body `b` on body `a` is the exact negation of the force of `a` on `b`. -/
theorem gravityForce_antisymm (ops : FloatOps F) (G : F) (a b : SceneObject F) :
    gravityForce ops G b a = -gravityForce ops G a b := by
  unfold gravityForce
  simp only []
  rw [dot_neg_sub a.GetPosition b.GetPosition]
  ext <;> simp <;> ring

/-- The gravity branch of the inner-loop body for a pair that does not collide. -/
theorem pairStep_free (ops : FloatOps F) (G : F) (objs : List (SceneObject F)) (del : List Nat)
    (tf : Vec3 F) (i j : Nat) (oi oj : SceneObject F)
    (hi : objs[i]? = some oi) (hj : objs[j]? = some oj)
    (hgi : oi.gpuObjects ≠ []) (hgj : oj.gpuObjects ≠ []) (hcol : ¬ Collides ops oi oj) :
    pairStep ops true G objs del tf i j
      = some (PairOutcome.force (tf + gravityForce ops G oi oj)) := by
  obtain ⟨gi, ti, hgi1⟩ := List.exists_cons_of_ne_nil hgi
  obtain ⟨gj, tj, hgj1⟩ := List.exists_cons_of_ne_nil hgj
  have hc : ¬ ops.sqrt (dot (gj.center - gi.center) (gj.center - gi.center)) ≤ gi.r1 + gj.r1 := by
    intro h
    exact hcol ((Collides_iff ops oi oj).2 ⟨gi, gj, ti, tj, hgi1, hgj1, h⟩)
  rw [pairStep_force ops true G objs del tf i j oi oj gi gj ti tj hi hj hgi1 hgj1 hc]
  simp only [if_true]
  have hmax : (if dot (gj.center - gi.center) (gj.center - gi.center) < 1 then (1 : F)
      else dot (gj.center - gi.center) (gj.center - gi.center))
      = max (dot (gj.center - gi.center) (gj.center - gi.center)) 1 := by
    split_ifs with h
    · exact (max_eq_right (le_of_lt h)).symm
    · exact (max_eq_left (not_lt.1 h)).symm
  rw [hmax]
  unfold gravityForce
  simp only [GetPosition, hgi1, hgj1, mul_assoc]
  rfl

end Free

section Free2
open SceneObject
variable {F : Type} [LinearOrderedField F]

theorem forceFrom_some (ops : FloatOps F) (G : F) (objs : List (SceneObject F))
    (oi oj : SceneObject F) (j : Nat) (hj : objs[j]? = some oj) :
    forceFrom ops G objs oi j = gravityForce ops G oi oj := by
  unfold forceFrom; rw [hj]

/-- In a collision-free world the inner loop of body `i` runs to its end and accumulates the
pairwise forces of all the indices `j ≠ i` it visits. -/
theorem innerLoop_free (ops : FloatOps F) (G : F) (i : Nat) (objs : List (SceneObject F))
    (oi : SceneObject F) (hfree : CollisionFree ops objs) (hi : objs[i]? = some oi) :
    ∀ (js : List Nat) (tf : Vec3 F), (∀ j ∈ js, j < objs.length) →
      innerLoop ops true G i js objs [] tf
        = some (objs, [], tf + ((js.filter (fun j => j ≠ i)).map (forceFrom ops G objs oi)).sum) := by
  intro js
  induction js with
  | nil => intro tf _; simp [innerLoop]
  | cons j js ih =>
    intro tf hjs
    have hjs1 : ∀ j ∈ js, j < objs.length := fun k hk => hjs k (List.mem_cons_of_mem _ hk)
    have hj : j < objs.length := hjs j (List.mem_cons_self _ _)
    unfold innerLoop
    by_cases hij : i = j
    · rw [if_pos hij, ih tf hjs1]
      have : ¬ (j ≠ i) := by simp [hij]
      simp [List.filter_cons, hij]
    · rw [if_neg hij, if_neg (List.not_mem_nil j)]
      have hj1 : objs[j]? = some objs[j] := List.getElem?_eq_getElem hj
      have hmi : oi ∈ objs := List.getElem?_mem hi
      rw [pairStep_free ops G objs [] tf i j oi objs[j] hi hj1 (hfree.1 oi hmi)
        (hfree.1 _ (List.getElem_mem hj)) (hfree.2 i j oi objs[j] hij hi hj1)]
      simp only []
      rw [ih _ hjs1]
      have hji : j ≠ i := fun h => hij h.symm
      simp [List.filter_cons, hji, forceFrom_some ops G objs oi objs[j] j hj1, add_assoc]

theorem sum_filter_range_eq (n i : Nat) (f : Nat → Vec3 F) :
    (((List.range n).filter (fun j => j ≠ i)).map f).sum
      = ∑ j in (Finset.range n).erase i, f j := by
  have hnd : ((List.range n).filter (fun j => j ≠ i)).Nodup :=
    List.Nodup.filter _ (List.nodup_range n)
  rw [← List.sum_toFinset f hnd]
  congr 1
  ext k
  simp [List.mem_filter, Finset.mem_erase, and_comm]

end Free2

section Free3
open SceneObject
variable {F : Type} [LinearOrderedField F]

theorem SameBodies_get (cur objs : List (SceneObject F)) (h : SameBodies cur objs) (k : Nat)
    (a : SceneObject F) (ha : cur[k]? = some a) : ∃ b, objs[k]? = some b ∧ SameBody a b := by
  have hk : k < objs.length := by
    rw [← h.1]
    by_contra hge
    rw [List.getElem?_eq_none (by omega)] at ha
    cases ha
  exact ⟨objs[k], List.getElem?_eq_getElem hk, h.2 k a _ ha (List.getElem?_eq_getElem hk)⟩

theorem CollisionFree_of_SameBodies (ops : FloatOps F) (cur objs : List (SceneObject F))
    (h : SameBodies cur objs) (hfree : CollisionFree ops objs) : CollisionFree ops cur := by
  constructor
  · intro o ho
    obtain ⟨k, hk⟩ := List.mem_iff_getElem?.1 ho
    obtain ⟨b, hb, hs⟩ := SameBodies_get cur objs h k o hk
    rw [hs.2]
    exact hfree.1 b (List.getElem?_mem hb)
  · intro i j ci cj hij hci hcj hcol
    obtain ⟨oi, hoi, hsi⟩ := SameBodies_get cur objs h i ci hci
    obtain ⟨oj, hoj, hsj⟩ := SameBodies_get cur objs h j cj hcj
    exact hfree.2 i j oi oj hij hoi hoj ((Collides_congr ops ci oi cj oj hsi hsj).1 hcol)

theorem forceFrom_congr (ops : FloatOps F) (G : F) (cur objs : List (SceneObject F))
    (h : SameBodies cur objs) (ci oi : SceneObject F) (hs : SameBody ci oi) (j : Nat) :
    forceFrom ops G cur ci j = forceFrom ops G objs oi j := by
  unfold forceFrom
  rcases hc : cur[j]? with _ | cj
  · have hj : objs.length ≤ j := by
      rw [← h.1]; exact List.getElem?_eq_none_iff.1 hc
    rw [List.getElem?_eq_none hj]
  · obtain ⟨oj, hoj, hsj⟩ := SameBodies_get cur objs h j cj hc
    rw [hoj]
    exact gravityForce_congr ops G ci oi cj oj hs hsj

theorem netForce_congr (ops : FloatOps F) (G : F) (cur objs : List (SceneObject F))
    (h : SameBodies cur objs) (ci oi : SceneObject F) (hs : SameBody ci oi) (i : Nat) :
    netForce ops G cur ci i = netForce ops G objs oi i := by
  unfold netForce
  rw [h.1]
  exact Finset.sum_congr rfl fun j _ => forceFrom_congr ops G cur objs h ci oi hs j

/-- One pass of the outer loop in a collision-free world: nothing is marked and body `i`
receives `ApplyForce` with its net force. -/
theorem outerStep_free (ops : FloatOps F) (G dt : F) (i : Nat) (cur : List (SceneObject F))
    (ci : SceneObject F) (hfree : CollisionFree ops cur) (hi : cur[i]? = some ci) :
    outerStep ops true G dt i cur [] = some (applyForceAt cur i (netForce ops G cur ci i) dt, []) := by
  unfold outerStep
  rw [innerLoop_free ops G i cur ci hfree hi (List.range cur.length) (Vec3.splat 0)
    (fun j hj => List.mem_range.1 hj)]
  simp only []
  rw [sum_filter_range_eq]
  have h0 : (Vec3.splat 0 : Vec3 F) = 0 := rfl
  rw [h0, zero_add]
  rfl

/-- The outer loop in a collision-free world, started after the bodies below `m` have
received their net force. -/
theorem outerLoop_free (ops : FloatOps F) (G dt : F) (objs : List (SceneObject F))
    (hfree : CollisionFree ops objs) :
    ∀ (len m : Nat) (cur : List (SceneObject F)), m + len = objs.length →
      cur.length = objs.length →
      (∀ (k : Nat) (ok : SceneObject F), objs[k]? = some ok →
        cur[k]? = some (if k < m then ok.ApplyForce (netForce ops G objs ok k) dt else ok)) →
      ∃ fin, outerLoop ops true G dt (List.range' m len) cur [] = some (fin, []) ∧
        fin.length = objs.length ∧
        ∀ (k : Nat) (ok : SceneObject F), objs[k]? = some ok →
          fin[k]? = some (ok.ApplyForce (netForce ops G objs ok k) dt) := by
  intro len
  induction len with
  | zero =>
    intro m cur hm hlen hcur
    refine ⟨cur, rfl, hlen, ?_⟩
    intro k ok hk
    have hk1 : k < objs.length := by
      by_contra hge
      rw [List.getElem?_eq_none (by omega)] at hk
      cases hk
    rw [hcur k ok hk, if_pos (by omega)]
  | succ len ih =>
    intro m cur hm hlen hcur
    have hsame : SameBodies cur objs := by
      refine ⟨hlen, ?_⟩
      intro k a b ha hb
      rw [hcur k b hb] at ha
      have := Option.some.inj ha
      rw [← this]
      split_ifs
      · exact SameBody_ApplyForce _ _ _
      · exact SameBody_refl _
    have hfc : CollisionFree ops cur := CollisionFree_of_SameBodies ops cur objs hsame hfree
    have hmlt : m < objs.length := by omega
    have hom : objs[m]? = some objs[m] := List.getElem?_eq_getElem hmlt
    have hcm : cur[m]? = some objs[m] := by
      rw [hcur m _ hom, if_neg (lt_irrefl m)]
    have hnf : netForce ops G cur objs[m] m = netForce ops G objs objs[m] m :=
      netForce_congr ops G cur objs hsame _ _ (SameBody_refl _) m
    rw [List.range'_succ]
    unfold outerLoop
    rw [if_neg (List.not_mem_nil m), outerStep_free ops G dt m cur _ hfc hcm]
    simp only []
    apply ih (m + 1) _ (by omega) (by rw [length_applyForceAt, hlen])
    intro k ok hk
    unfold applyForceAt
    rw [List.getElem?_modify, hcur k ok hk]
    simp only [Option.map_eq_map, Option.map_some']
    by_cases hkm : m = k
    · subst hkm
      have hok : ok = objs[m] := by
        rw [hom] at hk; exact (Option.some.inj hk).symm
      rw [if_pos rfl, if_neg (lt_irrefl m), if_pos (Nat.lt_succ_self m), hnf, hok]
    · rw [if_neg hkm]
      by_cases hlt : k < m
      · rw [if_pos hlt, if_pos (by omega)]
      · rw [if_neg hlt, if_neg (by omega)]

/-- The pair loop of `update` in a collision-free world with gravity enabled: no body is
marked, and every body receives `ApplyForce` with its net force. -/
theorem pairLoop_free (ops : FloatOps F) (G dt : F) (objs : List (SceneObject F))
    (hfree : CollisionFree ops objs) :
    ∃ objs1, pairLoop ops true G dt objs = some (objs1, []) ∧
      objs1.length = objs.length ∧
      ∀ (i : Nat) (oi : SceneObject F), objs[i]? = some oi →
        objs1[i]? = some (oi.ApplyForce (netForce ops G objs oi i) dt) := by
  unfold pairLoop
  rw [List.range_eq_range']
  apply outerLoop_free ops G dt objs hfree objs.length 0 objs (by omega) rfl
  intro k ok hk
  rw [hk, if_neg (Nat.not_lt_zero k)]

end Free3

section Momentum
open SceneObject
variable {F : Type} [LinearOrderedField F]

theorem Vec3.eq_zero_of_eq_neg (v : Vec3 F) (h : v = -v) : v = 0 := by
  have hx := congrArg Vec3.x h
  have hy := congrArg Vec3.y h
  have hz := congrArg Vec3.z h
  simp only [Vec3.neg_x, Vec3.neg_y, Vec3.neg_z] at hx hy hz
  ext
  · show v.x = 0; linarith
  · show v.y = 0; linarith
  · show v.z = 0; linarith

/-- A double sum over ordered pairs of distinct indices of an antisymmetric term vanishes. -/
theorem sum_antisymm_eq_zero (f : Nat → Nat → Vec3 F) (h : ∀ k j, f k j = -f j k) (n : Nat) :
    ∑ k in Finset.range n, ∑ j in (Finset.range n).erase k, f k j = 0 := by
  have hdiag : ∀ k, f k k = 0 := fun k => Vec3.eq_zero_of_eq_neg _ (h k k)
  have e : ∀ k ∈ Finset.range n,
      ∑ j in (Finset.range n).erase k, f k j = ∑ j in Finset.range n, f k j := by
    intro k hk
    rw [← Finset.add_sum_erase _ _ hk, hdiag, zero_add]
  rw [Finset.sum_congr rfl e]
  apply Vec3.eq_zero_of_eq_neg
  calc ∑ k in Finset.range n, ∑ j in Finset.range n, f k j
      = ∑ j in Finset.range n, ∑ k in Finset.range n, f k j := Finset.sum_comm
    _ = ∑ j in Finset.range n, ∑ k in Finset.range n, -f j k :=
        Finset.sum_congr rfl fun j _ => Finset.sum_congr rfl fun k _ => h k j
    _ = -∑ k in Finset.range n, ∑ j in Finset.range n, f k j := by
        simp only [Finset.sum_neg_distrib]

theorem Vec3.sum_mul {ι : Type} (s : Finset ι) (f : ι → Vec3 F) (c : F) :
    (∑ k in s, f k) * c = ∑ k in s, f k * c := by
  induction s using Finset.cons_induction with
  | empty =>
    simp only [Finset.sum_empty]
    ext <;> simp
  | cons a s ha ih =>
    rw [Finset.sum_cons, Finset.sum_cons, ← ih]
    ext <;> simp <;> ring

theorem atIndex_some (g : SceneObject F → Vec3 F) (l : List (SceneObject F)) (k : Nat)
    (o : SceneObject F) (h : l[k]? = some o) : atIndex g l k = g o := by
  unfold atIndex; rw [h]

theorem list_sum_eq_sum_range (g : SceneObject F → Vec3 F) (l : List (SceneObject F)) :
    (l.map g).sum = ∑ k in Finset.range l.length, atIndex g l k := by
  induction l with
  | nil => simp
  | cons a l ih =>
    rw [List.map_cons, List.sum_cons, List.length_cons, Finset.sum_range_succ', ih]
    simp [atIndex, add_comm]

theorem ApplyForce_momentum (o : SceneObject F) (f : Vec3 F) (dt : F) (hm : 0 < o.Mass) :
    (o.ApplyForce f dt).velocity * (o.ApplyForce f dt).Mass = o.velocity * o.Mass + f * dt := by
  have hne : o.Mass ≠ 0 := ne_of_gt hm
  unfold ApplyForce
  rw [if_pos hm]
  ext <;> simp <;> field_simp <;> ring

end Momentum

section GravityClaims
open SceneObject
variable {F : Type} [LinearOrderedField F]

/-- The ordered-pair force table of a world is antisymmetric: entry `(k, j)` is the force on
body `k` from body `j`, and zero outside the world. -/
theorem forceTable_antisymm (ops : FloatOps F) (G : F) (objs : List (SceneObject F)) (k j : Nat) :
    atIndex (fun ok => forceFrom ops G objs ok j) objs k
      = -atIndex (fun oj => forceFrom ops G objs oj k) objs j := by
  unfold atIndex
  rcases hk : objs[k]? with _ | ok <;> rcases hj : objs[j]? with _ | oj
  · simp
  · simp [forceFrom, hk]
  · simp [forceFrom, hj]
  · simp only [forceFrom, hk, hj]
    exact gravityForce_antisymm ops G oj ok

theorem pairLoop_free_momentum (ops : FloatOps F) (G dt : F) (objs : List (SceneObject F))
    (hfree : CollisionFree ops objs) (hpos : ∀ o ∈ objs, 0 < o.Mass) :
    ∃ objs1, pairLoop ops true G dt objs = some (objs1, []) ∧
      totalMomentum objs1 = totalMomentum objs := by
  obtain ⟨objs1, h1, hlen, hget⟩ := pairLoop_free ops G dt objs hfree
  refine ⟨objs1, h1, ?_⟩
  unfold totalMomentum
  rw [list_sum_eq_sum_range, list_sum_eq_sum_range, hlen]
  have key : ∀ k ∈ Finset.range objs.length,
      atIndex (fun o => o.velocity * o.Mass) objs1 k
      = atIndex (fun o => o.velocity * o.Mass) objs k
        + (∑ j in (Finset.range objs.length).erase k,
            atIndex (fun ok => forceFrom ops G objs ok j) objs k) * dt := by
    intro k hk
    have hk1 : k < objs.length := Finset.mem_range.1 hk
    have hok : objs[k]? = some objs[k] := List.getElem?_eq_getElem hk1
    rw [atIndex_some _ _ _ _ (hget k _ hok), atIndex_some _ _ _ _ hok,
      ApplyForce_momentum _ _ _ (hpos _ (List.getElem_mem hk1))]
    congr 2
    exact Finset.sum_congr rfl fun j _ =>
      (atIndex_some (fun ok => forceFrom ops G objs ok j) objs k _ hok).symm
  rw [Finset.sum_congr rfl key, Finset.sum_add_distrib, ← Vec3.sum_mul,
    sum_antisymm_eq_zero _ (forceTable_antisymm ops G objs) objs.length]
  ext <;> simp

end GravityClaims

section UpdateLemmas
open SceneObject
variable {F : Type} [LinearOrderedField F]

/-- After the type check, `Update` changes neither the type nor the mass. -/
theorem Update_of_check (ops : FloatOps F) (o o1 : SceneObject F) (dt : F)
    (h : o.CheckForTypeTransition = some o1) :
    ∃ o2, o.Update ops dt = some o2 ∧ o2.Type_ = o1.Type_ ∧ o2.Mass = o1.Mass := by
  unfold Update
  rw [h]
  simp only [Option.pure_def, Option.bind_eq_bind, Option.some_bind]
  split_ifs
  · exact ⟨_, rfl, rfl, rfl⟩
  · exact ⟨_, rfl, rfl, rfl⟩

/-- The ordinary transition of a rocky planet heavier than 50 that does not collapse. -/
theorem check_rocky_to_giant (o : SceneObject F) (g : GPUobject F)
    (hg : o.GetGpuObject 0 = some g) (ht : o.Type_ = ObjectType.RockyPlanet)
    (hr : ¬ g.r1 < o.Mass * (5368709 / 2 ^ 30)) (hm : o.Mass > 50) :
    o.CheckForTypeTransition = some (o.SetupAs ObjectType.GasGiant) := by
  simp only [CheckForTypeTransition, checkTransitions, hg, Option.pure_def, Option.bind_eq_bind, Option.some_bind]
  rw [if_neg (fun h => hr h.2), ht]
  simp only []
  rw [if_pos hm]

theorem SetupAs_GasGiant_Mass (o : SceneObject F) : (o.SetupAs ObjectType.GasGiant).Mass = 80 :=
  rfl

end UpdateLemmas

section TrailLemmas
open SceneObject
variable {F : Type} [LinearOrderedField F] [FloorRing F]

/-- Without rounding the denominator of the trail quotient is `timeScale * (speed^2 + 1)`. -/
theorem trailDenominator_exact (ops : FloatOps F) (hex : ∀ x, ops.toDouble x = x)
    (timeScale speed : F) : trailDenominator ops timeScale speed = timeScale * (speed ^ 2 + 1) := by
  unfold trailDenominator
  rw [hex, hex, hex]

/-- Without rounding the trail quotient is `30000 / (timeScale * (speed^2 + 1))`. -/
theorem trailQuotient_exact (ops : FloatOps F) (hex : ∀ x, ops.toDouble x = x)
    (timeScale speed : F) :
    trailQuotient ops timeScale speed = 30000 / (timeScale * (speed ^ 2 + 1)) := by
  unfold trailQuotient
  rw [hex, trailDenominator_exact ops hex]

/-- The trail update of one body writes `MaxTrailPoints` and `TrailPoints` only. -/
theorem trailStep_frame (ops : FloatOps F) (timeScale : F) (com : Vec3 F) (speed : F)
    (o o1 : SceneObject F) (h : trailStep ops timeScale com speed o = some o1) :
    o1.velocity = o.velocity ∧ o1.gpuObjects = o.gpuObjects ∧ o1.Mass = o.Mass ∧
      o1.Type_ = o.Type_ := by
  unfold trailStep at h
  by_cases hden : trailDenominator ops timeScale speed = 0
  · rw [if_pos hden] at h
    cases h
  · rw [if_neg hden] at h
    rcases hn : floatToSizeT (trailQuotient ops timeScale speed) with _ | n
    · rw [hn] at h
      cases h
    · rw [hn] at h
      injection h with e
      subst e
      exact ⟨rfl, rfl, rfl, rfl⟩

/-- The body of the loop of `update_trails` when the total mass is not zero. -/
theorem updateTrail_eq (ops : FloatOps F) (timeScale : F) (com wvs : Vec3 F) (totalMass : F)
    (o : SceneObject F) (hm : totalMass ≠ 0) :
    updateTrail ops timeScale com wvs totalMass o
      = trailStep ops timeScale com (length ops (o.velocity - wvs / totalMass)) o := by
  unfold updateTrail relativeSpeed
  rw [if_neg hm]

/-- The body of the loop of `update_trails` for a body whose relative speed is `speed`. -/
theorem updateTrail_of_speed (ops : FloatOps F) (timeScale : F) (com wvs : Vec3 F)
    (totalMass speed : F) (o : SceneObject F)
    (hs : relativeSpeed ops wvs totalMass o = some speed) :
    updateTrail ops timeScale com wvs totalMass o = trailStep ops timeScale com speed o := by
  unfold updateTrail
  rw [hs]

theorem updateTrail_frame (ops : FloatOps F) (timeScale : F) (com wvs : Vec3 F)
    (totalMass : F) (o o1 : SceneObject F)
    (h : updateTrail ops timeScale com wvs totalMass o = some o1) :
    o1.velocity = o.velocity ∧ o1.gpuObjects = o.gpuObjects ∧ o1.Mass = o.Mass ∧
      o1.Type_ = o.Type_ := by
  by_cases hm : totalMass = 0
  · unfold updateTrail relativeSpeed at h
    rw [if_pos hm] at h
    cases h
  · rw [updateTrail_eq ops timeScale com wvs totalMass o hm] at h
    exact trailStep_frame ops timeScale com _ o o1 h

/-- Without rounding, with `timeScale >= 1` and a total mass that is not zero, the trail
update of one body is defined and changes neither the type nor the mass. -/
theorem updateTrail_some (ops : FloatOps F) (hex : ∀ x, ops.toDouble x = x) (timeScale : F)
    (com wvs : Vec3 F) (totalMass : F) (o : SceneObject F) (hm : totalMass ≠ 0)
    (hts : 1 ≤ timeScale) :
    ∃ o1, updateTrail ops timeScale com wvs totalMass o = some o1 ∧
      o1.Type_ = o.Type_ ∧ o1.Mass = o.Mass := by
  have hden : (1 : F) ≤ timeScale * (length ops (o.velocity - wvs / totalMass) ^ 2 + 1) := by
    have h1 : (1 : F) ≤ length ops (o.velocity - wvs / totalMass) ^ 2 + 1 := by
      have := sq_nonneg (length ops (o.velocity - wvs / totalMass))
      linarith
    calc (1 : F) = 1 * 1 := by ring
      _ ≤ timeScale * (length ops (o.velocity - wvs / totalMass) ^ 2 + 1) :=
        mul_le_mul hts h1 (by norm_num) (by linarith)
  have hpos : (0 : F) < timeScale * (length ops (o.velocity - wvs / totalMass) ^ 2 + 1) := by
    linarith
  have hq1 : (-1 : F) <
      30000 / (timeScale * (length ops (o.velocity - wvs / totalMass) ^ 2 + 1)) := by
    have : (0 : F) < 30000 / (timeScale * (length ops (o.velocity - wvs / totalMass) ^ 2 + 1)) :=
      div_pos (by norm_num) hpos
    linarith
  have hq2 : 30000 / (timeScale * (length ops (o.velocity - wvs / totalMass) ^ 2 + 1))
      < (2 : F) ^ 64 := by
    rw [div_lt_iff₀ hpos]
    have : (30000 : F) < 2 ^ 64 := by norm_num
    nlinarith
  rw [updateTrail_eq ops timeScale com wvs totalMass o hm]
  unfold trailStep floatToSizeT
  rw [trailDenominator_exact ops hex, trailQuotient_exact ops hex, if_neg (ne_of_gt hpos),
    if_pos ⟨hq1, hq2⟩]
  exact ⟨_, rfl, rfl, rfl⟩

theorem updateTrailsLoop_some (ops : FloatOps F) (hex : ∀ x, ops.toDouble x = x)
    (timeScale : F) (com wvs : Vec3 F) (totalMass : F) (hm : totalMass ≠ 0)
    (hts : 1 ≤ timeScale) :
    ∀ l : List (SceneObject F),
      ∃ l1, updateTrailsLoop ops timeScale com wvs totalMass l = some l1 ∧
        l1.map (fun o => (o.Type_, o.Mass)) = l.map (fun o => (o.Type_, o.Mass)) := by
  intro l
  induction l with
  | nil => exact ⟨[], rfl, rfl⟩
  | cons o l ih =>
    obtain ⟨o1, h1, ht, hm1⟩ := updateTrail_some ops hex timeScale com wvs totalMass o hm hts
    obtain ⟨l1, h2, h3⟩ := ih
    refine ⟨o1 :: l1, ?_, ?_⟩
    · unfold updateTrailsLoop
      rw [h1, h2]
    · simp only [List.map_cons, h3, ht, hm1]

/-- The bodies held by the application after `update`, from the results of its stages. -/
theorem update_of_stages (ops : FloatOps F) (app : Application F)
    (objs : List (SceneObject F)) (del : List Nat) (objs2 objs3 : List (SceneObject F))
    (hdt : app.dt * app.timeScale > 0)
    (h1 : pairLoop ops app.gravityEnabled app.gravitationalConstant (app.dt * app.timeScale)
      app.sceneObjects = some (objs, del))
    (h2 : updateAll ops (app.dt * app.timeScale)
      (if del.isEmpty then objs else eraseMarked objs del) = some objs2)
    (h3 : update_trails ops app.timeScale (centerOfMassOf app.sceneObjects) objs2 = some objs3) :
    ∃ app1, update ops app = some app1 ∧ app1.sceneObjects = objs3 := by
  unfold update
  simp only [Option.pure_def, Option.bind_eq_bind, hdt, if_true, h1, Option.some_bind, h2, h3]
  split_ifs with hsel
  · have hlt : app.selectedObjectIndex.toNat < objs3.length := by
      have := hsel.2
      simp only at this
      omega
    rw [List.getElem?_eq_getElem hlt]
    exact ⟨_, rfl, rfl⟩
  · exact ⟨_, rfl, rfl⟩

end TrailLemmas

section RealWorlds
open SceneObject

theorem ApplyForce_Type {F : Type} [LinearOrderedField F] (o : SceneObject F) (f : Vec3 F)
    (dt : F) : (o.ApplyForce f dt).Type_ = o.Type_ := by
  unfold ApplyForce
  split_ifs <;> rfl

theorem realCbrt_quarter_not_small : ¬ realCbrt ((0.5 : ℝ) ^ 3 + (0.5 : ℝ) ^ 3) < 60 * (5368709 / 2 ^ 30) := by
  intro h
  have h0 : 0 ≤ realCbrt ((0.5 : ℝ) ^ 3 + (0.5 : ℝ) ^ 3) := realCbrt_nonneg _ (by norm_num)
  have h3 := realCbrt_cube ((0.5 : ℝ) ^ 3 + (0.5 : ℝ) ^ 3)
  have h4 : realCbrt ((0.5 : ℝ) ^ 3 + (0.5 : ℝ) ^ 3) ^ 3 < (60 * (5368709 / 2 ^ 30) : ℝ) ^ 3 :=
    pow_lt_pow_left₀ h h0 (by norm_num)
  rw [h3] at h4
  norm_num at h4

/-- The code at the failing input of C6: after `update` on two overlapping rocky planets of
mass 30 each, the world holds one body, a GasGiant of mass 80, not of mass 60. -/
theorem merged_mass_overwritten_by_type_change :
    ∃ app1, update realOps (twoRockyApp ℝ) = some app1 ∧
      app1.sceneObjects.map (fun o => (o.Type_, o.Mass)) = [(ObjectType.GasGiant, 80)] := by
  obtain ⟨ga, hga, hca, hra⟩ := rocky_gpuObjects (⟨0, 0, 0⟩ : Vec3 ℝ) 30
  obtain ⟨gb, hgb, hcb, hrb⟩ := rocky_gpuObjects (⟨1 / 2, 0, 0⟩ : Vec3 ℝ) 30
  have hma := rocky_Mass (⟨0, 0, 0⟩ : Vec3 ℝ) 30 (by norm_num)
  have hmb := rocky_Mass (⟨1 / 2, 0, 0⟩ : Vec3 ℝ) 30 (by norm_num)
  have hcol : realOps.sqrt (dot (gb.center - ga.center) (gb.center - ga.center))
      ≤ ga.r1 + gb.r1 := by
    rw [hca, hcb, hra, hrb]
    show Real.sqrt _ ≤ _
    rw [Real.sqrt_le_iff]
    constructor <;> norm_num [dot]
  have hm : ¬ (rocky ℝ ⟨0, 0, 0⟩ 30).Mass > (rocky ℝ ⟨1 / 2, 0, 0⟩ 30).Mass := by
    rw [hma, hmb]; norm_num
  have hdt : (twoRockyApp ℝ).dt * (twoRockyApp ℝ).timeScale > 0 := by
    norm_num [twoRockyApp]
  have hloop := pairLoop_pair_le realOps (twoRockyApp ℝ).gravityEnabled
    (twoRockyApp ℝ).gravitationalConstant ((twoRockyApp ℝ).dt * (twoRockyApp ℝ).timeScale)
    _ _ ga gb [] [] hga hgb hcol hm
  obtain ⟨o2, hu, ht2, hm2⟩ := Update_of_check realOps _ _
    ((twoRockyApp ℝ).dt * (twoRockyApp ℝ).timeScale)
    (check_rocky_to_giant
      (SceneObject.ApplyForce
        { rocky ℝ ⟨1 / 2, 0, 0⟩ 30 with
          Mass := (rocky ℝ ⟨1 / 2, 0, 0⟩ 30).Mass + (rocky ℝ ⟨0, 0, 0⟩ 30).Mass
          velocity :=
            ((rocky ℝ ⟨1 / 2, 0, 0⟩ 30).velocity * (rocky ℝ ⟨1 / 2, 0, 0⟩ 30).Mass +
              (rocky ℝ ⟨0, 0, 0⟩ 30).velocity * (rocky ℝ ⟨0, 0, 0⟩ 30).Mass) /
              ((rocky ℝ ⟨1 / 2, 0, 0⟩ 30).Mass + (rocky ℝ ⟨0, 0, 0⟩ 30).Mass)
          gpuObjects := [{ gb with r1 := realOps.cbrt (gb.r1 ^ 3 + ga.r1 ^ 3) }] }
        (Vec3.splat 0) ((twoRockyApp ℝ).dt * (twoRockyApp ℝ).timeScale))
      { gb with r1 := realOps.cbrt (gb.r1 ^ 3 + ga.r1 ^ 3) }
      (by rw [GetGpuObject_zero]; exact ⟨[], by rw [ApplyForce_gpuObjects]⟩)
      (by rw [ApplyForce_Type]; exact rocky_Type (⟨1 / 2, 0, 0⟩ : Vec3 ℝ) 30)
      (by
        rw [ApplyForce_Mass]
        show ¬ realCbrt (gb.r1 ^ 3 + ga.r1 ^ 3)
          < ((rocky ℝ ⟨1 / 2, 0, 0⟩ 30).Mass + (rocky ℝ ⟨0, 0, 0⟩ 30).Mass) * (5368709 / 2 ^ 30)
        rw [hra, hrb, hma, hmb]
        have e : ((30 : ℝ) + 30) * (5368709 / 2 ^ 30) = 60 * (5368709 / 2 ^ 30) := by norm_num
        rw [e]
        exact realCbrt_quarter_not_small)
      (by
        rw [ApplyForce_Mass]
        show (rocky ℝ ⟨1 / 2, 0, 0⟩ 30).Mass + (rocky ℝ ⟨0, 0, 0⟩ 30).Mass > 50
        rw [hma, hmb]; norm_num))
  obtain ⟨l1, htr, hmap⟩ := updateTrailsLoop_some realOps (fun _ => rfl)
    (twoRockyApp ℝ).timeScale
    (centerOfMassOf (twoRockyApp ℝ).sceneObjects)
    (List.foldl (fun acc obj => acc + obj.velocity * obj.Mass) (Vec3.mk 0 0 0) [o2])
    (List.foldl (fun acc obj => acc + obj.Mass) (0 : ℝ) [o2])
    (by
      simp only [List.foldl_cons, List.foldl_nil, hm2, SetupAs_GasGiant_Mass]
      norm_num)
    (by norm_num [twoRockyApp]) [o2]
  obtain ⟨app1, happ, hobjs⟩ := update_of_stages realOps (twoRockyApp ℝ) _ [0] [o2] l1 hdt hloop
    (by
      simp only [List.isEmpty_cons, Bool.false_eq_true, if_false, eraseMarked,
        List.insertionSort, List.orderedInsert, List.foldl_cons, List.foldl_nil,
        List.eraseIdx_cons_zero]
      unfold updateAll
      rw [hu]
      rfl)
    htr
  refine ⟨app1, happ, ?_⟩
  rw [hobjs, hmap]
  simp only [List.map_cons, List.map_nil, ht2, hm2]
  rfl

end RealWorlds

section LoopClaims
open SceneObject
variable {F : Type} [LinearOrderedField F]

/-- C5 (amended): on bodies that all have a primary geometry record the outer loop of `update`
ends, each of its passes appends at most one index to `objects_to_delete` (one merge per
pass), and no index is appended twice: a body is marked for deletion at most once. -/
theorem each_pass_marks_at_most_one (ops : FloatOps F) (gravityEnabled : Bool) (G dt : F)
    (is : List Nat) (objs : List (SceneObject F)) (del : List Nat)
    (hgeo : HasGeometry objs) (his : ∀ i ∈ is, i < objs.length) (hnd : del.Nodup)
    (hlt : ∀ k ∈ del, k < objs.length) :
    ∃ objs1 del1, outerLoop ops gravityEnabled G dt is objs del = some (objs1, del1) ∧
      del1.Nodup ∧ del <+: del1 ∧ del1.length ≤ del.length + is.length ∧
      (∀ k ∈ del1, k < objs.length) ∧ objs1.length = objs.length := by
  obtain ⟨objs1, del1, h1, h2, -, h4, h5, h6, h7⟩ :=
    outerLoop_total ops gravityEnabled G dt is objs del hgeo his hnd hlt
  exact ⟨objs1, del1, h1, h4, h6, h7, h5, h2⟩

/-- C8: in a collision-free world with positive masses and gravity enabled, the force the
inner-loop body adds for the ordered pair `(j, i)` is the exact negation of the one it adds
for `(i, j)`, and the total momentum after the pair loop (the velocity update of the step)
equals the total momentum before it. -/
theorem newton_third_law_conserves_momentum (ops : FloatOps F) (G dt : F)
    (objs : List (SceneObject F)) (hfree : CollisionFree ops objs)
    (hpos : ∀ o ∈ objs, 0 < o.Mass) :
    (∀ (i j : Nat) (oi oj : SceneObject F) (del : List Nat) (tf tf1 : Vec3 F), i ≠ j →
      objs[i]? = some oi → objs[j]? = some oj →
      ∃ f, pairStep ops true G objs del tf i j = some (PairOutcome.force (tf + f)) ∧
        pairStep ops true G objs del tf1 j i = some (PairOutcome.force (tf1 + -f))) ∧
    ∃ objs1, pairLoop ops true G dt objs = some (objs1, []) ∧
      totalMomentum objs1 = totalMomentum objs := by
  refine ⟨?_, pairLoop_free_momentum ops G dt objs hfree hpos⟩
  intro i j oi oj del tf tf1 hij hi hj
  have hgi := hfree.1 oi (List.getElem?_mem hi)
  have hgj := hfree.1 oj (List.getElem?_mem hj)
  refine ⟨gravityForce ops G oi oj,
    pairStep_free ops G objs del tf i j oi oj hi hj hgi hgj (hfree.2 i j oi oj hij hi hj), ?_⟩
  rw [pairStep_free ops G objs del tf1 j i oj oi hj hi hgj hgi
    (hfree.2 j i oj oi (Ne.symm hij) hj hi), gravityForce_antisymm ops G oi oj]

end LoopClaims

section LoopWitnesses
open SceneObject

theorem rocky_hasGeometry (p : Vec3 ℝ) (m : ℝ) : (rocky ℝ p m).gpuObjects ≠ [] := by
  obtain ⟨g, hg, -, -⟩ := rocky_gpuObjects p m
  rw [hg]; simp

theorem threeOverlapping_hasGeometry : HasGeometry (threeOverlapping ℝ) := by
  intro o ho
  simp only [threeOverlapping, List.mem_cons, List.mem_singleton, List.not_mem_nil,
    or_false] at ho
  rcases ho with rfl | rfl | rfl <;> exact rocky_hasGeometry _ _

/-- Counterexample to C5 as stated: in a world of three mutually overlapping bodies of masses
30, 20 and 10, one run of the pair loop marks bodies 1 and 2, and body 0 ends with mass 60:
it has absorbed body 1 in its own pass and body 2 in the pass of body 2. -/
theorem survivor_absorbs_twice :
    ∃ objs1 s, pairLoop realOps true (1 / 2) (1 / 60) (threeOverlapping ℝ) = some (objs1, [1, 2]) ∧
      objs1[0]? = some s ∧ s.Mass = 60 := by
  obtain ⟨ga, hga, hca, hra⟩ := rocky_gpuObjects (⟨0, 0, 0⟩ : Vec3 ℝ) 30
  obtain ⟨gb, hgb, hcb, hrb⟩ := rocky_gpuObjects (⟨1 / 2, 0, 0⟩ : Vec3 ℝ) 20
  obtain ⟨gc, hgc, hcc, hrc⟩ := rocky_gpuObjects (⟨0, 1 / 2, 0⟩ : Vec3 ℝ) 10
  have hma := rocky_Mass (⟨0, 0, 0⟩ : Vec3 ℝ) 30 (by norm_num)
  have hmb := rocky_Mass (⟨1 / 2, 0, 0⟩ : Vec3 ℝ) 20 (by norm_num)
  have hmc := rocky_Mass (⟨0, 1 / 2, 0⟩ : Vec3 ℝ) 10 (by norm_num)
  have hcol1 : realOps.sqrt (dot (gb.center - ga.center) (gb.center - ga.center))
      ≤ ga.r1 + gb.r1 := by
    rw [hca, hcb, hra, hrb]
    show Real.sqrt _ ≤ _
    rw [Real.sqrt_le_iff]
    constructor <;> norm_num [dot]
  have hcol2 : realOps.sqrt (dot (ga.center - gc.center) (ga.center - gc.center))
      ≤ gc.r1 + realOps.cbrt (ga.r1 ^ 3 + gb.r1 ^ 3) := by
    have hc0 : 0 ≤ realCbrt (ga.r1 ^ 3 + gb.r1 ^ 3) :=
      realCbrt_nonneg _ (by rw [hra, hrb]; norm_num)
    have hs : Real.sqrt (dot (ga.center - gc.center) (ga.center - gc.center)) ≤ 1 / 2 := by
      rw [hca, hcc, Real.sqrt_le_iff]
      constructor <;> norm_num [dot]
    show Real.sqrt _ ≤ gc.r1 + realCbrt _
    rw [hrc]
    have e : (0.5 : ℝ) = 1 / 2 := by norm_num
    rw [e]
    linarith
  obtain ⟨objs1, s, h1, h2, h3⟩ := pairLoop_three_chain realOps true (1 / 2) (1 / 60)
    (rocky ℝ ⟨0, 0, 0⟩ 30) (rocky ℝ ⟨1 / 2, 0, 0⟩ 20) (rocky ℝ ⟨0, 1 / 2, 0⟩ 10)
    ga gb gc [] [] [] hga hgb hgc hcol1 (by rw [hma, hmb]; norm_num) hcol2
    (by rw [hma, hmb, hmc]; norm_num)
  refine ⟨objs1, s, h1, h2, ?_⟩
  rw [h3, hma, hmb, hmc]; norm_num

/-- Witness of the amended C5 on three mutually overlapping bodies. -/
theorem each_pass_marks_at_most_one_witness :
    ∃ objs1 del1,
      outerLoop realOps true (1 / 2) (1 / 60) (List.range 3) (threeOverlapping ℝ) []
        = some (objs1, del1) ∧
      del1.Nodup ∧ [] <+: del1 ∧ del1.length ≤ ([] : List Nat).length + (List.range 3).length ∧
      (∀ k ∈ del1, k < (threeOverlapping ℝ).length) ∧
      objs1.length = (threeOverlapping ℝ).length :=
  each_pass_marks_at_most_one realOps true (1 / 2) (1 / 60) (List.range 3) (threeOverlapping ℝ) []
    threeOverlapping_hasGeometry (fun _ hi => List.mem_range.1 hi) List.nodup_nil
    (fun k hk => absurd hk (List.not_mem_nil k))

theorem threeApart_free : CollisionFree realOps (threeApart ℝ) := by
  constructor
  · intro o ho
    simp only [threeApart, List.mem_cons, List.mem_singleton, List.not_mem_nil,
      or_false] at ho
    rcases ho with rfl | rfl | rfl <;> exact rocky_hasGeometry _ _
  · intro i j oi oj hij hi hj
    rcases i with _ | _ | _ | _ <;> rcases j with _ | _ | _ | _ <;>
      simp [threeApart] at hi hj hij <;>
      subst hi <;> subst hj <;>
      exact rocky_not_collides _ _ _ _ (by norm_num [dot])

theorem threeApart_pos : ∀ o ∈ threeApart ℝ, 0 < o.Mass := by
  intro o ho
  simp only [threeApart, List.mem_cons, List.mem_singleton, List.not_mem_nil,
    or_false] at ho
  rcases ho with rfl | rfl | rfl <;> rw [rocky_Mass _ _ (by norm_num)] <;> norm_num

/-- Witness of C8 on three bodies at pairwise distances 3, 4 and 5. -/
theorem newton_third_law_conserves_momentum_witness :
    (∀ (i j : Nat) (oi oj : SceneObject ℝ) (del : List Nat) (tf tf1 : Vec3 ℝ), i ≠ j →
      (threeApart ℝ)[i]? = some oi → (threeApart ℝ)[j]? = some oj →
      ∃ f, pairStep realOps true (1 / 2) (threeApart ℝ) del tf i j
          = some (PairOutcome.force (tf + f)) ∧
        pairStep realOps true (1 / 2) (threeApart ℝ) del tf1 j i
          = some (PairOutcome.force (tf1 + -f))) ∧
    ∃ objs1, pairLoop realOps true (1 / 2) (1 / 60) (threeApart ℝ) = some (objs1, []) ∧
      totalMomentum objs1 = totalMomentum (threeApart ℝ) :=
  newton_third_law_conserves_momentum realOps (1 / 2) (1 / 60) (threeApart ℝ) threeApart_free
    threeApart_pos

end LoopWitnesses

section BlackHoleLemmas
open SceneObject
variable {F : Type} [LinearOrderedField F]

/-- A BlackHole with a primary geometry record passes the evolution check unchanged. -/
theorem check_blackHole (o : SceneObject F) (ht : o.Type_ = ObjectType.BlackHole)
    (hg : o.gpuObjects ≠ []) : o.CheckForTypeTransition = some o := by
  obtain ⟨g, t, hgt⟩ := List.exists_cons_of_ne_nil hg
  have h0 : o.GetGpuObject 0 = some g := (GetGpuObject_zero o g).2 ⟨t, hgt⟩
  simp only [CheckForTypeTransition, checkTransitions, h0, Option.pure_def, Option.bind_eq_bind, Option.some_bind]
  rw [if_neg (fun h => h.1 ht), ht]

/-- The evolution check never modifies a BlackHole. -/
theorem check_blackHole_eq (o o1 : SceneObject F) (ht : o.Type_ = ObjectType.BlackHole)
    (h : o.CheckForTypeTransition = some o1) : o1 = o := by
  by_cases hg : o.gpuObjects = []
  · simp [CheckForTypeTransition, checkTransitions, GetGpuObject, hg] at h
  · rw [check_blackHole o ht hg] at h
    exact (Option.some.inj h).symm

theorem absorb_some (ops : FloatOps F) (o small : SceneObject F) (hg : o.gpuObjects ≠ [])
    (hs : small.gpuObjects ≠ []) :
    ∃ o1, absorb ops o small = some o1 ∧ o1.Type_ = o.Type_ ∧ o1.gpuObjects ≠ [] := by
  obtain ⟨g, t, hgt⟩ := List.exists_cons_of_ne_nil hg
  obtain ⟨g2, t2, hgt2⟩ := List.exists_cons_of_ne_nil hs
  refine ⟨{ o with
      Mass := o.Mass + small.Mass
      velocity := (o.velocity * o.Mass + small.velocity * small.Mass) / (o.Mass + small.Mass)
      gpuObjects := { g with r1 := ops.cbrt (g.r1 ^ 3 + g2.r1 ^ 3) } :: t }, ?_, rfl, by simp⟩
  simp [absorb, GetGpuObject, modifyGpuObject, hgt, hgt2]

theorem Update_blackHole (ops : FloatOps F) (o : SceneObject F) (dt : F)
    (ht : o.Type_ = ObjectType.BlackHole) (hg : o.gpuObjects ≠ []) :
    ∃ o1, o.Update ops dt = some o1 ∧ o1.Type_ = ObjectType.BlackHole ∧ o1.gpuObjects ≠ [] := by
  unfold Update
  rw [check_blackHole o ht hg]
  simp only [Option.pure_def, Option.bind_eq_bind, Option.some_bind]
  split_ifs
  · exact ⟨_, rfl, ht, by simpa [SetPosition] using hg⟩
  · exact ⟨_, rfl, ht, by simpa [SetPosition] using hg⟩

theorem bodySteps_blackHole (ops : FloatOps F) :
    ∀ (steps : List (BodyStep F)) (o : SceneObject F), o.Type_ = ObjectType.BlackHole →
      o.gpuObjects ≠ [] →
      (∀ small, BodyStep.merge small ∈ steps → small.gpuObjects ≠ []) →
      ∃ o1, bodySteps ops o steps = some o1 ∧ o1.Type_ = ObjectType.BlackHole := by
  intro steps
  induction steps with
  | nil => intro o ht _ _; exact ⟨o, rfl, ht⟩
  | cons st rest ih =>
    intro o ht hg hs
    have hs1 : ∀ small, BodyStep.merge small ∈ rest → small.gpuObjects ≠ [] :=
      fun small h => hs small (List.mem_cons_of_mem _ h)
    unfold bodySteps
    cases st with
    | force f dt =>
      simp only [bodyStep]
      exact ih _ (by rw [ApplyForce_Type]; exact ht) (by rw [ApplyForce_gpuObjects]; exact hg) hs1
    | merge small =>
      obtain ⟨o1, h1, h2, h3⟩ := absorb_some ops o small hg (hs small (List.mem_cons_self _ _))
      simp only [bodyStep, h1]
      exact ih o1 (h2.trans ht) h3 hs1
    | update dt =>
      obtain ⟨o1, h1, h2, h3⟩ := Update_blackHole ops o dt ht hg
      simp only [bodyStep, h1]
      exact ih o1 h2 h3 hs1

/-- The collision branch of the inner-loop body writes `absorb` of the larger body into the
list (case `obj_i.Mass > obj_j.Mass`). -/
theorem pairStep_absorb_gt (ops : FloatOps F) (gE : Bool) (G : F)
    (objs : List (SceneObject F)) (del : List Nat) (tf : Vec3 F) (i j : Nat)
    (oi oj : SceneObject F)
    (hi : objs[i]? = some oi) (hj : objs[j]? = some oj) (hcol : Collides ops oi oj)
    (hm : oi.Mass > oj.Mass) :
    ∃ a, absorb ops oi oj = some a ∧
      pairStep ops gE G objs del tf i j = some (PairOutcome.merged (objs.set i a) (del ++ [j])) := by
  obtain ⟨gi, gj, ti, tj, hgi, hgj, hc⟩ := (Collides_iff ops oi oj).1 hcol
  refine ⟨_, ?_, pairStep_merge_gt ops gE G objs del tf i j oi oj gi gj ti tj hi hj hgi hgj hc hm⟩
  simp [absorb, GetGpuObject, modifyGpuObject, hgi, hgj]

/-- The collision branch of the inner-loop body writes `absorb` of the larger body into the
list (case `obj_i.Mass > obj_j.Mass` false). -/
theorem pairStep_absorb_le (ops : FloatOps F) (gE : Bool) (G : F)
    (objs : List (SceneObject F)) (del : List Nat) (tf : Vec3 F) (i j : Nat)
    (oi oj : SceneObject F)
    (hi : objs[i]? = some oi) (hj : objs[j]? = some oj) (hcol : Collides ops oi oj)
    (hm : ¬ oi.Mass > oj.Mass) :
    ∃ a, absorb ops oj oi = some a ∧
      pairStep ops gE G objs del tf i j = some (PairOutcome.merged (objs.set j a) (del ++ [i])) := by
  obtain ⟨gi, gj, ti, tj, hgi, hgj, hc⟩ := (Collides_iff ops oi oj).1 hcol
  refine ⟨_, ?_, pairStep_merge_le ops gE G objs del tf i j oi oj gi gj ti tj hi hj hgi hgj hc hm⟩
  simp [absorb, GetGpuObject, modifyGpuObject, hgi, hgj]

end BlackHoleLemmas

section BlackHoleClaims
open SceneObject
variable {F : Type} [LinearOrderedField F]

/-- C11: a BlackHole with a primary geometry record passes `CheckForTypeTransition` entirely
unchanged (without geometry the check throws before it modifies anything), and after any
sequence of `ApplyForce`, merges as the larger body and `Update` it is still a BlackHole. -/
theorem blackHole_is_terminal (ops : FloatOps F) (o : SceneObject F)
    (steps : List (BodyStep F)) (ht : o.Type_ = ObjectType.BlackHole)
    (hg : o.gpuObjects ≠ [])
    (hs : ∀ small, BodyStep.merge small ∈ steps → small.gpuObjects ≠ []) :
    o.CheckForTypeTransition = some o ∧
    (∀ o1, o.CheckForTypeTransition = some o1 → o1 = o) ∧
    ∃ o1, bodySteps ops o steps = some o1 ∧ o1.Type_ = ObjectType.BlackHole :=
  ⟨check_blackHole o ht hg, fun o1 h => check_blackHole_eq o o1 ht h,
    bodySteps_blackHole ops steps o ht hg hs⟩

end BlackHoleClaims

section BlackHoleWitnesses
open SceneObject

theorem blackHole_Type {F : Type} [LinearOrderedField F] :
    (blackHole F).Type_ = ObjectType.BlackHole := by
  unfold blackHole construct
  split_ifs <;> rfl

theorem blackHole_gpuObjects {F : Type} [LinearOrderedField F] :
    (blackHole F).gpuObjects ≠ [] := by
  unfold blackHole construct
  split_ifs <;> simp [SetupAs, setupSwitch, SetPosition]

/-- Witness of C11: a black hole built by the constructor takes a force, absorbs a rocky
planet and is updated, and is still a black hole. -/
theorem blackHole_is_terminal_witness :
    (blackHole ℝ).CheckForTypeTransition = some (blackHole ℝ) ∧
    (∀ o1, (blackHole ℝ).CheckForTypeTransition = some o1 → o1 = blackHole ℝ) ∧
    ∃ o1, bodySteps realOps (blackHole ℝ)
        [BodyStep.force ⟨1, 0, 0⟩ (1 / 60), BodyStep.merge (rocky ℝ ⟨0, 0, 0⟩ 1),
          BodyStep.update (1 / 60)] = some o1 ∧
      o1.Type_ = ObjectType.BlackHole :=
  blackHole_is_terminal realOps (blackHole ℝ) _ blackHole_Type blackHole_gpuObjects
    (fun small h => by
      simp only [List.mem_cons, BodyStep.merge.injEq, List.mem_singleton, false_or, or_false,
        List.not_mem_nil, reduceCtorEq] at h
      subst h
      obtain ⟨g, hg, _⟩ := rocky_gpuObjects (⟨0, 0, 0⟩ : Vec3 ℝ) 1
      rw [hg]
      simp)

end BlackHoleWitnesses

section CheckFrame
open SceneObject
variable {F : Type} [LinearOrderedField F]

theorem SetupAs_frame (o : SceneObject F) (t : ObjectType) (hg : o.gpuObjects ≠ []) :
    (o.SetupAs t).velocity = o.velocity ∧ (o.SetupAs t).Orientation = o.Orientation ∧
      (o.SetupAs t).AngularVelocity = o.AngularVelocity ∧
      (o.SetupAs t).GetPosition = o.GetPosition := by
  obtain ⟨g, rest, hgr⟩ := List.exists_cons_of_ne_nil hg
  cases t <;> cases hr : o.hasRings <;>
    simp [SetupAs, setupSwitch, SetPosition, GetPosition, hgr, hr]

/-- The evolution check leaves velocity, orientation, angular velocity and position as they
were; the mass is kept by the collapse and when no transition fires. -/
theorem check_frame (o o1 : SceneObject F) (h : o.CheckForTypeTransition = some o1) :
    o1.velocity = o.velocity ∧ o1.Orientation = o.Orientation ∧
      o1.AngularVelocity = o.AngularVelocity ∧ o1.GetPosition = o.GetPosition ∧
      (o1.Type_ = o.Type_ ∨ o1.Type_ = ObjectType.BlackHole → o1.Mass = o.Mass) := by
  have hg : o.gpuObjects ≠ [] := by
    intro hg
    simp [CheckForTypeTransition, checkTransitions, GetGpuObject, hg] at h
  obtain ⟨g, rest, hgr⟩ := List.exists_cons_of_ne_nil hg
  have h0 : o.GetGpuObject 0 = some g := (GetGpuObject_zero o g).2 ⟨rest, hgr⟩
  simp only [CheckForTypeTransition, checkTransitions, h0, Option.pure_def, Option.bind_eq_bind,
    Option.some_bind] at h
  by_cases hc : o.Type_ ≠ ObjectType.BlackHole ∧ g.r1 < o.Mass * (5368709 / 2 ^ 30)
  · rw [if_pos hc] at h
    simp [SetupAs, setupSwitch, SetPosition, modifyGpuObject] at h
    subst h
    simp [GetPosition, hgr]
  · rw [if_neg hc] at h
    have key : o1 = o ∨ ∃ t, o1 = o.SetupAs t ∧ t ≠ o.Type_ ∧ t ≠ ObjectType.BlackHole := by
      rcases ht : o.Type_ with _ | _ | _ | _ | _ <;> rw [ht] at h <;> simp only [] at h <;>
        (try split_ifs at h) <;> simp only [Option.some.injEq] at h <;> subst h <;>
        first
          | exact Or.inl rfl
          | exact Or.inr ⟨_, rfl, by decide, by decide⟩
    rcases key with rfl | ⟨t, rfl, hne, hbh⟩
    · simp
    · obtain ⟨h1, h2, h3, h4⟩ := SetupAs_frame o t hg
      refine ⟨h1, h2, h3, h4, ?_⟩
      rw [SetupAs_Type]
      rintro (h5 | h5)
      · exact absurd h5 hne
      · exact absurd h5 hbh

end CheckFrame

section CheckClaims
open SceneObject

/-- C12 (the code at the failing input): the evolution check of a freshly constructed rocky
planet of mass 60 changes its mass to 80. -/
theorem check_overwrites_mass :
    ∃ o1, (rocky ℚ ⟨0, 0, 0⟩ 60).CheckForTypeTransition = some o1 ∧
      (rocky ℚ ⟨0, 0, 0⟩ 60).Mass = 60 ∧ o1.Type_ = ObjectType.GasGiant ∧ o1.Mass = 80 := by
  obtain ⟨g, hg, -, hr⟩ := rocky_gpuObjects (⟨0, 0, 0⟩ : Vec3 ℚ) 60
  have hm := rocky_Mass (⟨0, 0, 0⟩ : Vec3 ℚ) 60 (by norm_num)
  refine ⟨_, check_rocky_to_giant (rocky ℚ ⟨0, 0, 0⟩ 60) g ((GetGpuObject_zero _ _).2 ⟨_, hg⟩)
    (rocky_Type _ _) (by rw [hr, hm]; norm_num) (by rw [hm]; norm_num), hm, rfl, rfl⟩

end CheckClaims

section AccumulationLemmas
variable {F : Type} [LinearOrderedField F] [FloorRing F]

theorem floatToInt_eq (q : F) (h0 : -(2 ^ 31 : F) - 1 < q) (h1 : q < 2 ^ 31) :
    floatToInt q = some (integerPart q) := by
  unfold floatToInt integerPart
  rw [if_pos ⟨h0, h1⟩]

/-- The accumulation block when the snapshot differs from the stored one. -/
theorem render_observe_moved (ops : FloatOps F) (s : RenderState F) (h : ¬ Stationary s) :
    render_observe ops s = some { s with
      frame_acc_count := 1
      last_fov := s.cameraFov
      last_distance := s.cameraDistance
      last_yaw := s.cameraYaw
      last_pitch := s.cameraPitch
      last_timeScale := s.timeScale
      lastSelectedObjectIndex := s.selectedObjectIndex } := by
  unfold Stationary at h
  simp only [render_observe, Option.pure_def, Option.bind_eq_bind]
  rw [if_neg h]
  rfl

/-- The accumulation block when the snapshot equals the stored one and the cap is defined. -/
theorem render_observe_still (ops : FloatOps F) (s : RenderState F) (h : Stationary s)
    (hrange : 0 < s.timeScale → s.timeScale < 1 →
      -(2 ^ 31 : F) - 1 < accumulationValue ops s.timeScale ∧
        accumulationValue ops s.timeScale < 2 ^ 31) :
    render_observe ops s = some { s with
      frame_acc_count :=
        if s.frame_acc_count < accumulationCap ops s.timeScale then s.frame_acc_count + 1
        else s.frame_acc_count
      last_fov := s.cameraFov
      last_distance := s.cameraDistance
      last_yaw := s.cameraYaw
      last_pitch := s.cameraPitch
      last_timeScale := s.timeScale
      lastSelectedObjectIndex := s.selectedObjectIndex } := by
  have h' := h
  unfold Stationary at h'
  simp only [render_observe, Option.pure_def, Option.bind_eq_bind]
  rw [if_pos h']
  unfold accumulationCap
  by_cases h0 : s.timeScale ≤ 0
  · simp only [if_pos h0, Option.some_bind]
  · by_cases h1 : s.timeScale < 1
    · have hpos : 0 < s.timeScale := not_le.1 h0
      simp only [if_neg h0, if_pos h1,
        floatToInt_eq _ (hrange hpos h1).1 (hrange hpos h1).2, Option.some_bind]
    · simp only [if_neg h0, if_neg h1, Option.some_bind]

theorem accumulationCap_zero (ops : FloatOps F) : accumulationCap ops (0 : F) = 100000 := by
  unfold accumulationCap
  rw [if_pos (le_refl 0)]

/-- One paused frame with an unchanged snapshot: the state stays paused and stationary. -/
theorem render_observe_paused (ops : FloatOps F) (s : RenderState F) (hts : s.timeScale = 0)
    (hstat : Stationary s) :
    ∃ s1, render_observe ops s = some s1 ∧ s1.timeScale = 0 ∧ Stationary s1 ∧
      s1.frame_acc_count =
        (if s.frame_acc_count < 100000 then s.frame_acc_count + 1 else s.frame_acc_count) := by
  have hobs := render_observe_still ops s hstat
    (fun h => absurd h (by rw [hts]; exact lt_irrefl 0))
  refine ⟨_, hobs, hts, ⟨rfl, rfl, rfl, rfl, rfl, rfl⟩, ?_⟩
  show (if s.frame_acc_count < accumulationCap ops s.timeScale then s.frame_acc_count + 1
    else s.frame_acc_count) = _
  rw [hts, accumulationCap_zero]

/-- Consecutive paused frames with an unchanged snapshot. -/
theorem render_observe_frames_paused (ops : FloatOps F) :
    ∀ (n : Nat) (s : RenderState F), s.timeScale = 0 → Stationary s →
      1 ≤ s.frame_acc_count → s.frame_acc_count ≤ 100000 →
      ∃ sn, render_observe_frames ops n s = some sn ∧
        sn.frame_acc_count = min (s.frame_acc_count + (n : Int)) 100000 := by
  intro n
  induction n with
  | zero =>
    intro s _ _ _ h2
    refine ⟨s, rfl, ?_⟩
    simp only [Nat.cast_zero, add_zero]
    exact (min_eq_left h2).symm
  | succ n ih =>
    intro s hts hstat h1 h2
    obtain ⟨s1, hobs, hts1, hstat1, hc1⟩ := render_observe_paused ops s hts hstat
    unfold render_observe_frames
    rw [hobs]
    simp only []
    obtain ⟨sn, hsn, hc⟩ := ih s1 hts1 hstat1
      (by rw [hc1]; split_ifs <;> omega) (by rw [hc1]; split_ifs <;> omega)
    refine ⟨sn, hsn, ?_⟩
    rw [hc, hc1]
    push_cast
    split_ifs with hlt
    · congr 1; ring
    · have : s.frame_acc_count = 100000 := by omega
      rw [this, min_eq_right (by omega), min_eq_right (by omega)]

end AccumulationLemmas

section AccumulationClaims
variable {F : Type} [LinearOrderedField F] [FloorRing F]

/-- C13: when the current snapshot differs from the stored one in at least one of field of
view, orbit distance, yaw, pitch, time scale or selected index, the accumulation block of
`render` sets the frame-accumulation count to 1, whatever it was before. -/
theorem observe_resets_on_change (ops : FloatOps F) (s : RenderState F)
    (h : s.cameraFov ≠ s.last_fov ∨ s.cameraDistance ≠ s.last_distance ∨
      s.cameraYaw ≠ s.last_yaw ∨ s.cameraPitch ≠ s.last_pitch ∨
      s.timeScale ≠ s.last_timeScale ∨ s.selectedObjectIndex ≠ s.lastSelectedObjectIndex) :
    ∃ s1, render_observe ops s = some s1 ∧ s1.frame_acc_count = 1 := by
  have hns : ¬ Stationary s := by
    rintro ⟨h1, h2, h3, h4, h5, h6⟩
    rcases h with h | h | h | h | h | h
    · exact h h1
    · exact h h2
    · exact h h3
    · exact h h4
    · exact h h5
    · exact h h6
  exact ⟨_, render_observe_moved ops s hns, rfl⟩

/-- C14 (amended): with an unchanged snapshot the count is incremented by one unless it has
reached the cap, where the cap is 100000 for `timeScale <= 0`, 1 for `timeScale >= 1`, and
for `0 < timeScale < 1` the integer part (not the ceiling) of the value that the code
computes in `float` for `0.85f / timeScale + 0.15f`, provided the conversion of that value
to `int` is defined; for a count not above the cap the new count is `min (count + 1) cap`.
The statement holds whatever the rounding to `float` is. -/
theorem observe_increments_up_to_cap (ops : FloatOps F) (s : RenderState F)
    (hstat : Stationary s)
    (hrange : 0 < s.timeScale → s.timeScale < 1 →
      -(2 ^ 31 : F) - 1 < accumulationValue ops s.timeScale ∧
        accumulationValue ops s.timeScale < 2 ^ 31) :
    ∃ s1, render_observe ops s = some s1 ∧
      s1.frame_acc_count =
        (if s.frame_acc_count < accumulationCap ops s.timeScale then s.frame_acc_count + 1
         else s.frame_acc_count) ∧
      (s.frame_acc_count ≤ accumulationCap ops s.timeScale →
        s1.frame_acc_count = min (s.frame_acc_count + 1) (accumulationCap ops s.timeScale)) := by
  refine ⟨_, render_observe_still ops s hstat hrange, rfl, ?_⟩
  intro hle
  show (if s.frame_acc_count < accumulationCap ops s.timeScale then s.frame_acc_count + 1
    else s.frame_acc_count) = _
  split_ifs with hlt
  · exact (min_eq_left (by omega)).symm
  · have : s.frame_acc_count = accumulationCap ops s.timeScale := by omega
    rw [← this]
    exact (min_eq_right (by omega)).symm

/-- C15: paused (`timeScale = 0`) and with an unchanged snapshot, the accumulation block
turns a count below 100000 into the count plus one and leaves a count of 100000 (or more)
as it is; starting from count 1, `n` such frames in a row give `min (1 + n) 100000`. -/
theorem paused_accumulation_grows (ops : FloatOps F) (s : RenderState F)
    (hts : s.timeScale = 0) (hstat : Stationary s) :
    (∃ s1, render_observe ops s = some s1 ∧
      s1.frame_acc_count =
        (if s.frame_acc_count < 100000 then s.frame_acc_count + 1 else s.frame_acc_count)) ∧
    (s.frame_acc_count = 1 → ∀ n : Nat, ∃ sn, render_observe_frames ops n s = some sn ∧
      sn.frame_acc_count = min (1 + (n : Int)) 100000) := by
  constructor
  · obtain ⟨s1, hobs, -, -, hc1⟩ := render_observe_paused ops s hts hstat
    exact ⟨s1, hobs, hc1⟩
  · intro h1 n
    obtain ⟨sn, hsn, hc⟩ := render_observe_frames_paused ops n s hts hstat (by omega) (by omega)
    exact ⟨sn, hsn, by rw [hc, h1]⟩

end AccumulationClaims

section AccumulationWitnesses

theorem stillView_stationary (ts : ℝ) (c sel : Int) : Stationary (stillView ℝ ts c sel sel) :=
  ⟨rfl, rfl, rfl, rfl, rfl, rfl⟩

/-- Witness of C13: a snapshot that differs from the stored one only in the selected index
resets a count of 57 to 1. -/
theorem observe_resets_on_change_witness :
    ∃ s1, render_observe realOps (stillView ℝ 1 57 1 0) = some s1 ∧ s1.frame_acc_count = 1 :=
  observe_resets_on_change realOps (stillView ℝ 1 57 1 0)
    (Or.inr (Or.inr (Or.inr (Or.inr (Or.inr (by show (1 : Int) ≠ 0; decide))))))

theorem roundedOps_toFloat (x : ℝ) : roundedOps.toFloat x = roundBinary 24 x := rfl

/-- Without rounding the value of `0.85f / timeScale + 0.15f` is the quotient of the first
literal by the time scale plus the second literal. -/
theorem accumulationValue_realOps (t : ℝ) :
    accumulationValue realOps t = 7130317 / 2 ^ 23 / t + 5033165 / 2 ^ 25 := rfl

/-- The `float` value of `0.85f / timeScale + 0.15f` at the time scale 0.5: a little above
1.85. -/
theorem accumulationValue_rounded_half :
    accumulationValue roundedOps ((1 : ℝ) / 2) = 15518925 / 2 ^ 23 := by
  unfold accumulationValue
  rw [roundedOps_toFloat, roundedOps_toFloat,
    roundBinary_eq 24 (7130317 / 2 ^ 23 / ((1 : ℝ) / 2)) 0 14260634
      (by norm_num) (by norm_num) (by norm_num) (by norm_num),
    roundBinary_eq 24 _ 0 15518925 (by norm_num) (by norm_num) (by norm_num) (by norm_num)]
  norm_num

/-- The `float` value of `0.85f / timeScale + 0.15f` at the time scale `10007463 / 2^25`
(about 0.2982) is 3, although the value of the expression without rounding is below 3; at
the time scale `14816243 / 2^26` (about 0.2208) it is 4. -/
theorem accumulationValue_rounded :
    accumulationValue roundedOps ((10007463 : ℝ) / 2 ^ 25) = 3 ∧
      accumulationValue realOps ((10007463 : ℝ) / 2 ^ 25) < 3 ∧
      accumulationValue roundedOps ((14816243 : ℝ) / 2 ^ 26) = 4 := by
  refine ⟨?_, ?_, ?_⟩
  · unfold accumulationValue
    rw [roundedOps_toFloat, roundedOps_toFloat,
      roundBinary_eq 24 (7130317 / 2 ^ 23 / ((10007463 : ℝ) / 2 ^ 25)) 1 11953766
        (by norm_num) (by norm_num) (by norm_num) (by norm_num),
      roundBinary_eq 24 _ 1 12582912 (by norm_num) (by norm_num) (by norm_num) (by norm_num)]
    norm_num
  · rw [accumulationValue_realOps]
    norm_num
  · unfold accumulationValue
    rw [roundedOps_toFloat, roundedOps_toFloat,
      roundBinary_eq 24 (7130317 / 2 ^ 23 / ((14816243 : ℝ) / 2 ^ 26)) 1 16148071
        (by norm_num) (by norm_num) (by norm_num) (by norm_num),
      roundBinary_eq 24 _ 2 8388608 (by norm_num) (by norm_num) (by norm_num) (by norm_num)]
    norm_num

theorem accumulationCap_rounded_half : accumulationCap roundedOps ((1 : ℝ) / 2) = 1 := by
  unfold accumulationCap integerPart
  rw [if_neg (by norm_num), if_pos (by norm_num), accumulationValue_rounded_half,
    if_pos (by norm_num), Int.floor_eq_iff]
  constructor <;> norm_num

/-- The cap at the time scale `10007463 / 2^25` is 3, the integer part of the `float` 3.0;
the integer part of the value without rounding is 2. -/
theorem accumulationCap_rounded :
    accumulationCap roundedOps ((10007463 : ℝ) / 2 ^ 25) = 3 ∧
      accumulationCap realOps ((10007463 : ℝ) / 2 ^ 25) = 2 := by
  constructor
  · unfold accumulationCap integerPart
    rw [if_neg (by norm_num), if_pos (by norm_num), accumulationValue_rounded.1,
      if_pos (by norm_num), Int.floor_eq_iff]
    constructor <;> norm_num
  · unfold accumulationCap integerPart
    rw [if_neg (by norm_num), if_pos (by norm_num), accumulationValue_realOps,
      if_pos (by norm_num), Int.floor_eq_iff]
    constructor <;> norm_num

/-- Counterexample to C14 as stated: at `timeScale = 0.5` with an unchanged snapshot a count
of 1 stays 1, because the cap is the integer part 1 of the `float` value of
`0.85f / 0.5 + 0.15f` (a little above 1.85), whereas the ceiling of `0.85 / 0.5 + 0.15 = 1.85`
is 2 and `min (1 + 1) 2 = 2`. -/
theorem cap_is_truncated_not_ceiled :
    ∃ s1, render_observe roundedOps (stillView ℝ (1 / 2) 1 0 0) = some s1 ∧
      s1.frame_acc_count = 1 ∧
      min ((1 : Int) + 1) ⌈((0.85 : ℝ) / (1 / 2) + 0.15)⌉ = 2 := by
  have hobs := render_observe_still roundedOps (stillView ℝ (1 / 2) 1 0 0)
    (stillView_stationary _ _ _)
    (fun _ _ => by
      show -(2 ^ 31 : ℝ) - 1 < accumulationValue roundedOps ((1 : ℝ) / 2) ∧
        accumulationValue roundedOps ((1 : ℝ) / 2) < 2 ^ 31
      rw [accumulationValue_rounded_half]
      constructor <;> norm_num)
  refine ⟨_, hobs, ?_, ?_⟩
  · show (if (1 : Int) < accumulationCap roundedOps ((1 : ℝ) / 2) then (1 : Int) + 1 else 1) = 1
    rw [accumulationCap_rounded_half]
    decide
  · have hc : ⌈((0.85 : ℝ) / (1 / 2) + 0.15)⌉ = 2 := by
      rw [Int.ceil_eq_iff]
      constructor <;> norm_num
    rw [hc]
    decide

/-- Witness of the amended C14, with the rounding of `float`, at the time scale
`10007463 / 2^25` with count 2: the snapshot is unchanged, the `float` value of
`0.85f / timeScale + 0.15f` is 3.0, the cap is 3, and the count becomes 3. -/
theorem observe_increments_up_to_cap_witness :
    Stationary (stillView ℝ (10007463 / 2 ^ 25) 2 0 0) ∧
    accumulationValue roundedOps (stillView ℝ (10007463 / 2 ^ 25) 2 0 0).timeScale = 3 ∧
    accumulationCap roundedOps (stillView ℝ (10007463 / 2 ^ 25) 2 0 0).timeScale = 3 ∧
    ∃ s1, render_observe roundedOps (stillView ℝ (10007463 / 2 ^ 25) 2 0 0) = some s1 ∧
      s1.frame_acc_count = 3 ∧
      s1.frame_acc_count = min ((stillView ℝ (10007463 / 2 ^ 25) 2 0 0).frame_acc_count + 1)
        (accumulationCap roundedOps (stillView ℝ (10007463 / 2 ^ 25) 2 0 0).timeScale) := by
  have hv : accumulationValue roundedOps (stillView ℝ (10007463 / 2 ^ 25) 2 0 0).timeScale = 3 :=
    accumulationValue_rounded.1
  have hcap : accumulationCap roundedOps (stillView ℝ (10007463 / 2 ^ 25) 2 0 0).timeScale = 3 :=
    accumulationCap_rounded.1
  have hcount : (stillView ℝ (10007463 / 2 ^ 25) 2 0 0).frame_acc_count = 2 := rfl
  obtain ⟨s1, h1, h2, h3⟩ := observe_increments_up_to_cap roundedOps
    (stillView ℝ (10007463 / 2 ^ 25) 2 0 0) (stillView_stationary _ _ _)
    (fun _ _ => by rw [hv]; constructor <;> norm_num)
  refine ⟨stillView_stationary _ _ _, hv, hcap, s1, h1, ?_, h3 (by rw [hcap, hcount]; decide)⟩
  rw [h2, hcap, hcount]
  decide

/-- Witness of C15 on a paused view with count 1. -/
theorem paused_accumulation_grows_witness :
    (∃ s1, render_observe realOps (stillView ℝ 0 1 0 0) = some s1 ∧
      s1.frame_acc_count =
        (if (stillView ℝ 0 1 0 0).frame_acc_count < 100000
          then (stillView ℝ 0 1 0 0).frame_acc_count + 1
          else (stillView ℝ 0 1 0 0).frame_acc_count)) ∧
    ((stillView ℝ 0 1 0 0).frame_acc_count = 1 → ∀ n : Nat,
      ∃ sn, render_observe_frames realOps n (stillView ℝ 0 1 0 0) = some sn ∧
        sn.frame_acc_count = min (1 + (n : Int)) 100000) :=
  paused_accumulation_grows realOps (stillView ℝ 0 1 0 0) rfl (stillView_stationary _ _ _)

end AccumulationWitnesses

section SceneEditLemmas
open SceneObject

/-- The method `update` never writes the accumulation state. -/
theorem update_frame {F : Type} [LinearOrderedField F] [FloorRing F] (ops : FloatOps F)
    (app app1 : Application F) (h : update ops app = some app1) :
    app1.frame_acc_count = app.frame_acc_count ∧ app1.curr_acc_index = app.curr_acc_index := by
  have fin : ∀ (y : Application F) (c : Vec3 F),
      (if 0 ≤ y.selectedObjectIndex ∧ y.selectedObjectIndex < y.sceneObjects.length then
        y.sceneObjects[y.selectedObjectIndex.toNat]?.bind fun obj =>
          some { y with cameraTarget := obj.GetPosition }
      else some { y with cameraTarget := c }) = some app1 →
      app1.frame_acc_count = y.frame_acc_count ∧ app1.curr_acc_index = y.curr_acc_index := by
    intro y c hy
    split_ifs at hy
    · rw [Option.bind_eq_some] at hy
      obtain ⟨obj, _, h3⟩ := hy
      injection h3 with e
      subst e
      exact ⟨rfl, rfl⟩
    · injection hy with e
      subst e
      exact ⟨rfl, rfl⟩
  unfold update at h
  simp only [Option.pure_def, Option.bind_eq_bind] at h
  by_cases hdt : app.dt * app.timeScale > 0
  · simp only [hdt, if_true, Option.bind_eq_some] at h
    obtain ⟨⟨objs, del⟩, _, x2, _, x3, _, a1, h5, h2⟩ := h
    injection h5 with e
    subst e
    exact fin { app with sceneObjects := x3 } _ h2
  · simp only [hdt, if_false, Option.some_bind] at h
    exact fin app _ h

/-- One `update` of the application `midAccumulationApp` merges its two overlapping bodies
into one. -/
theorem update_midAccumulationApp :
    ∃ app1, update realOps (midAccumulationApp ℝ) = some app1 ∧
      app1.sceneObjects.map (fun o => (o.Type_, o.Mass)) = [(ObjectType.GasGiant, 80)] := by
  obtain ⟨ga, hga, hca, hra⟩ := rocky_gpuObjects (⟨0, 0, 0⟩ : Vec3 ℝ) 30
  obtain ⟨gb, hgb, hcb, hrb⟩ := rocky_gpuObjects (⟨1 / 2, 0, 0⟩ : Vec3 ℝ) 30
  have hma := rocky_Mass (⟨0, 0, 0⟩ : Vec3 ℝ) 30 (by norm_num)
  have hmb := rocky_Mass (⟨1 / 2, 0, 0⟩ : Vec3 ℝ) 30 (by norm_num)
  have hcol : realOps.sqrt (dot (gb.center - ga.center) (gb.center - ga.center))
      ≤ ga.r1 + gb.r1 := by
    rw [hca, hcb, hra, hrb]
    show Real.sqrt _ ≤ _
    rw [Real.sqrt_le_iff]
    constructor <;> norm_num [dot]
  have hm : ¬ (rocky ℝ ⟨0, 0, 0⟩ 30).Mass > (rocky ℝ ⟨1 / 2, 0, 0⟩ 30).Mass := by
    rw [hma, hmb]; norm_num
  have hdt : (midAccumulationApp ℝ).dt * (midAccumulationApp ℝ).timeScale > 0 := by
    norm_num [midAccumulationApp, twoRockyApp]
  have hloop := pairLoop_pair_le realOps (midAccumulationApp ℝ).gravityEnabled
    (midAccumulationApp ℝ).gravitationalConstant ((midAccumulationApp ℝ).dt * (midAccumulationApp ℝ).timeScale)
    _ _ ga gb [] [] hga hgb hcol hm
  obtain ⟨o2, hu, ht2, hm2⟩ := Update_of_check realOps _ _
    ((midAccumulationApp ℝ).dt * (midAccumulationApp ℝ).timeScale)
    (check_rocky_to_giant
      (SceneObject.ApplyForce
        { rocky ℝ ⟨1 / 2, 0, 0⟩ 30 with
          Mass := (rocky ℝ ⟨1 / 2, 0, 0⟩ 30).Mass + (rocky ℝ ⟨0, 0, 0⟩ 30).Mass
          velocity :=
            ((rocky ℝ ⟨1 / 2, 0, 0⟩ 30).velocity * (rocky ℝ ⟨1 / 2, 0, 0⟩ 30).Mass +
              (rocky ℝ ⟨0, 0, 0⟩ 30).velocity * (rocky ℝ ⟨0, 0, 0⟩ 30).Mass) /
              ((rocky ℝ ⟨1 / 2, 0, 0⟩ 30).Mass + (rocky ℝ ⟨0, 0, 0⟩ 30).Mass)
          gpuObjects := [{ gb with r1 := realOps.cbrt (gb.r1 ^ 3 + ga.r1 ^ 3) }] }
        (Vec3.splat 0) ((midAccumulationApp ℝ).dt * (midAccumulationApp ℝ).timeScale))
      { gb with r1 := realOps.cbrt (gb.r1 ^ 3 + ga.r1 ^ 3) }
      (by rw [GetGpuObject_zero]; exact ⟨[], by rw [ApplyForce_gpuObjects]⟩)
      (by rw [ApplyForce_Type]; exact rocky_Type (⟨1 / 2, 0, 0⟩ : Vec3 ℝ) 30)
      (by
        rw [ApplyForce_Mass]
        show ¬ realCbrt (gb.r1 ^ 3 + ga.r1 ^ 3)
          < ((rocky ℝ ⟨1 / 2, 0, 0⟩ 30).Mass + (rocky ℝ ⟨0, 0, 0⟩ 30).Mass) * (5368709 / 2 ^ 30)
        rw [hra, hrb, hma, hmb]
        have e : ((30 : ℝ) + 30) * (5368709 / 2 ^ 30) = 60 * (5368709 / 2 ^ 30) := by norm_num
        rw [e]
        exact realCbrt_quarter_not_small)
      (by
        rw [ApplyForce_Mass]
        show (rocky ℝ ⟨1 / 2, 0, 0⟩ 30).Mass + (rocky ℝ ⟨0, 0, 0⟩ 30).Mass > 50
        rw [hma, hmb]; norm_num))
  obtain ⟨l1, htr, hmap⟩ := updateTrailsLoop_some realOps (fun _ => rfl)
    (midAccumulationApp ℝ).timeScale
    (centerOfMassOf (midAccumulationApp ℝ).sceneObjects)
    (List.foldl (fun acc obj => acc + obj.velocity * obj.Mass) (Vec3.mk 0 0 0) [o2])
    (List.foldl (fun acc obj => acc + obj.Mass) (0 : ℝ) [o2])
    (by
      simp only [List.foldl_cons, List.foldl_nil, hm2, SetupAs_GasGiant_Mass]
      norm_num)
    (by norm_num [midAccumulationApp, twoRockyApp]) [o2]
  obtain ⟨app1, happ, hobjs⟩ := update_of_stages realOps (midAccumulationApp ℝ) _ [0] [o2] l1 hdt hloop
    (by
      simp only [List.isEmpty_cons, Bool.false_eq_true, if_false, eraseMarked,
        List.insertionSort, List.orderedInsert, List.foldl_cons, List.foldl_nil,
        List.eraseIdx_cons_zero]
      unfold updateAll
      rw [hu]
      rfl)
    htr
  refine ⟨app1, happ, ?_⟩
  rw [hobjs, hmap]
  simp only [List.map_cons, List.map_nil, ht2, hm2]
  rfl


end SceneEditLemmas

section SceneEditClaims
open SceneObject

/-- Counterexample to C16 as stated: deleting body 0 of `midAccumulationApp` (buffer index 1)
leaves the buffer index at 1, and one `update` of the same application, which merges its two
bodies into one, leaves the accumulation count at 5 and the buffer index at 1. -/
theorem structural_change_without_full_reset :
    (delete_object (midAccumulationApp ℝ) 0).sceneObjects.length = 1 ∧
    (delete_object (midAccumulationApp ℝ) 0).curr_acc_index = 1 ∧
    ∃ app1, update realOps (midAccumulationApp ℝ) = some app1 ∧
      app1.sceneObjects.length = 1 ∧ app1.frame_acc_count = 5 ∧ app1.curr_acc_index = 1 := by
  refine ⟨?_, ?_, ?_⟩
  · simp [delete_object, midAccumulationApp, twoRockyApp]
  · simp [delete_object, midAccumulationApp, twoRockyApp]
  · obtain ⟨app1, h, hmap⟩ := update_midAccumulationApp
    obtain ⟨hc, hi⟩ := update_frame realOps _ _ h
    refine ⟨app1, h, ?_, hc, hi⟩
    have := congrArg List.length hmap
    simpa using this

/-- C16 (amended): `add_object`, a `delete_object` with a valid index and a
`load_scene_from_file` that reads the body count each set the accumulation count to 1 and
leave the buffer index as it was, while changing the body collection (one body more, one
body less, the bodies read). -/
theorem scene_edits_reset_count {F : Type} [LinearOrderedField F] (ops : FloatOps F)
    (M_PI DegreesToRadians : F) (rand_value RAND_MAX : Nat) (uninitMass : F)
    (app : Application F) (type : ObjectType) (mass distance eccentricity inclination : F)
    (obj_index : Int) (objs : List (SceneObject F))
    (hidx : 0 ≤ obj_index ∧ obj_index < app.sceneObjects.length) :
    ((add_object ops M_PI DegreesToRadians rand_value RAND_MAX uninitMass app type mass
          distance eccentricity inclination).frame_acc_count = 1 ∧
      (add_object ops M_PI DegreesToRadians rand_value RAND_MAX uninitMass app type mass
          distance eccentricity inclination).curr_acc_index = app.curr_acc_index ∧
      (add_object ops M_PI DegreesToRadians rand_value RAND_MAX uninitMass app type mass
          distance eccentricity inclination).sceneObjects.length
        = app.sceneObjects.length + 1) ∧
    ((delete_object app obj_index).frame_acc_count = 1 ∧
      (delete_object app obj_index).curr_acc_index = app.curr_acc_index ∧
      (delete_object app obj_index).sceneObjects.length + 1 = app.sceneObjects.length) ∧
    ((load_scene_from_file (SceneFileRead.loaded objs) app).frame_acc_count = 1 ∧
      (load_scene_from_file (SceneFileRead.loaded objs) app).curr_acc_index
        = app.curr_acc_index ∧
      (load_scene_from_file (SceneFileRead.loaded objs) app).sceneObjects = objs) := by
  refine ⟨⟨rfl, ?_, ?_⟩, ?_, ⟨rfl, rfl, rfl⟩⟩
  · unfold add_object
    simp only []
    split_ifs <;> rfl
  · unfold add_object
    simp only [List.length_append, List.length_singleton]
    split_ifs <;> rfl
  · have hlt : obj_index.toNat < app.sceneObjects.length := by omega
    have hno : ¬ (obj_index < 0 ∨ obj_index ≥ app.sceneObjects.length) := by omega
    unfold delete_object
    rw [if_neg hno]
    refine ⟨rfl, rfl, ?_⟩
    simp only [List.length_eraseIdx, hlt, if_true]
    omega

/-- Witness of the amended C16 on the application `midAccumulationApp`. -/
theorem scene_edits_reset_count_witness :
    ((add_object realOps 3 (3 / 180) 0 2147483647 0 (midAccumulationApp ℝ)
          ObjectType.RockyPlanet 1 10 0 0).frame_acc_count = 1 ∧
      (add_object realOps 3 (3 / 180) 0 2147483647 0 (midAccumulationApp ℝ)
          ObjectType.RockyPlanet 1 10 0 0).curr_acc_index
        = (midAccumulationApp ℝ).curr_acc_index ∧
      (add_object realOps 3 (3 / 180) 0 2147483647 0 (midAccumulationApp ℝ)
          ObjectType.RockyPlanet 1 10 0 0).sceneObjects.length
        = (midAccumulationApp ℝ).sceneObjects.length + 1) ∧
    ((delete_object (midAccumulationApp ℝ) 1).frame_acc_count = 1 ∧
      (delete_object (midAccumulationApp ℝ) 1).curr_acc_index
        = (midAccumulationApp ℝ).curr_acc_index ∧
      (delete_object (midAccumulationApp ℝ) 1).sceneObjects.length + 1
        = (midAccumulationApp ℝ).sceneObjects.length) ∧
    ((load_scene_from_file (SceneFileRead.loaded [blackHole ℝ])
          (midAccumulationApp ℝ)).frame_acc_count = 1 ∧
      (load_scene_from_file (SceneFileRead.loaded [blackHole ℝ])
          (midAccumulationApp ℝ)).curr_acc_index = (midAccumulationApp ℝ).curr_acc_index ∧
      (load_scene_from_file (SceneFileRead.loaded [blackHole ℝ])
          (midAccumulationApp ℝ)).sceneObjects = [blackHole ℝ]) :=
  scene_edits_reset_count realOps 3 (3 / 180) 0 2147483647 0 (midAccumulationApp ℝ)
    ObjectType.RockyPlanet 1 10 0 0 1 [blackHole ℝ]
    ⟨by decide, by show (1 : Int) < ((2 : Nat) : Int); decide⟩

end SceneEditClaims

section TrailCapacityLemmas
open SceneObject
variable {F : Type} [LinearOrderedField F] [FloorRing F]

theorem sizeTToInt_of_lt (n : Nat) (h : (n : Int) < 2 ^ 31) : sizeTToInt n = n := by
  unfold sizeTToInt
  have h1 : (n : Int) % 2 ^ 32 = n := Int.emod_eq_of_lt (by omega) (by omega)
  simp only [h1, h, if_true]

theorem intToSizeT_of_nonneg (k : Int) (h0 : 0 ≤ k) (h : k < 2 ^ 64) :
    intToSizeT k = k.toNat := by
  unfold intToSizeT
  rw [Int.emod_eq_of_lt h0 h]

/-- The loop body of `update_trails` once the cast to `size_t` has delivered `n`. -/
theorem trailStep_eval (ops : FloatOps F) (timeScale : F) (com : Vec3 F) (speed : F)
    (obj : SceneObject F) (n : Nat)
    (hden : trailDenominator ops timeScale speed ≠ 0)
    (hq : floatToSizeT (trailQuotient ops timeScale speed) = some n) :
    trailStep ops timeScale com speed obj = some { obj with
      MaxTrailPoints := sizeTToInt n
      TrailPoints :=
        ((obj.GetPosition - com) :: obj.TrailPoints).take (intToSizeT (sizeTToInt n)) } := by
  unfold trailStep
  rw [if_neg hden, hq]
  simp only [GetPosition]

/-- The conversion to `size_t` of a quotient above -1 and below `2^31`, and the value that
the `int` member `MaxTrailPoints` gets from it. -/
theorem floatToSizeT_in_range (q : F) (hlo : -1 < q) (hhi : q < 2 ^ 31) :
    floatToSizeT q = some ⌊q⌋.toNat ∧ sizeTToInt ⌊q⌋.toNat = max 0 ⌊q⌋ ∧
      intToSizeT (max 0 ⌊q⌋) = ⌊q⌋.toNat := by
  have hfl1 : ⌊q⌋ < 2 ^ 31 := by
    rw [Int.floor_lt]
    have e : (((2 : Int) ^ 31 : Int) : F) = 2 ^ 31 := by norm_num
    rw [e]
    exact hhi
  have hcast : ((⌊q⌋.toNat : Nat) : Int) = max 0 ⌊q⌋ := by
    rw [Int.toNat_eq_max, max_comm]
  have hmax : max 0 ⌊q⌋ < 2 ^ 31 := max_lt (by norm_num) hfl1
  refine ⟨?_, ?_, ?_⟩
  · unfold floatToSizeT
    rw [if_pos ⟨hlo, lt_trans hhi (by norm_num)⟩]
  · rw [sizeTToInt_of_lt _ (by rw [hcast]; exact hmax), hcast]
  · rw [intToSizeT_of_nonneg _ (le_max_left _ _) (lt_trans hmax (by norm_num))]
    rcases le_total 0 ⌊q⌋ with h | h
    · rw [max_eq_right h]
    · rw [max_eq_left h, Int.toNat_of_nonpos h]
      rfl

/-- The loop body of `update_trails` for a denominator that is not zero and a quotient above
-1 and below `2^31`: the capacity is the floor of the quotient (0 for a negative quotient)
and the trail is cut to that many entries. -/
theorem trailStep_in_range (ops : FloatOps F) (timeScale : F) (com : Vec3 F) (speed : F)
    (obj : SceneObject F) (hden : trailDenominator ops timeScale speed ≠ 0)
    (hlo : -1 < trailQuotient ops timeScale speed)
    (hhi : trailQuotient ops timeScale speed < 2 ^ 31) :
    trailStep ops timeScale com speed obj = some { obj with
      MaxTrailPoints := max 0 ⌊trailQuotient ops timeScale speed⌋
      TrailPoints := ((obj.GetPosition - com) :: obj.TrailPoints).take
        ⌊trailQuotient ops timeScale speed⌋.toNat } := by
  obtain ⟨h1, h2, h3⟩ := floatToSizeT_in_range (trailQuotient ops timeScale speed) hlo hhi
  rw [trailStep_eval ops timeScale com speed obj _ hden h1, h2, h3]

/-- The loop of `update_trails` returns, index by index, the results of its body. -/
theorem updateTrailsLoop_pointwise (ops : FloatOps F) (timeScale : F) (com wvs : Vec3 F)
    (totalMass : F) :
    ∀ (l l1 : List (SceneObject F)),
      updateTrailsLoop ops timeScale com wvs totalMass l = some l1 →
      l1.length = l.length ∧
      ∀ (i : Nat) (o : SceneObject F), l[i]? = some o →
        ∃ o1, l1[i]? = some o1 ∧ updateTrail ops timeScale com wvs totalMass o = some o1 := by
  intro l
  induction l with
  | nil =>
    intro l1 h
    simp only [updateTrailsLoop, Option.some.injEq] at h
    subst h
    exact ⟨rfl, fun i o hi => by simp at hi⟩
  | cons a l ih =>
    intro l1 h
    unfold updateTrailsLoop at h
    rcases ha : updateTrail ops timeScale com wvs totalMass a with _ | a1
    · rw [ha] at h
      cases h
    · rw [ha] at h
      simp only [] at h
      rcases hl : updateTrailsLoop ops timeScale com wvs totalMass l with _ | l2
      · rw [hl] at h
        cases h
      · rw [hl] at h
        simp only [Option.some.injEq] at h
        subst h
        obtain ⟨hlen, hpt⟩ := ih l2 hl
        refine ⟨by simp [hlen], ?_⟩
        intro i o hi
        cases i with
        | zero =>
          simp only [List.getElem?_cons_zero, Option.some.injEq] at hi
          subst hi
          exact ⟨a1, List.getElem?_cons_zero, ha⟩
        | succ i =>
          simp only [List.getElem?_cons_succ] at hi
          simpa using hpt i o hi

/-- The loop of `update_trails` returns when its body returns on every body. -/
theorem updateTrailsLoop_of_pointwise (ops : FloatOps F) (timeScale : F) (com wvs : Vec3 F)
    (totalMass : F) :
    ∀ l : List (SceneObject F),
      (∀ o ∈ l, ∃ o1, updateTrail ops timeScale com wvs totalMass o = some o1) →
      ∃ l1, updateTrailsLoop ops timeScale com wvs totalMass l = some l1 := by
  intro l
  induction l with
  | nil => intro _; exact ⟨[], rfl⟩
  | cons a l ih =>
    intro h
    obtain ⟨a1, ha⟩ := h a (List.mem_cons_self _ _)
    obtain ⟨l1, hl⟩ := ih (fun o ho => h o (List.mem_cons_of_mem _ ho))
    refine ⟨a1 :: l1, ?_⟩
    unfold updateTrailsLoop
    rw [ha, hl]

/-- Without rounding and for a positive time scale the denominator of the trail quotient is
positive, and so is the quotient. -/
theorem trailQuotient_pos (ops : FloatOps F) (hex : ∀ x, ops.toDouble x = x)
    (timeScale speed : F) (hts : 0 < timeScale) :
    0 < trailDenominator ops timeScale speed ∧ 0 < trailQuotient ops timeScale speed := by
  rw [trailQuotient_exact ops hex, trailDenominator_exact ops hex]
  have := sq_nonneg speed
  have hden : 0 < timeScale * (speed ^ 2 + 1) := mul_pos hts (by linarith)
  exact ⟨hden, div_pos (by norm_num) hden⟩

/-- Without rounding and with a time scale of at least 1 the quotient is at most 30000. -/
theorem trailQuotient_le (ops : FloatOps F) (hex : ∀ x, ops.toDouble x = x)
    (timeScale speed : F) (hts : 1 ≤ timeScale) :
    trailQuotient ops timeScale speed ≤ 30000 := by
  rw [trailQuotient_exact ops hex]
  have h1 := sq_nonneg speed
  have hden : (1 : F) ≤ timeScale * (speed ^ 2 + 1) := by nlinarith
  rw [div_le_iff₀ (by linarith)]
  nlinarith

end TrailCapacityLemmas

section TrailWorlds
open SceneObject

theorem realOps_toDouble (x : ℝ) : realOps.toDouble x = x := rfl

/-- The total mass of `fastPair` is 3 and its mass-weighted velocity sum is zero. -/
theorem fastPair_sums :
    (fastPair ℝ).foldl (fun acc o => acc + o.velocity * o.Mass) (Vec3.mk 0 0 0) = ⟨0, 0, 0⟩ ∧
      (fastPair ℝ).foldl (fun acc o => acc + o.Mass) (0 : ℝ) = 3 := by
  have hma := rocky_Mass (⟨0, 0, 0⟩ : Vec3 ℝ) 1 (by norm_num)
  have hmb := rocky_Mass (⟨10, 0, 0⟩ : Vec3 ℝ) 2 (by norm_num)
  constructor
  · simp only [fastPair, List.foldl_cons, List.foldl_nil, hma, hmb]
    rw [Vec3.ext_iff3]
    simp only [Vec3.add_x, Vec3.add_y, Vec3.add_z, Vec3.mul_x, Vec3.mul_y, Vec3.mul_z]
    norm_num
  · simp only [fastPair, List.foldl_cons, List.foldl_nil, hma, hmb]
    norm_num

/-- The relative speeds of the two bodies of `fastPair` are 100 and 50. -/
theorem fastPair_speeds :
    trailSpeed realOps (fastPair ℝ)
        { rocky ℝ ⟨0, 0, 0⟩ 1 with velocity := ⟨100, 0, 0⟩ } = some 100 ∧
      trailSpeed realOps (fastPair ℝ)
        { rocky ℝ ⟨10, 0, 0⟩ 2 with velocity := ⟨-50, 0, 0⟩ } = some 50 := by
  obtain ⟨hw, hm⟩ := fastPair_sums
  have h100 : Real.sqrt ((100 : ℝ) ^ 2) = 100 := Real.sqrt_sq (by norm_num)
  have h50 : Real.sqrt ((50 : ℝ) ^ 2) = 50 := Real.sqrt_sq (by norm_num)
  constructor
  · unfold trailSpeed relativeSpeed length
    rw [hw, hm, if_neg (by norm_num)]
    congr 1
    show Real.sqrt _ = _
    rw [← h100]
    congr 1
    simp only [dot, Vec3.sub_x, Vec3.sub_y, Vec3.sub_z, Vec3.div_x, Vec3.div_y, Vec3.div_z]
    norm_num
  · unfold trailSpeed relativeSpeed length
    rw [hw, hm, if_neg (by norm_num)]
    congr 1
    show Real.sqrt _ = _
    rw [← h50]
    congr 1
    simp only [dot, Vec3.sub_x, Vec3.sub_y, Vec3.sub_z, Vec3.div_x, Vec3.div_y, Vec3.div_z]
    norm_num

/-- At time scale 20 a body of relative speed 100 or 50 gets the capacity 0 and an empty
trail. -/
theorem trailStep_fast (com : Vec3 ℝ) (speed : ℝ) (obj : SceneObject ℝ) (h : 50 ≤ speed) :
    trailStep realOps 20 com speed obj
      = some { obj with MaxTrailPoints := 0, TrailPoints := [] } := by
  obtain ⟨hden, hpos⟩ := trailQuotient_pos realOps realOps_toDouble 20 speed (by norm_num)
  have hlt : trailQuotient realOps 20 speed < 1 := by
    rw [trailQuotient_exact realOps realOps_toDouble, div_lt_one (by nlinarith)]
    nlinarith
  have hfl : ⌊trailQuotient realOps 20 speed⌋ = 0 := by
    rw [Int.floor_eq_iff]
    exact ⟨by simpa using hpos.le, by simpa using hlt⟩
  rw [trailStep_in_range realOps 20 com speed obj (ne_of_gt hden) (by linarith)
    (lt_trans hlt (by norm_num)), hfl]
  rfl

/-- At time scale 20 both bodies of `fastPair` get the capacity 0 and an empty trail. -/
theorem update_trails_fastPair (com : Vec3 ℝ) :
    ∃ a1 b1, update_trails realOps 20 com (fastPair ℝ) = some [a1, b1] ∧
      a1.MaxTrailPoints = 0 ∧ b1.MaxTrailPoints = 0 ∧
      a1.TrailPoints = [] ∧ b1.TrailPoints = [] := by
  obtain ⟨ha, hb⟩ := fastPair_speeds
  have hua := updateTrail_of_speed realOps 20 com _ _ 100 _ ha
  have hub := updateTrail_of_speed realOps 20 com _ _ 50 _ hb
  rw [trailStep_fast com 100 _ (by norm_num)] at hua
  rw [trailStep_fast com 50 _ (by norm_num)] at hub
  refine ⟨{ ({ rocky ℝ ⟨0, 0, 0⟩ 1 with velocity := ⟨100, 0, 0⟩ } : SceneObject ℝ) with
      MaxTrailPoints := 0, TrailPoints := [] },
    { ({ rocky ℝ ⟨10, 0, 0⟩ 2 with velocity := ⟨-50, 0, 0⟩ } : SceneObject ℝ) with
      MaxTrailPoints := 0, TrailPoints := [] }, ?_, rfl, rfl, rfl, rfl⟩
  unfold update_trails
  show updateTrailsLoop realOps 20 com _ _ [_, _] = _
  simp only [updateTrailsLoop, hua, hub]

/-- C17 (the code at the failing input): with time scale `0.00001` a body at rest gets the
quotient `3000000000`, which the `int` member `MaxTrailPoints` holds as `-1294967296`; the
comparison of the `while` loop reads this as a huge unsigned number, so nothing is popped
and the trail has 3 entries, more than `MaxTrailPoints`. -/
theorem trail_outgrows_wrapped_capacity :
    ∃ o1, update_trails realOps (1 / 100000) ⟨0, 0, 0⟩ [restingBody ℝ] = some [o1] ∧
      o1.MaxTrailPoints = -1294967296 ∧
      o1.TrailPoints =
        ((restingBody ℝ).GetPosition - ⟨0, 0, 0⟩) :: (restingBody ℝ).TrailPoints ∧
      o1.TrailPoints.length = 3 ∧ ¬ (o1.TrailPoints.length : Int) ≤ o1.MaxTrailPoints := by
  have hm := rocky_Mass (⟨0, 0, 0⟩ : Vec3 ℝ) 1 (by norm_num)
  have hv := rocky_velocity (⟨0, 0, 0⟩ : Vec3 ℝ) 1
  have e1 : (restingBody ℝ).velocity = Vec3.splat 0 := hv
  have e2 : (restingBody ℝ).Mass = 1 := hm
  have hs : relativeSpeed realOps
      ([restingBody ℝ].foldl (fun acc o => acc + o.velocity * o.Mass) (Vec3.mk 0 0 0))
      ([restingBody ℝ].foldl (fun acc o => acc + o.Mass) (0 : ℝ)) (restingBody ℝ) = some 0 := by
    have hz : dot
        ((restingBody ℝ).velocity -
          ([restingBody ℝ].foldl (fun acc o => acc + o.velocity * o.Mass) (Vec3.mk 0 0 0)) /
          ([restingBody ℝ].foldl (fun acc o => acc + o.Mass) (0 : ℝ)))
        ((restingBody ℝ).velocity -
          ([restingBody ℝ].foldl (fun acc o => acc + o.velocity * o.Mass) (Vec3.mk 0 0 0)) /
          ([restingBody ℝ].foldl (fun acc o => acc + o.Mass) (0 : ℝ))) = 0 := by
      simp only [List.foldl_cons, List.foldl_nil, e1, e2, dot, Vec3.sub_x, Vec3.sub_y,
        Vec3.sub_z, Vec3.div_x, Vec3.div_y, Vec3.div_z, Vec3.add_x, Vec3.add_y, Vec3.add_z,
        Vec3.mul_x, Vec3.mul_y, Vec3.mul_z, Vec3.splat_x, Vec3.splat_y, Vec3.splat_z]
      norm_num
    have hne : ¬ ([restingBody ℝ].foldl (fun acc o => acc + o.Mass) (0 : ℝ)) = 0 := by
      simp only [List.foldl_cons, List.foldl_nil, e2]
      norm_num
    unfold relativeSpeed length
    rw [if_neg hne, hz]
    exact congrArg some Real.sqrt_zero
  have hden : trailDenominator realOps ((1 : ℝ) / 100000) 0 ≠ 0 := by
    rw [trailDenominator_exact realOps realOps_toDouble]
    norm_num
  have hq : floatToSizeT (trailQuotient realOps ((1 : ℝ) / 100000) 0) = some 3000000000 := by
    have e : trailQuotient realOps ((1 : ℝ) / 100000) 0 = ((3000000000 : Int) : ℝ) := by
      rw [trailQuotient_exact realOps realOps_toDouble]
      norm_num
    rw [e]
    unfold floatToSizeT
    rw [if_pos ⟨by norm_num, by norm_num⟩, Int.floor_intCast]
    rfl
  have h1 : sizeTToInt 3000000000 = -1294967296 := by decide
  have h2 : intToSizeT (-1294967296) = 18446744072414584320 := by decide
  have hu := updateTrail_of_speed realOps ((1 : ℝ) / 100000) ⟨0, 0, 0⟩ _ _ 0 _ hs
  rw [trailStep_eval realOps ((1 : ℝ) / 100000) ⟨0, 0, 0⟩ 0 (restingBody ℝ) 3000000000 hden hq,
    h1, h2] at hu
  refine ⟨{ restingBody ℝ with
      MaxTrailPoints := -1294967296
      TrailPoints := List.take 18446744072414584320
        (((restingBody ℝ).GetPosition - ⟨0, 0, 0⟩) :: (restingBody ℝ).TrailPoints) },
    ?_, rfl, ?_, ?_, ?_⟩
  · unfold update_trails
    simp only [updateTrailsLoop, hu]
  · show List.take 18446744072414584320 _ = _
    exact List.take_of_length_le (by show 3 ≤ 18446744072414584320; decide)
  · show (List.take 18446744072414584320 _).length = 3
    rw [List.take_of_length_le (by show 3 ≤ 18446744072414584320; decide)]
    rfl
  · show ¬ (((List.take 18446744072414584320 _).length : Nat) : Int) ≤ -1294967296
    omega

end TrailWorlds

section TrailStepLemmas
open SceneObject
variable {F : Type} [LinearOrderedField F] [FloorRing F]

/-- The loop body of `update_trails` returns for a denominator that is not zero and a
quotient above -1 and below `2^64`. -/
theorem trailStep_defined (ops : FloatOps F) (timeScale : F) (com : Vec3 F) (speed : F)
    (obj : SceneObject F) (hden : trailDenominator ops timeScale speed ≠ 0)
    (hlo : -1 < trailQuotient ops timeScale speed)
    (hhi : trailQuotient ops timeScale speed < 2 ^ 64) :
    ∃ obj1, trailStep ops timeScale com speed obj = some obj1 := by
  have hq : floatToSizeT (trailQuotient ops timeScale speed)
      = some ⌊trailQuotient ops timeScale speed⌋.toNat := by
    unfold floatToSizeT
    rw [if_pos ⟨hlo, hhi⟩]
  exact ⟨_, trailStep_eval ops timeScale com speed obj _ hden hq⟩

/-- The method `update_trails` returns when the loop body returns on every body: when every
body has a relative speed (the total mass is not zero) for which the denominator is not zero
and the quotient is above -1 and below `2^64`. -/
theorem update_trails_defined (ops : FloatOps F) (timeScale : F) (com : Vec3 F)
    (objs : List (SceneObject F))
    (h : ∀ o ∈ objs, ∃ s, trailSpeed ops objs o = some s ∧
      trailDenominator ops timeScale s ≠ 0 ∧ -1 < trailQuotient ops timeScale s ∧
      trailQuotient ops timeScale s < 2 ^ 64) :
    ∃ objs1, update_trails ops timeScale com objs = some objs1 := by
  unfold update_trails
  apply updateTrailsLoop_of_pointwise
  intro o ho
  obtain ⟨s, hs, hden, hlo, hhi⟩ := h o ho
  rw [updateTrail_of_speed ops timeScale com _ _ s o hs]
  exact trailStep_defined ops timeScale com s o hden hlo hhi

end TrailStepLemmas

section RoundedTrail

end RoundedTrail

section RoundedTrailWorlds
open SceneObject

end RoundedTrailWorlds

section TrailCapacityClaims
open SceneObject

end TrailCapacityClaims

section EvolutionClaims2
open SceneObject
variable {F : Type} [LinearOrderedField F]

/-- C20: after `SetupAs(t)` the geometry has one or two records, record 0 is a sphere
(`type` 0), a second record exists exactly when `hasRings` is true afterwards and it is a
disk (`type` 1); `hasRings` afterwards is false for Star and BrownDwarf, its value before
the call for GasGiant and RockyPlanet, and true for BlackHole. -/
theorem SetupAs_geometry (o : SceneObject F) (t : ObjectType) :
    ((o.SetupAs t).gpuObjects.length = 1 ∨ (o.SetupAs t).gpuObjects.length = 2) ∧
    (∃ sphere, (o.SetupAs t).GetGpuObject 0 = some sphere ∧ sphere.type = 0) ∧
    (((o.SetupAs t).GetGpuObject 1).isSome ↔ (o.SetupAs t).hasRings = true) ∧
    (∀ disk, (o.SetupAs t).GetGpuObject 1 = some disk → disk.type = 1) ∧
    (t = ObjectType.Star ∨ t = ObjectType.BrownDwarf → (o.SetupAs t).hasRings = false) ∧
    (t = ObjectType.GasGiant ∨ t = ObjectType.RockyPlanet →
      (o.SetupAs t).hasRings = o.hasRings) ∧
    (t = ObjectType.BlackHole → (o.SetupAs t).hasRings = true) := by
  cases t <;> cases hr : o.hasRings <;>
    simp [SetupAs, setupSwitch, SetPosition, GetGpuObject, GPUobject.init, hr]

end EvolutionClaims2

section ConstructionLemmas
open SceneObject
variable {F : Type} [LinearOrderedField F]

/-- The default mass that `SetupAs` assigns for a type; the case `BlackHole` assigns none. -/
theorem SetupAs_Mass (o : SceneObject F) (t : ObjectType) :
    (o.SetupAs t).Mass =
      match t with
      | .Star => 800
      | .BrownDwarf => 250
      | .GasGiant => 80
      | .RockyPlanet => 1
      | .BlackHole => o.Mass := by
  cases t <;> rfl

/-- Construction with a positive mass yields that mass, for every type. -/
theorem construct_Mass_pos (u : F) (t : ObjectType) (p : Vec3 F) (m : F) (hm : 0 < m) :
    (construct u t p m).Mass = m := by
  simp [construct, hm, SetPosition]

/-- Construction with a non-positive mass keeps what `SetupAs` left in `Mass`. -/
theorem construct_Mass_nonpos (u : F) (t : ObjectType) (p : Vec3 F) (m : F) (hm : m ≤ 0) :
    (construct u t p m).Mass =
      match t with
      | .Star => 800
      | .BrownDwarf => 250
      | .GasGiant => 80
      | .RockyPlanet => 1
      | .BlackHole => u := by
  have h : ¬ m > 0 := not_lt.2 hm
  cases t <;> simp [construct, h, SetPosition, SetupAs, setupSwitch]

end ConstructionLemmas

section ConstructionClaims
open SceneObject

/-- C21 (the code at the failing input): a BlackHole constructed with mass 0 has as `Mass`
whatever the uninitialised member held before: `SetupAs(BlackHole)` assigns no mass and the
constructor assigns only a positive one. -/
theorem blackHole_construction_leaves_mass_indeterminate :
    (∀ u : ℚ, (construct u ObjectType.BlackHole ⟨0, 0, 0⟩ 0).Mass = u) ∧
      ¬ 0 < (construct (-1 : ℚ) ObjectType.BlackHole ⟨0, 0, 0⟩ 0).Mass := by
  refine ⟨fun u => construct_Mass_nonpos u ObjectType.BlackHole ⟨0, 0, 0⟩ 0 (le_refl 0), ?_⟩
  rw [construct_Mass_nonpos (-1) ObjectType.BlackHole ⟨0, 0, 0⟩ 0 (le_refl 0)]
  norm_num

end ConstructionClaims

section NoopClaims
open SceneObject
variable {F : Type} [LinearOrderedField F] [FloorRing F]

/-- C22: when `dt * timeScale <= 0`, `update` returns and leaves the bodies exactly as they
were (their number and every member of every body); the only member of the application it
writes is the camera target. -/
theorem nonpositive_step_is_noop (ops : FloatOps F) (app : Application F)
    (h : app.dt * app.timeScale ≤ 0) :
    ∃ app1, update ops app = some app1 ∧ app1.sceneObjects = app.sceneObjects ∧
      app1 = { app with cameraTarget := app1.cameraTarget } := by
  have key : ∃ target, update ops app = some { app with cameraTarget := target } := by
    unfold update
    simp only [Option.pure_def, Option.bind_eq_bind]
    rw [if_neg (not_lt.2 h)]
    simp only [Option.some_bind]
    split_ifs with hsel
    · have hlt : app.selectedObjectIndex.toNat < app.sceneObjects.length := by
        have := hsel.2
        omega
      rw [List.getElem?_eq_getElem hlt]
      exact ⟨_, rfl⟩
    · exact ⟨_, rfl⟩
  obtain ⟨target, ht⟩ := key
  exact ⟨_, ht, rfl, rfl⟩

end NoopClaims

section NoopWitnesses
open SceneObject

/-- Witness of C22: the paused application (`timeScale = 0`) with two rocky planets. -/
theorem nonpositive_step_is_noop_witness :
    ∃ app1, update realOps { twoRockyApp ℝ with timeScale := 0 } = some app1 ∧
      app1.sceneObjects = ({ twoRockyApp ℝ with timeScale := 0 } : Application ℝ).sceneObjects ∧
      app1 = { ({ twoRockyApp ℝ with timeScale := 0 } : Application ℝ) with
        cameraTarget := app1.cameraTarget } :=
  nonpositive_step_is_noop realOps { twoRockyApp ℝ with timeScale := 0 }
    (by show (twoRockyApp ℝ).dt * (0 : ℝ) ≤ 0; rw [mul_zero])

end NoopWitnesses

section IdempotenceLemmas
open SceneObject
variable {F : Type} [LinearOrderedField F]

/-- A body that `SetupAs` has just configured passes the evolution check unchanged. -/
theorem check_SetupAs (o : SceneObject F) (t : ObjectType) :
    (o.SetupAs t).CheckForTypeTransition = some (o.SetupAs t) := by
  cases t <;> cases hr : o.hasRings <;>
    simp [CheckForTypeTransition, checkTransitions, SetupAs, setupSwitch, SetPosition, GetGpuObject, hr] <;>
    norm_num

/-- The evolution check returns on every body that has a primary geometry record. -/
theorem check_total (o : SceneObject F) (hg : o.gpuObjects ≠ []) :
    ∃ o1, o.CheckForTypeTransition = some o1 := by
  obtain ⟨g, rest, hgr⟩ := List.exists_cons_of_ne_nil hg
  have h0 : o.GetGpuObject 0 = some g := (GetGpuObject_zero o g).2 ⟨rest, hgr⟩
  simp only [CheckForTypeTransition, checkTransitions, h0, Option.pure_def, Option.bind_eq_bind,
    Option.some_bind]
  by_cases hc : o.Type_ ≠ ObjectType.BlackHole ∧ g.r1 < o.Mass * (5368709 / 2 ^ 30)
  · rw [if_pos hc]
    simp [SetupAs, setupSwitch, SetPosition, modifyGpuObject]
  · rw [if_neg hc]
    rcases o.Type_ with _ | _ | _ | _ | _ <;> simp only [] <;> (try split_ifs) <;>
      exact ⟨_, rfl⟩

/-- The state reached by one evolution check is stable. -/
theorem check_stable (o o1 : SceneObject F) (h : o.CheckForTypeTransition = some o1) :
    o1.CheckForTypeTransition = some o1 := by
  have hg : o.gpuObjects ≠ [] := by
    intro hg
    simp [CheckForTypeTransition, checkTransitions, GetGpuObject, hg] at h
  obtain ⟨g, rest, hgr⟩ := List.exists_cons_of_ne_nil hg
  have h0 : o.GetGpuObject 0 = some g := (GetGpuObject_zero o g).2 ⟨rest, hgr⟩
  have h' := h
  simp only [CheckForTypeTransition, checkTransitions, h0, Option.pure_def, Option.bind_eq_bind,
    Option.some_bind] at h
  by_cases hc : o.Type_ ≠ ObjectType.BlackHole ∧ g.r1 < o.Mass * (5368709 / 2 ^ 30)
  · rw [if_pos hc] at h
    simp [SetupAs, setupSwitch, SetPosition, modifyGpuObject] at h
    subst h
    exact check_blackHole _ rfl (by simp)
  · rw [if_neg hc] at h
    have key : o1 = o ∨ ∃ t, o1 = o.SetupAs t := by
      rcases ht : o.Type_ with _ | _ | _ | _ | _ <;> rw [ht] at h <;> simp only [] at h <;>
        (try split_ifs at h) <;> simp only [Option.some.injEq] at h <;> subst h <;>
        first
          | exact Or.inl rfl
          | exact Or.inr ⟨_, rfl⟩
    rcases key with rfl | ⟨t, rfl⟩
    · exact h'
    · exact check_SetupAs o t

end IdempotenceLemmas

section IdempotenceClaims
open SceneObject
variable {F : Type} [LinearOrderedField F]

/-- C30: on every body with a primary geometry record the evolution check returns, and
applying it to its own result returns that result unchanged: applying the check twice gives
the same body as applying it once (without a geometry record the check throws both
times). -/
theorem check_idempotent (o : SceneObject F) :
    (∀ o1, o.CheckForTypeTransition = some o1 → o1.CheckForTypeTransition = some o1) ∧
    (o.CheckForTypeTransition >>= CheckForTypeTransition) = o.CheckForTypeTransition ∧
    (o.gpuObjects ≠ [] → ∃ o1, o.CheckForTypeTransition = some o1) := by
  refine ⟨fun o1 h => check_stable o o1 h, ?_, check_total o⟩
  rcases h : o.CheckForTypeTransition with _ | o1
  · rfl
  · exact check_stable o o1 h

end IdempotenceClaims

section UpdateShape
open SceneObject
variable {F : Type} [LinearOrderedField F]

/-- The body returned by the evolution check has a primary geometry record. -/
theorem check_geometry (o o1 : SceneObject F) (h : o.CheckForTypeTransition = some o1) :
    o1.gpuObjects ≠ [] := by
  intro hg
  have h1 := check_stable o o1 h
  simp [CheckForTypeTransition, checkTransitions, GetGpuObject, hg] at h1

/-- The method `Update` when the rotation angle of the step is above the threshold. -/
theorem Update_rotating (ops : FloatOps F) (o o1 : SceneObject F) (dt : F)
    (h : o.CheckForTypeTransition = some o1)
    (ha : length ops o1.AngularVelocity * dt > 1e-6) :
    o.Update ops dt = some
      { o1 with
        Orientation := quat_mult o1.Orientation
          (quat_from_axis_angle ops (normalize ops o1.AngularVelocity)
            (length ops o1.AngularVelocity * dt))
        gpuObjects := (o1.gpuObjects.map fun g =>
          { g with center := o1.GetPosition + o1.velocity * dt }).map fun g =>
            { g with
              rot_quat := quat_mult o1.Orientation
                (quat_from_axis_angle ops (normalize ops o1.AngularVelocity)
                  (length ops o1.AngularVelocity * dt)) } } := by
  unfold Update
  rw [h]
  simp only [Option.pure_def, Option.bind_eq_bind, Option.some_bind]
  have ha1 : length ops (o1.SetPosition (o1.GetPosition + o1.velocity * dt)).AngularVelocity * dt
      > 1e-6 := ha
  rw [if_pos ha1]
  rfl

/-- The method `Update` when the rotation angle of the step is not above the threshold. -/
theorem Update_still (ops : FloatOps F) (o o1 : SceneObject F) (dt : F)
    (h : o.CheckForTypeTransition = some o1)
    (ha : ¬ length ops o1.AngularVelocity * dt > 1e-6) :
    o.Update ops dt = some (o1.SetPosition (o1.GetPosition + o1.velocity * dt)) := by
  unfold Update
  rw [h]
  simp only [Option.pure_def, Option.bind_eq_bind, Option.some_bind]
  have ha1 : ¬ length ops (o1.SetPosition (o1.GetPosition + o1.velocity * dt)).AngularVelocity
      * dt > 1e-6 := ha
  rw [if_neg ha1]

theorem GetPosition_map_center (l : List (GPUobject F)) (p : Vec3 F) (hl : l ≠ [])
    (o : SceneObject F) (ho : o.gpuObjects = l.map fun g => { g with center := p }) :
    o.GetPosition = p := by
  obtain ⟨g, t, rfl⟩ := List.exists_cons_of_ne_nil hl
  unfold GetPosition
  rw [ho]
  rfl

/-- The method `Update` returns on a body with a primary geometry record; it keeps the
velocity and moves the position by `velocity * dt`. -/
theorem Update_total (ops : FloatOps F) (o : SceneObject F) (dt : F) (hg : o.gpuObjects ≠ []) :
    ∃ o2, o.Update ops dt = some o2 ∧ o2.velocity = o.velocity ∧
      o2.GetPosition = o.GetPosition + o.velocity * dt ∧ o2.gpuObjects ≠ [] := by
  obtain ⟨o1, h⟩ := check_total o hg
  obtain ⟨hv, -, -, hp, -⟩ := check_frame o o1 h
  have hg1 := check_geometry o o1 h
  obtain ⟨g, t, hgt⟩ := List.exists_cons_of_ne_nil hg1
  by_cases ha : length ops o1.AngularVelocity * dt > 1e-6
  · refine ⟨_, Update_rotating ops o o1 dt h ha, hv, ?_, ?_⟩
    · rw [← hp, ← hv]
      simp [GetPosition, hgt]
    · simp [hgt]
  · refine ⟨_, Update_still ops o o1 dt h ha, hv, ?_, ?_⟩
    · rw [← hp, ← hv]
      simp [GetPosition, SetPosition, hgt]
    · simp [SetPosition, hgt]

end UpdateShape

section MirrorLemmas
open SceneObject
variable {F : Type} [LinearOrderedField F]

theorem Mirrors_SetupAs (o : SceneObject F) (t : ObjectType) :
    GeometryMirrorsTransform (o.SetupAs t) := by
  cases t <;> cases hr : o.hasRings <;>
    simp [GeometryMirrorsTransform, SetupAs, setupSwitch, SetPosition, hr]

theorem Mirrors_SetPosition (o : SceneObject F) (p : Vec3 F)
    (h : GeometryMirrorsTransform o) : GeometryMirrorsTransform (o.SetPosition p) := by
  constructor
  · intro g hg g1 hg1
    simp only [SetPosition, List.mem_map] at hg hg1
    obtain ⟨a, -, rfl⟩ := hg
    obtain ⟨b, -, rfl⟩ := hg1
    rfl
  · intro g hg
    simp only [SetPosition, List.mem_map] at hg
    obtain ⟨a, ha, rfl⟩ := hg
    exact h.2 a ha

theorem ApplyForce_Orientation (o : SceneObject F) (f : Vec3 F) (dt : F) :
    (o.ApplyForce f dt).Orientation = o.Orientation := by
  unfold ApplyForce
  split_ifs <;> rfl

theorem Mirrors_ApplyForce (o : SceneObject F) (f : Vec3 F) (dt : F)
    (h : GeometryMirrorsTransform o) : GeometryMirrorsTransform (o.ApplyForce f dt) := by
  unfold GeometryMirrorsTransform
  rw [ApplyForce_gpuObjects, ApplyForce_Orientation]
  exact h

theorem Mirrors_construct (u : F) (t : ObjectType) (p : Vec3 F) (m : F) :
    GeometryMirrorsTransform (construct u t p m) := by
  unfold construct
  simp only []
  apply Mirrors_SetPosition
  split_ifs
  · exact Mirrors_SetupAs _ t
  · exact Mirrors_SetupAs _ t

theorem Mirrors_check (o o1 : SceneObject F) (hm : GeometryMirrorsTransform o)
    (h : o.CheckForTypeTransition = some o1) : GeometryMirrorsTransform o1 := by
  have hg : o.gpuObjects ≠ [] := by
    intro hg
    simp [CheckForTypeTransition, checkTransitions, GetGpuObject, hg] at h
  obtain ⟨g, rest, hgr⟩ := List.exists_cons_of_ne_nil hg
  have h0 : o.GetGpuObject 0 = some g := (GetGpuObject_zero o g).2 ⟨rest, hgr⟩
  simp only [CheckForTypeTransition, checkTransitions, h0, Option.pure_def, Option.bind_eq_bind,
    Option.some_bind] at h
  by_cases hc : o.Type_ ≠ ObjectType.BlackHole ∧ g.r1 < o.Mass * (5368709 / 2 ^ 30)
  · rw [if_pos hc] at h
    simp [SetupAs, setupSwitch, SetPosition, modifyGpuObject] at h
    subst h
    simp [GeometryMirrorsTransform]
  · rw [if_neg hc] at h
    have key : o1 = o ∨ ∃ t, o1 = o.SetupAs t := by
      rcases ht : o.Type_ with _ | _ | _ | _ | _ <;> rw [ht] at h <;> simp only [] at h <;>
        (try split_ifs at h) <;> simp only [Option.some.injEq] at h <;> subst h <;>
        first
          | exact Or.inl rfl
          | exact Or.inr ⟨_, rfl⟩
    rcases key with rfl | ⟨t, rfl⟩
    · exact hm
    · exact Mirrors_SetupAs o t

theorem Mirrors_Update (ops : FloatOps F) (o o2 : SceneObject F) (dt : F)
    (hm : GeometryMirrorsTransform o) (h : o.Update ops dt = some o2) :
    GeometryMirrorsTransform o2 := by
  have hg : o.gpuObjects ≠ [] := by
    intro hg
    simp [Update, CheckForTypeTransition, checkTransitions, GetGpuObject, hg] at h
  obtain ⟨o1, hc⟩ := check_total o hg
  have hm1 := Mirrors_check o o1 hm hc
  by_cases ha : length ops o1.AngularVelocity * dt > 1e-6
  · rw [Update_rotating ops o o1 dt hc ha] at h
    injection h with e
    subst e
    constructor
    · intro g hg g1 hg1
      simp only [List.mem_map] at hg hg1
      obtain ⟨a, ⟨a1, -, rfl⟩, rfl⟩ := hg
      obtain ⟨b, ⟨b1, -, rfl⟩, rfl⟩ := hg1
      rfl
    · intro g hg
      simp only [List.mem_map] at hg
      obtain ⟨a, -, rfl⟩ := hg
      rfl
  · rw [Update_still ops o o1 dt hc ha] at h
    injection h with e
    subst e
    exact Mirrors_SetPosition o1 _ hm1

end MirrorLemmas

section MirrorClaims
open SceneObject

/-- C28 (the code at the failing input): the rocky planet `turnedRocky`, whose record
carries its orientation `(1, 0, 0, 0)`, satisfies the predicate; after `ResetRotation` the
orientation is `(0, 0, 0, 1)` while the record still carries `(1, 0, 0, 0)`, so the
predicate no longer holds. -/
theorem reset_rotation_leaves_records_stale :
    GeometryMirrorsTransform (turnedRocky ℚ) ∧
      (turnedRocky ℚ).ResetRotation.Orientation = ⟨0, 0, 0, 1⟩ ∧
      (turnedRocky ℚ).ResetRotation.gpuObjects.map (fun g => g.rot_quat) = [⟨1, 0, 0, 0⟩] ∧
      ¬ GeometryMirrorsTransform (turnedRocky ℚ).ResetRotation := by
  have hrec : (turnedRocky ℚ).ResetRotation.gpuObjects.map (fun g => g.rot_quat)
      = [⟨1, 0, 0, 0⟩] := by
    simp [turnedRocky, rocky, construct, SetupAs, setupSwitch, SetPosition, ResetRotation]
  refine ⟨Mirrors_SetupAs _ _, rfl, hrec, ?_⟩
  intro h
  have h2 : ∀ q ∈ (turnedRocky ℚ).ResetRotation.gpuObjects.map (fun g => g.rot_quat),
      q = (⟨0, 0, 0, 1⟩ : Vec4 ℚ) := by
    intro q hq
    obtain ⟨g, hg, rfl⟩ := List.mem_map.1 hq
    exact h.2 g hg
  rw [hrec] at h2
  have := h2 ⟨1, 0, 0, 0⟩ (List.mem_singleton.2 rfl)
  simp at this

end MirrorClaims

section QuaternionLemmas
open SceneObject
variable {F : Type} [LinearOrderedField F]

/-- The function `quat_mult` multiplies the squared norms. -/
theorem quatNormSq_mult (a b : Vec4 F) :
    quatNormSq (quat_mult a b) = quatNormSq a * quatNormSq b := by
  simp only [quatNormSq, quat_mult]
  ring

/-- The delta quaternion of a non-zero angular velocity is a unit quaternion. -/
theorem quatNormSq_delta (ops : FloatOps F) (w : Vec3 F) (angle : F)
    (hsq : ops.sqrt (dot w w) ^ 2 = dot w w) (hne : ops.sqrt (dot w w) ≠ 0)
    (htrig : ∀ a, ops.sin a ^ 2 + ops.cos a ^ 2 = 1) :
    quatNormSq (quat_from_axis_angle ops (normalize ops w) angle) = 1 := by
  have hd : dot w w = w.x ^ 2 + w.y ^ 2 + w.z ^ 2 := by
    unfold dot
    ring
  have hL : (1 / ops.sqrt (dot w w)) ^ 2 * (w.x ^ 2 + w.y ^ 2 + w.z ^ 2) = 1 := by
    rw [← hd, one_div, inv_pow, hsq]
    have hdn : dot w w ≠ 0 := by
      rw [← hsq]
      exact pow_ne_zero 2 hne
    exact inv_mul_cancel₀ hdn
  have ht := htrig (angle * 0.5)
  simp only [quatNormSq, quat_from_axis_angle, normalize, length, Vec3.div_x, Vec3.div_y,
    Vec3.div_z]
  calc (1 / ops.sqrt (dot w w) * w.x * ops.sin (angle * 0.5)) ^ 2
        + (1 / ops.sqrt (dot w w) * w.y * ops.sin (angle * 0.5)) ^ 2
        + (1 / ops.sqrt (dot w w) * w.z * ops.sin (angle * 0.5)) ^ 2
        + ops.cos (angle * 0.5) ^ 2
      = ((1 / ops.sqrt (dot w w)) ^ 2 * (w.x ^ 2 + w.y ^ 2 + w.z ^ 2))
          * ops.sin (angle * 0.5) ^ 2 + ops.cos (angle * 0.5) ^ 2 := by ring
    _ = 1 := by rw [hL, one_mul, ht]

end QuaternionLemmas

section QuaternionClaims
open SceneObject
variable {F : Type} [LinearOrderedField F]

/-- C29: with an exact square root on non-negative numbers and `sin^2 + cos^2 = 1`, `Update`
on a body that has a primary geometry record and a unit `Orientation` returns a body whose
`Orientation` is again a unit quaternion; the delta quaternion is a unit quaternion and
`quat_mult` multiplies the squared norms; when `|AngularVelocity| * dt <= 1e-6` the
`Orientation` is unchanged. -/
theorem orientation_stays_unit (ops : FloatOps F)
    (hsqrt : ∀ x : F, 0 ≤ x → ops.sqrt x ^ 2 = x)
    (htrig : ∀ a : F, ops.sin a ^ 2 + ops.cos a ^ 2 = 1)
    (o : SceneObject F) (dt : F) (hg : o.gpuObjects ≠ [])
    (hn : quatNormSq o.Orientation = 1) :
    ∃ o2, o.Update ops dt = some o2 ∧ quatNormSq o2.Orientation = 1 ∧
      (length ops o.AngularVelocity * dt > 1e-6 →
        o2.Orientation = quat_mult o.Orientation
          (quat_from_axis_angle ops (normalize ops o.AngularVelocity)
            (length ops o.AngularVelocity * dt)) ∧
        quatNormSq (quat_from_axis_angle ops (normalize ops o.AngularVelocity)
            (length ops o.AngularVelocity * dt)) = 1) ∧
      (length ops o.AngularVelocity * dt ≤ 1e-6 → o2.Orientation = o.Orientation) ∧
      (∀ a b : Vec4 F, quatNormSq (quat_mult a b) = quatNormSq a * quatNormSq b) := by
  obtain ⟨o1, h⟩ := check_total o hg
  obtain ⟨-, hor, hav, -, -⟩ := check_frame o o1 h
  have hdot : 0 ≤ dot o.AngularVelocity o.AngularVelocity := by
    unfold dot
    nlinarith [mul_self_nonneg o.AngularVelocity.x, mul_self_nonneg o.AngularVelocity.y,
      mul_self_nonneg o.AngularVelocity.z]
  by_cases ha : length ops o.AngularVelocity * dt > 1e-6
  · have hne : ops.sqrt (dot o.AngularVelocity o.AngularVelocity) ≠ 0 := by
      intro h0
      unfold length at ha
      rw [h0, zero_mul] at ha
      norm_num at ha
    have hdelta := quatNormSq_delta ops o.AngularVelocity (length ops o.AngularVelocity * dt)
      (hsqrt _ hdot) hne htrig
    have ha1 : length ops o1.AngularVelocity * dt > 1e-6 := by rw [hav]; exact ha
    refine ⟨_, Update_rotating ops o o1 dt h ha1, ?_, ?_, ?_, quatNormSq_mult⟩
    · show quatNormSq (quat_mult o1.Orientation _) = 1
      rw [quatNormSq_mult, hor, hn, hav, hdelta, one_mul]
    · intro _
      refine ⟨?_, hdelta⟩
      show quat_mult o1.Orientation _ = _
      rw [hor, hav]
    · intro hle
      exact absurd ha (not_lt.2 hle)
  · have ha1 : ¬ length ops o1.AngularVelocity * dt > 1e-6 := by rw [hav]; exact ha
    refine ⟨_, Update_still ops o o1 dt h ha1, ?_, ?_, ?_, quatNormSq_mult⟩
    · show quatNormSq o1.Orientation = 1
      rw [hor, hn]
    · intro h1
      exact absurd h1 ha
    · intro _
      exact hor

end QuaternionClaims

section QuaternionWitnesses
open SceneObject

/-- Witness of C29: a rocky planet built by the constructor (orientation `(0, 0, 0, 1)`,
angular velocity `(0, 0.15, 0)`) updated with `dt = 1/60` over the real numbers. -/
theorem orientation_stays_unit_witness :
    ∃ o2, (rocky ℝ ⟨0, 0, 0⟩ 1).Update realOps (1 / 60) = some o2 ∧
      quatNormSq o2.Orientation = 1 ∧
      (length realOps (rocky ℝ ⟨0, 0, 0⟩ 1).AngularVelocity * (1 / 60) > 1e-6 →
        o2.Orientation = quat_mult (rocky ℝ ⟨0, 0, 0⟩ 1).Orientation
          (quat_from_axis_angle realOps (normalize realOps (rocky ℝ ⟨0, 0, 0⟩ 1).AngularVelocity)
            (length realOps (rocky ℝ ⟨0, 0, 0⟩ 1).AngularVelocity * (1 / 60))) ∧
        quatNormSq (quat_from_axis_angle realOps
            (normalize realOps (rocky ℝ ⟨0, 0, 0⟩ 1).AngularVelocity)
            (length realOps (rocky ℝ ⟨0, 0, 0⟩ 1).AngularVelocity * (1 / 60))) = 1) ∧
      (length realOps (rocky ℝ ⟨0, 0, 0⟩ 1).AngularVelocity * (1 / 60) ≤ 1e-6 →
        o2.Orientation = (rocky ℝ ⟨0, 0, 0⟩ 1).Orientation) ∧
      (∀ a b : Vec4 ℝ, quatNormSq (quat_mult a b) = quatNormSq a * quatNormSq b) :=
  orientation_stays_unit realOps (fun x hx => Real.sq_sqrt hx)
    (fun a => Real.sin_sq_add_cos_sq a) (rocky ℝ ⟨0, 0, 0⟩ 1) (1 / 60)
    (by
      obtain ⟨g, hg, -⟩ := rocky_gpuObjects (⟨0, 0, 0⟩ : Vec3 ℝ) 1
      rw [hg]
      simp)
    (by
      have : (rocky ℝ ⟨0, 0, 0⟩ 1).Orientation = ⟨0, 0, 0, 1⟩ := by
        unfold rocky construct
        split_ifs <;> rfl
      rw [this]
      norm_num [quatNormSq])

end QuaternionWitnesses

section UniformBufferLemmas
open SceneObject
variable {F : Type} [LinearOrderedField F]

theorem take_take_append {α : Type} (n : Nat) (X Y : List α) :
    ((X.take n) ++ Y).take n = (X ++ Y).take n := by
  by_cases h : X.length ≤ n
  · rw [List.take_of_length_le h]
  · have h1 : n ≤ X.length := by omega
    rw [List.take_append_of_le_length (by rw [List.length_take]; omega),
      List.take_append_of_le_length h1, List.take_take, min_self]

/-- The array of `uboData` after the records `W` have been written to its first slots. -/
theorem ubo_set_next (init W : List (GPUobject F)) (g : GPUobject F)
    (h : W.length < init.length) :
    (W ++ init.drop W.length).set W.length g
      = (W ++ [g]) ++ init.drop (W ++ [g]).length := by
  rw [List.set_append_right _ _ (le_refl _)]
  simp only [Nat.sub_self, List.length_append, List.length_singleton, List.append_assoc,
    List.singleton_append]
  congr 1
  rw [List.drop_eq_getElem_cons h]
  rfl

/-- The inner loop writes the records of one body after the records `W` written so far,
up to the capacity of the array. -/
theorem uboInnerLoop_spec (sceneObj : SceneObject F) (init : List (GPUobject F))
    (hinit : init.length = MAX_OBJECTS_CPP) :
    ∀ (len a : Nat) (W : List (GPUobject F)), a + len = sceneObj.gpuObjects.length →
      W.length ≤ MAX_OBJECTS_CPP →
      uboInnerLoop sceneObj (List.range' a len) (W ++ init.drop W.length) W.length
        = some (((W ++ sceneObj.gpuObjects.drop a).take MAX_OBJECTS_CPP)
            ++ init.drop ((W ++ sceneObj.gpuObjects.drop a).take MAX_OBJECTS_CPP).length,
          ((W ++ sceneObj.gpuObjects.drop a).take MAX_OBJECTS_CPP).length) := by
  intro len
  induction len with
  | zero =>
    intro a W ha hW
    have hd : sceneObj.gpuObjects.drop a = [] := List.drop_eq_nil_of_le (by omega)
    rw [hd, List.append_nil, List.take_of_length_le hW]
    rfl
  | succ len ih =>
    intro a W ha hW
    rw [List.range'_succ]
    unfold uboInnerLoop
    by_cases hfull : W.length ≥ MAX_OBJECTS_CPP
    · rw [if_pos hfull]
      have hW1 : MAX_OBJECTS_CPP ≤ W.length := hfull
      rw [List.take_append_of_le_length hW1, List.take_of_length_le hW]
    · rw [if_neg hfull]
      have halt : a < sceneObj.gpuObjects.length := by omega
      have hget : sceneObj.GetGpuObject a = some sceneObj.gpuObjects[a] := by
        unfold GetGpuObject
        exact List.getElem?_eq_getElem halt
      have hlt : W.length < init.length := by omega
      have hlen : W.length < (W ++ init.drop W.length).length := by
        rw [List.length_append, List.length_drop]
        omega
      rw [hget]
      simp only []
      rw [if_pos hlen, ubo_set_next init W _ hlt]
      have hW2 : (W ++ [sceneObj.gpuObjects[a]]).length ≤ MAX_OBJECTS_CPP := by
        rw [List.length_append, List.length_singleton]
        omega
      have hnext : (W ++ [sceneObj.gpuObjects[a]]).length = W.length + 1 := by
        rw [List.length_append, List.length_singleton]
      have := ih (a + 1) (W ++ [sceneObj.gpuObjects[a]]) (by omega) hW2
      rw [hnext] at this
      rw [hnext, this]
      have hd : sceneObj.gpuObjects.drop a
          = sceneObj.gpuObjects[a] :: sceneObj.gpuObjects.drop (a + 1) :=
        List.drop_eq_getElem_cons halt
      rw [hd]
      simp only [List.append_assoc, List.singleton_append]

/-- The loop over the bodies writes their records in body order after the records `W`
written so far, up to the capacity of the array. -/
theorem uboOuterLoop_spec (init : List (GPUobject F)) (hinit : init.length = MAX_OBJECTS_CPP) :
    ∀ (bodies : List (SceneObject F)) (W : List (GPUobject F)), W.length ≤ MAX_OBJECTS_CPP →
      uboOuterLoop bodies (W ++ init.drop W.length) W.length
        = some (((W ++ geometryRecords bodies).take MAX_OBJECTS_CPP)
            ++ init.drop ((W ++ geometryRecords bodies).take MAX_OBJECTS_CPP).length,
          ((W ++ geometryRecords bodies).take MAX_OBJECTS_CPP).length) := by
  intro bodies
  induction bodies with
  | nil =>
    intro W hW
    unfold uboOuterLoop geometryRecords
    rw [List.map_nil, List.flatten_nil, List.append_nil, List.take_of_length_le hW]
  | cons b rest ih =>
    intro W hW
    unfold uboOuterLoop
    have hin := uboInnerLoop_spec b init hinit b.gpuObjects.length 0 W (by omega) hW
    rw [← List.range_eq_range', List.drop_zero] at hin
    have hc : b.GetGpuObjectCount = b.gpuObjects.length := rfl
    rw [hc, hin]
    simp only []
    rw [ih _ (by rw [List.length_take]; exact min_le_left _ _)]
    have hflat : geometryRecords (b :: rest) = b.gpuObjects ++ geometryRecords rest := by
      unfold geometryRecords
      rw [List.map_cons, List.flatten_cons]
    rw [hflat, take_take_append, List.append_assoc]

end UniformBufferLemmas

section UniformBufferClaims
open SceneObject
variable {F : Type} [LinearOrderedField F]

/-- C23: `update_uniform_buffer_object` returns for every world (it never writes outside
the array of `MAX_OBJECTS_CPP = 16` records): with `N` the total number of geometry records,
`num_objects_active` is `min N 16`, the first `min N 16` slots of the array hold the first
`min N 16` records of the bodies, concatenated in body order, and the remaining slots are
left as they were. -/
theorem ubo_records_are_capped (uninitObjects : List (GPUobject F))
    (sceneObjects : List (SceneObject F))
    (hlen : uninitObjects.length = MAX_OBJECTS_CPP) :
    ∃ uboData, update_uniform_buffer_object uninitObjects sceneObjects = some uboData ∧
      uboData.num_objects_active
        = ((min (geometryRecords sceneObjects).length 16 : Nat) : Int) ∧
      uboData.objects.length = 16 ∧
      uboData.objects.take (min (geometryRecords sceneObjects).length 16)
        = (geometryRecords sceneObjects).take (min (geometryRecords sceneObjects).length 16) ∧
      uboData.objects.drop (min (geometryRecords sceneObjects).length 16)
        = uninitObjects.drop (min (geometryRecords sceneObjects).length 16) := by
  have h := uboOuterLoop_spec uninitObjects hlen sceneObjects [] (Nat.zero_le _)
  simp only [List.nil_append, List.length_nil, List.drop_zero] at h
  have hl : ((geometryRecords sceneObjects).take MAX_OBJECTS_CPP).length
      = min (geometryRecords sceneObjects).length 16 := by
    rw [List.length_take, min_comm]
    rfl
  have ht : (geometryRecords sceneObjects).take MAX_OBJECTS_CPP
      = (geometryRecords sceneObjects).take (min (geometryRecords sceneObjects).length 16) := by
    show (geometryRecords sceneObjects).take 16 = _
    rw [min_comm, ← List.take_take, List.take_length]
  refine ⟨ObjectUBOData.mk
      (((geometryRecords sceneObjects).take MAX_OBJECTS_CPP)
        ++ uninitObjects.drop ((geometryRecords sceneObjects).take MAX_OBJECTS_CPP).length)
      (((geometryRecords sceneObjects).take MAX_OBJECTS_CPP).length : Nat),
    ?_, ?_, ?_, ?_, ?_⟩
  · unfold update_uniform_buffer_object
    rw [h]
  · show ((((geometryRecords sceneObjects).take MAX_OBJECTS_CPP).length : Nat) : Int) = _
    rw [hl]
  · show (((geometryRecords sceneObjects).take MAX_OBJECTS_CPP)
      ++ uninitObjects.drop ((geometryRecords sceneObjects).take MAX_OBJECTS_CPP).length).length
      = 16
    rw [List.length_append, List.length_drop, hl, hlen]
    show min (geometryRecords sceneObjects).length 16
      + (16 - min (geometryRecords sceneObjects).length 16) = 16
    omega
  · show List.take _ (((geometryRecords sceneObjects).take MAX_OBJECTS_CPP)
      ++ uninitObjects.drop ((geometryRecords sceneObjects).take MAX_OBJECTS_CPP).length) = _
    rw [List.take_left' hl]
    exact ht
  · show List.drop _ (((geometryRecords sceneObjects).take MAX_OBJECTS_CPP)
      ++ uninitObjects.drop ((geometryRecords sceneObjects).take MAX_OBJECTS_CPP).length) = _
    rw [List.drop_left' hl, hl]

end UniformBufferClaims

section UniformBufferWitnesses
open SceneObject

/-- Witness of C23: nine black holes (18 geometry records) and an array that holds 16
value-initialised records before the call. -/
theorem ubo_records_are_capped_witness :
    ∃ uboData, update_uniform_buffer_object (List.replicate 16 (GPUobject.init : GPUobject ℚ))
        (List.replicate 9 (blackHole ℚ)) = some uboData ∧
      uboData.num_objects_active
        = ((min (geometryRecords (List.replicate 9 (blackHole ℚ))).length 16 : Nat) : Int) ∧
      uboData.objects.length = 16 ∧
      uboData.objects.take (min (geometryRecords (List.replicate 9 (blackHole ℚ))).length 16)
        = (geometryRecords (List.replicate 9 (blackHole ℚ))).take
            (min (geometryRecords (List.replicate 9 (blackHole ℚ))).length 16) ∧
      uboData.objects.drop (min (geometryRecords (List.replicate 9 (blackHole ℚ))).length 16)
        = (List.replicate 16 (GPUobject.init : GPUobject ℚ)).drop
            (min (geometryRecords (List.replicate 9 (blackHole ℚ))).length 16) :=
  ubo_records_are_capped (List.replicate 16 (GPUobject.init : GPUobject ℚ))
    (List.replicate 9 (blackHole ℚ)) (List.length_replicate 16 _)

end UniformBufferWitnesses

section RemovalLemmas
open SceneObject

/-- Keeping every element of a list whose index passes a test that all indices from `c` on
pass keeps the whole list. -/
theorem keep_all {α : Type} (P : Nat → Bool) (l : List α) (c : Nat)
    (h : ∀ k, c ≤ k → P k = true) :
    ((List.enumFrom c l).filter (fun p => P p.1)).map Prod.snd = l := by
  rw [List.filter_eq_self.2, List.enumFrom_map_snd]
  intro p hp
  have hb := List.mem_enumFrom (x := p.2) (i := p.1) hp
  exact h p.1 hb.1

/-- Erasing the element of index `k` from a list and then keeping the indices outside a
set `s` of indices below `k` is keeping the indices of the original list outside `k :: s`. -/
theorem eraseIdx_keep {α : Type} (s : List Nat) :
    ∀ (l : List α) (c k : Nat), (∀ x ∈ s, x < c + k) →
      ((List.enumFrom c (l.eraseIdx k)).filter (fun p => decide (p.1 ∉ s))).map Prod.snd
        = ((List.enumFrom c l).filter (fun p => decide (p.1 ∉ (c + k) :: s))).map Prod.snd := by
  intro l
  induction l with
  | nil => intro c k _; rfl
  | cons a l ih =>
    intro c k hs
    cases k with
    | zero =>
      rw [List.eraseIdx_cons_zero, List.enumFrom_cons]
      have h1 : ((List.enumFrom c l).filter (fun p => decide (p.1 ∉ s))).map Prod.snd = l :=
        keep_all (fun k => decide (k ∉ s)) l c (fun k hk => by
          simp only [decide_eq_true_eq]
          intro hks
          have := hs k hks
          omega)
      have h2 : ((List.enumFrom (c + 1) l).filter
          (fun p => decide (p.1 ∉ (c + 0) :: s))).map Prod.snd = l :=
        keep_all (fun k => decide (k ∉ (c + 0) :: s)) l (c + 1) (fun k hk => by
          simp only [decide_eq_true_eq, List.mem_cons, not_or]
          constructor
          · omega
          · intro hks
            have := hs k hks
            omega)
      rw [h1, List.filter_cons]
      have hc : decide ((c, a).1 ∉ (c + 0) :: s) = false := by simp
      rw [hc]
      simp only [Bool.false_eq_true, if_false]
      exact h2.symm
    | succ k =>
      rw [List.eraseIdx_cons_succ, List.enumFrom_cons, List.enumFrom_cons, List.filter_cons,
        List.filter_cons]
      have hs1 : ∀ x ∈ s, x < (c + 1) + k := fun x hx => by
        have := hs x hx
        omega
      have hih := ih (c + 1) k hs1
      have hck : c + 1 + k = c + (k + 1) := by omega
      rw [hck] at hih
      have hhead : decide ((c, a).1 ∉ (c + (k + 1)) :: s) = decide ((c, a).1 ∉ s) := by
        congr 1
        simp only [List.mem_cons, not_or, eq_iff_iff]
        constructor
        · intro h; exact h.2
        · intro h; exact ⟨by omega, h⟩
      rw [hhead]
      by_cases hcs : decide ((c, a).1 ∉ s) = true
      · rw [if_pos hcs, if_pos hcs, List.map_cons, List.map_cons, hih]
      · rw [if_neg hcs, if_neg hcs, hih]

/-- Erasing the indices of a strictly descending list one after the other keeps exactly the
elements whose index is not in the list, in their order. -/
theorem foldl_eraseIdx_descending {α : Type} :
    ∀ (s : List Nat), s.Pairwise (fun a b => b < a) → ∀ l : List α,
      s.foldl (fun objs index => objs.eraseIdx index) l
        = (l.enum.filter (fun p => decide (p.1 ∉ s))).map Prod.snd := by
  intro s
  induction s with
  | nil =>
    intro _ l
    simp only [List.foldl_nil, List.not_mem_nil, not_false_eq_true, decide_True]
    rw [List.filter_eq_self.2 (fun _ _ => rfl), List.enum_map_snd]
  | cons k s ih =>
    intro hp l
    rw [List.pairwise_cons] at hp
    rw [List.foldl_cons, ih hp.2 (l.eraseIdx k)]
    have := eraseIdx_keep s l 0 k (fun x hx => by
      have := hp.1 x hx
      omega)
    rw [Nat.zero_add] at this
    exact this

/-- Erasing in-range indices of a strictly descending list shortens the list by one for
each index. -/
theorem length_foldl_eraseIdx_descending {α : Type} :
    ∀ (s : List Nat), s.Pairwise (fun a b => b < a) → ∀ l : List α, (∀ k ∈ s, k < l.length) →
      (s.foldl (fun objs index => objs.eraseIdx index) l).length = l.length - s.length := by
  intro s
  induction s with
  | nil => intro _ l _; rfl
  | cons k s ih =>
    intro hp l hl
    rw [List.pairwise_cons] at hp
    have hk : k < l.length := hl k (List.mem_cons_self _ _)
    have hlen : (l.eraseIdx k).length = l.length - 1 := by
      rw [List.length_eraseIdx, if_pos hk]
    rw [List.foldl_cons, ih hp.2 (l.eraseIdx k) (fun x hx => by
      rw [hlen]
      have := hp.1 x hx
      omega), hlen, List.length_cons]
    omega

/-- The removal block of `update` on indices without repetition: it keeps exactly the
bodies whose index is not marked, in their order. -/
theorem eraseMarked_eq {F : Type} [LinearOrderedField F] (objs : List (SceneObject F))
    (del : List Nat) (hnd : del.Nodup) :
    eraseMarked objs del = (objs.enum.filter (fun p => decide (p.1 ∉ del))).map Prod.snd := by
  haveI : IsTotal Nat (fun a b => b ≤ a) := ⟨fun a b => le_total b a⟩
  haveI : IsTrans Nat (fun a b => b ≤ a) := ⟨fun a b c hab hbc => le_trans hbc hab⟩
  have hperm := List.perm_insertionSort (fun a b : Nat => b ≤ a) del
  have hs : (del.insertionSort (fun a b => b ≤ a)).Pairwise (fun a b => b ≤ a) :=
    List.sorted_insertionSort (fun a b : Nat => b ≤ a) del
  have hn : (del.insertionSort (fun a b => b ≤ a)).Pairwise (fun a b => a ≠ b) :=
    hperm.nodup_iff.2 hnd
  have hlt : (del.insertionSort (fun a b => b ≤ a)).Pairwise (fun a b => b < a) :=
    (hs.and hn).imp (fun h => lt_of_le_of_ne h.1 (Ne.symm h.2))
  unfold eraseMarked
  rw [foldl_eraseIdx_descending _ hlt objs]
  congr 1
  apply List.filter_congr
  intro p _
  congr 1
  rw [hperm.mem_iff]

theorem length_eraseMarked {F : Type} [LinearOrderedField F] (objs : List (SceneObject F))
    (del : List Nat) (hnd : del.Nodup) (hlt : ∀ k ∈ del, k < objs.length) :
    (eraseMarked objs del).length = objs.length - del.length := by
  haveI : IsTotal Nat (fun a b => b ≤ a) := ⟨fun a b => le_total b a⟩
  haveI : IsTrans Nat (fun a b => b ≤ a) := ⟨fun a b c hab hbc => le_trans hbc hab⟩
  have hperm := List.perm_insertionSort (fun a b : Nat => b ≤ a) del
  have hs : (del.insertionSort (fun a b => b ≤ a)).Pairwise (fun a b => b ≤ a) :=
    List.sorted_insertionSort (fun a b : Nat => b ≤ a) del
  have hn : (del.insertionSort (fun a b => b ≤ a)).Pairwise (fun a b => a ≠ b) :=
    hperm.nodup_iff.2 hnd
  have hlt1 : (del.insertionSort (fun a b => b ≤ a)).Pairwise (fun a b => b < a) :=
    (hs.and hn).imp (fun h => lt_of_le_of_ne h.1 (Ne.symm h.2))
  unfold eraseMarked
  rw [length_foldl_eraseIdx_descending _ hlt1 objs
    (fun k hk => hlt k (hperm.mem_iff.1 hk)), hperm.length_eq]

end RemovalLemmas

section RemovalClaims
open SceneObject
variable {F : Type} [LinearOrderedField F]

/-- C27: on bodies that all have a primary geometry record the pair loop of `update` ends
with a list `objects_to_delete` of pairwise distinct indices, all within range, and the
removal block leaves exactly the bodies whose index is not in that list, in their original
relative order; their number is `n` minus the number of collected indices (one per
merge). -/
theorem batch_removal_is_exact (ops : FloatOps F) (gravityEnabled : Bool) (G dt : F)
    (objs : List (SceneObject F)) (hgeo : HasGeometry objs) :
    ∃ objs1 del, pairLoop ops gravityEnabled G dt objs = some (objs1, del) ∧
      objs1.length = objs.length ∧ del.Nodup ∧ (∀ k ∈ del, k < objs.length) ∧
      (if del.isEmpty then objs1 else eraseMarked objs1 del)
        = (objs1.enum.filter (fun p => decide (p.1 ∉ del))).map Prod.snd ∧
      (if del.isEmpty then objs1 else eraseMarked objs1 del).length
        = objs.length - del.length := by
  obtain ⟨objs1, del, h1, h2, -, h4, h5, -, -⟩ :=
    outerLoop_total ops gravityEnabled G dt (List.range objs.length) objs [] hgeo
      (fun i hi => List.mem_range.1 hi) List.nodup_nil (fun k hk => absurd hk (List.not_mem_nil k))
  have he : (if del.isEmpty then objs1 else eraseMarked objs1 del) = eraseMarked objs1 del := by
    split_ifs with hemp
    · rw [List.isEmpty_iff.1 hemp]
      rfl
    · rfl
  refine ⟨objs1, del, h1, h2, h4, h5, ?_, ?_⟩
  · rw [he]
    exact eraseMarked_eq objs1 del h4
  · rw [he, length_eraseMarked objs1 del h4 (fun k hk => by rw [h2]; exact h5 k hk), h2]

end RemovalClaims

section CheckedLoopLemmas
open SceneObject
variable {F : Type} [LinearOrderedField F]

/-- The loops with an arbitrary body are the loops of `update` when the body is
`pairStep`. -/
theorem innerLoopWith_pairStep (ops : FloatOps F) (gE : Bool) (G : F) (i : Nat) :
    ∀ (js : List Nat) (objs : List (SceneObject F)) (del : List Nat) (tf : Vec3 F),
      innerLoopWith (pairStep ops gE G) i js objs del tf = innerLoop ops gE G i js objs del tf := by
  intro js
  induction js with
  | nil => intro objs del tf; rfl
  | cons j js ih =>
    intro objs del tf
    unfold innerLoopWith innerLoop
    simp only [ih]

theorem outerLoopWith_pairStep (ops : FloatOps F) (gE : Bool) (G dt : F) :
    ∀ (is : List Nat) (objs : List (SceneObject F)) (del : List Nat),
      outerLoopWith (pairStep ops gE G) dt is objs del = outerLoop ops gE G dt is objs del := by
  intro is
  induction is with
  | nil => intro objs del; rfl
  | cons i is ih =>
    intro objs del
    unfold outerLoopWith outerLoop outerStep
    rw [innerLoopWith_pairStep]
    split_ifs
    · exact ih objs del
    · rcases innerLoop ops gE G i (List.range objs.length) objs del (Vec3.splat 0) with
        _ | ⟨objs1, del1, tf1⟩
      · rfl
      · exact ih _ _

theorem RadiiNonneg_set (objs : List (SceneObject F)) (l : Nat) (s : SceneObject F)
    (h : RadiiNonneg objs) (hs : ∀ g, s.GetGpuObject 0 = some g → 0 ≤ g.r1) :
    RadiiNonneg (objs.set l s) := by
  intro o ho
  rcases List.mem_or_eq_of_mem_set ho with h1 | h1
  · exact h o h1
  · rw [h1]; exact hs

theorem RadiiNonneg_applyForceAt (objs : List (SceneObject F)) (i : Nat) (f : Vec3 F) (dt : F)
    (h : RadiiNonneg objs) : RadiiNonneg (applyForceAt objs i f dt) := by
  intro o ho
  obtain ⟨k, hk, rfl⟩ := List.getElem_of_mem ho
  unfold applyForceAt at hk ⊢
  rw [List.getElem_modify]
  have hk2 : k < objs.length := by simpa using hk
  split_ifs
  · unfold GetGpuObject
    rw [ApplyForce_gpuObjects]
    exact h _ (List.getElem_mem hk2)
  · exact h _ (List.getElem_mem hk2)

/-- One pass through the inner-loop body on bodies with non-negative radii: a pair with
coincident centres merges, a force is computed only for a `direction` of positive length,
the checked body agrees with the body of the code, and a merge keeps the radii
non-negative. -/
theorem pairStep_radii (ops : FloatOps F) (hsqrt : ops.sqrt 0 = 0)
    (hcbrt : ∀ x : F, 0 ≤ x → 0 ≤ ops.cbrt x) (gE : Bool) (G : F)
    (objs : List (SceneObject F)) (del : List Nat) (tf : Vec3 F) (i j : Nat)
    (oi oj : SceneObject F)
    (hgeo : HasGeometry objs) (hrad : RadiiNonneg objs)
    (hi : objs[i]? = some oi) (hj : objs[j]? = some oj) :
    pairStepChecked ops gE G objs del tf i j = pairStep ops gE G objs del tf i j ∧
    ((∃ objs1 del1, pairStep ops gE G objs del tf i j = some (PairOutcome.merged objs1 del1) ∧
        RadiiNonneg objs1) ∨
      (∃ tf1, pairStep ops gE G objs del tf i j = some (PairOutcome.force tf1) ∧
        oj.GetPosition ≠ oi.GetPosition ∧
        0 < length ops (oj.GetPosition - oi.GetPosition))) := by
  have hmi : oi ∈ objs := List.getElem?_mem hi
  have hmj : oj ∈ objs := List.getElem?_mem hj
  obtain ⟨gi, ti, hgi⟩ := List.exists_cons_of_ne_nil (hgeo _ hmi)
  obtain ⟨gj, tj, hgj⟩ := List.exists_cons_of_ne_nil (hgeo _ hmj)
  have hri : 0 ≤ gi.r1 := hrad oi hmi gi ((GetGpuObject_zero oi gi).2 ⟨ti, hgi⟩)
  have hrj : 0 ≤ gj.r1 := hrad oj hmj gj ((GetGpuObject_zero oj gj).2 ⟨tj, hgj⟩)
  have hpi : oi.GetPosition = gi.center := by simp [GetPosition, hgi]
  have hpj : oj.GetPosition = gj.center := by simp [GetPosition, hgj]
  by_cases hcol : ops.sqrt (dot (gj.center - gi.center) (gj.center - gi.center)) ≤ gi.r1 + gj.r1
  · by_cases hm : oi.Mass > oj.Mass
    · have hp := pairStep_merge_gt ops gE G objs del tf i j oi oj gi gj ti tj hi hj hgi hgj hcol hm
      refine ⟨by simp only [pairStepChecked, hp], Or.inl ⟨_, _, hp, ?_⟩⟩
      apply RadiiNonneg_set _ _ _ hrad
      intro g hg
      simp only [GetGpuObject, List.getElem?_cons_zero, Option.some.injEq] at hg
      subst hg
      exact hcbrt _ (add_nonneg (pow_nonneg hri 3) (pow_nonneg hrj 3))
    · have hp := pairStep_merge_le ops gE G objs del tf i j oi oj gi gj ti tj hi hj hgi hgj hcol hm
      refine ⟨by simp only [pairStepChecked, hp], Or.inl ⟨_, _, hp, ?_⟩⟩
      apply RadiiNonneg_set _ _ _ hrad
      intro g hg
      simp only [GetGpuObject, List.getElem?_cons_zero, Option.some.injEq] at hg
      subst hg
      exact hcbrt _ (add_nonneg (pow_nonneg hrj 3) (pow_nonneg hri 3))
  · have hp := pairStep_force ops gE G objs del tf i j oi oj gi gj ti tj hi hj hgi hgj hcol
    have hlen : 0 < length ops (oj.GetPosition - oi.GetPosition) := by
      unfold length
      rw [hpi, hpj]
      have := not_le.1 hcol
      linarith
    have hne : oj.GetPosition ≠ oi.GetPosition := by
      intro heq
      apply hcol
      rw [← hpi, ← hpj, heq]
      have hz : dot (oi.GetPosition - oi.GetPosition) (oi.GetPosition - oi.GetPosition) = 0 := by
        simp [dot]
      rw [hz, hsqrt]
      exact add_nonneg hri hrj
    refine ⟨?_, Or.inr ⟨_, hp, hne, hlen⟩⟩
    simp only [pairStepChecked, hp, hi, hj]
    rw [if_neg (fun h => (ne_of_gt hlen) h.2)]

/-- The inner loop with `normalize` checked is the inner loop of the code, and it keeps the
geometry, the number of bodies and the non-negative radii. -/
theorem innerLoop_checked (ops : FloatOps F) (hsqrt : ops.sqrt 0 = 0)
    (hcbrt : ∀ x : F, 0 ≤ x → 0 ≤ ops.cbrt x) (gE : Bool) (G : F) (i : Nat)
    (objs : List (SceneObject F)) (del : List Nat)
    (hgeo : HasGeometry objs) (hrad : RadiiNonneg objs) (hi : i < objs.length) :
    ∀ (js : List Nat) (tf : Vec3 F), (∀ j ∈ js, j < objs.length) →
      innerLoopWith (pairStepChecked ops gE G) i js objs del tf
        = innerLoop ops gE G i js objs del tf ∧
      ∀ objs1 del1 tf1, innerLoop ops gE G i js objs del tf = some (objs1, del1, tf1) →
        RadiiNonneg objs1 := by
  intro js
  induction js with
  | nil =>
    intro tf _
    refine ⟨rfl, ?_⟩
    intro objs1 del1 tf1 h
    simp only [innerLoop, Option.some.injEq, Prod.mk.injEq] at h
    rw [← h.1]
    exact hrad
  | cons j js ih =>
    intro tf hjs
    have hjs1 : ∀ j ∈ js, j < objs.length := fun k hk => hjs k (List.mem_cons_of_mem _ hk)
    have hj : j < objs.length := hjs j (List.mem_cons_self _ _)
    unfold innerLoopWith innerLoop
    by_cases hij : i = j
    · rw [if_pos hij, if_pos hij]; exact ih tf hjs1
    · rw [if_neg hij, if_neg hij]
      by_cases hjd : j ∈ del
      · rw [if_pos hjd, if_pos hjd]; exact ih tf hjs1
      · rw [if_neg hjd, if_neg hjd]
        obtain ⟨heq, hcase⟩ := pairStep_radii ops hsqrt hcbrt gE G objs del tf i j objs[i] objs[j]
          hgeo hrad (List.getElem?_eq_getElem hi) (List.getElem?_eq_getElem hj)
        rw [heq]
        rcases hcase with ⟨objs1, del1, hp, hr1⟩ | ⟨tf1, hp, -, -⟩
        · rw [hp]
          refine ⟨rfl, ?_⟩
          intro objs2 del2 tf2 h
          simp only [Option.some.injEq, Prod.mk.injEq] at h
          rw [← h.1]
          exact hr1
        · rw [hp]
          exact ih tf1 hjs1

/-- The outer loop with `normalize` checked is the outer loop of the code, and it keeps the
radii non-negative. -/
theorem outerLoop_checked (ops : FloatOps F) (hsqrt : ops.sqrt 0 = 0)
    (hcbrt : ∀ x : F, 0 ≤ x → 0 ≤ ops.cbrt x) (gE : Bool) (G dt : F) :
    ∀ (is : List Nat) (objs : List (SceneObject F)) (del : List Nat),
      HasGeometry objs → RadiiNonneg objs → (∀ i ∈ is, i < objs.length) →
      outerLoopWith (pairStepChecked ops gE G) dt is objs del = outerLoop ops gE G dt is objs del ∧
      ∀ objs1 del1, outerLoop ops gE G dt is objs del = some (objs1, del1) →
        RadiiNonneg objs1 := by
  intro is
  induction is with
  | nil =>
    intro objs del _ hrad _
    refine ⟨rfl, ?_⟩
    intro objs1 del1 h
    simp only [outerLoop, Option.some.injEq, Prod.mk.injEq] at h
    rw [← h.1]
    exact hrad
  | cons i is ih =>
    intro objs del hgeo hrad his
    have his1 : ∀ k ∈ is, k < objs.length := fun k hk => his k (List.mem_cons_of_mem _ hk)
    have hi : i < objs.length := his i (List.mem_cons_self _ _)
    unfold outerLoopWith outerLoop
    by_cases hid : i ∈ del
    · rw [if_pos hid, if_pos hid]
      exact ih objs del hgeo hrad his1
    · rw [if_neg hid, if_neg hid]
      obtain ⟨heq, hinv⟩ := innerLoop_checked ops hsqrt hcbrt gE G i objs del hgeo hrad hi
        (List.range objs.length) (Vec3.splat 0) (fun j hj => List.mem_range.1 hj)
      obtain ⟨objs1, del1, tf1, hin, hlen, hg1, -⟩ :=
        innerLoop_total ops gE G i objs del hgeo hi hid (List.range objs.length) (Vec3.splat 0)
          (fun j hj => List.mem_range.1 hj)
      unfold outerStep
      rw [heq, hin]
      simp only []
      exact ih (applyForceAt objs1 i tf1 dt) del1 (HasGeometry_applyForceAt _ _ _ _ hg1)
        (RadiiNonneg_applyForceAt _ _ _ _ (hinv objs1 del1 tf1 hin))
        (by rw [length_applyForceAt, hlen]; exact his1)

end CheckedLoopLemmas

section CheckedLoopClaims
open SceneObject
variable {F : Type} [LinearOrderedField F]

/-- C26: let `sqrt 0 = 0` and let `cbrt` be non-negative on non-negative numbers.  On a
world whose bodies all have a primary geometry record with a non-negative radius, the pair
loop of `update` with `normalize` checked returns what the pair loop of the code returns:
no gravity force is ever computed for a `direction` of length zero, and the radii are still
non-negative at the end.  In every state of the loop a pair with coincident centres is
taken by the collision branch, and a pair for which a force is computed has distinct centres
and a `direction` of positive length. -/
theorem coincident_centres_always_merge (ops : FloatOps F) (hsqrt : ops.sqrt 0 = 0)
    (hcbrt : ∀ x : F, 0 ≤ x → 0 ≤ ops.cbrt x) (gravityEnabled : Bool) (G dt : F)
    (objs : List (SceneObject F)) (hgeo : HasGeometry objs) (hrad : RadiiNonneg objs) :
    (∃ objs1 del, pairLoop ops gravityEnabled G dt objs = some (objs1, del) ∧
      pairLoopChecked ops gravityEnabled G dt objs = some (objs1, del) ∧
      RadiiNonneg objs1) ∧
    (∀ (cur : List (SceneObject F)) (del : List Nat) (tf : Vec3 F) (i j : Nat)
        (oi oj : SceneObject F), HasGeometry cur → RadiiNonneg cur →
        cur[i]? = some oi → cur[j]? = some oj →
      (oi.GetPosition = oj.GetPosition →
        ∃ cur1 del1, pairStep ops gravityEnabled G cur del tf i j
          = some (PairOutcome.merged cur1 del1)) ∧
      (∀ tf1, pairStep ops gravityEnabled G cur del tf i j = some (PairOutcome.force tf1) →
        oj.GetPosition ≠ oi.GetPosition ∧
        0 < length ops (oj.GetPosition - oi.GetPosition))) := by
  constructor
  · obtain ⟨objs1, del1, h1, -, -, -, -, -, -⟩ :=
      outerLoop_total ops gravityEnabled G dt (List.range objs.length) objs [] hgeo
        (fun i hi => List.mem_range.1 hi) List.nodup_nil
        (fun k hk => absurd hk (List.not_mem_nil k))
    obtain ⟨heq, hinv⟩ := outerLoop_checked ops hsqrt hcbrt gravityEnabled G dt
      (List.range objs.length) objs [] hgeo hrad (fun i hi => List.mem_range.1 hi)
    refine ⟨objs1, del1, h1, ?_, hinv objs1 del1 h1⟩
    unfold pairLoopChecked
    rw [heq]
    exact h1
  · intro cur del tf i j oi oj hg hr hi hj
    obtain ⟨-, hcase⟩ := pairStep_radii ops hsqrt hcbrt gravityEnabled G cur del tf i j oi oj
      hg hr hi hj
    constructor
    · intro hpos
      rcases hcase with ⟨cur1, del1, hp, -⟩ | ⟨tf1, -, hne, -⟩
      · exact ⟨cur1, del1, hp⟩
      · exact absurd hpos.symm hne
    · intro tf1 hp
      rcases hcase with ⟨cur1, del1, hp1, -⟩ | ⟨tf2, -, hne, hlen⟩
      · rw [hp1] at hp
        cases hp
      · exact ⟨hne, hlen⟩

end CheckedLoopClaims

section GravityOff
open SceneObject
variable {F : Type} [LinearOrderedField F]

/-- With gravity disabled, the inner-loop body leaves `totalForce` as it is for a pair that
does not collide. -/
theorem pairStep_free_off (ops : FloatOps F) (G : F) (objs : List (SceneObject F))
    (del : List Nat) (tf : Vec3 F) (i j : Nat) (oi oj : SceneObject F)
    (hi : objs[i]? = some oi) (hj : objs[j]? = some oj)
    (hgi : oi.gpuObjects ≠ []) (hgj : oj.gpuObjects ≠ []) (hcol : ¬ Collides ops oi oj) :
    pairStep ops false G objs del tf i j = some (PairOutcome.force tf) := by
  obtain ⟨gi, ti, hgi1⟩ := List.exists_cons_of_ne_nil hgi
  obtain ⟨gj, tj, hgj1⟩ := List.exists_cons_of_ne_nil hgj
  have hc : ¬ ops.sqrt (dot (gj.center - gi.center) (gj.center - gi.center)) ≤ gi.r1 + gj.r1 := by
    intro h
    exact hcol ((Collides_iff ops oi oj).2 ⟨gi, gj, ti, tj, hgi1, hgj1, h⟩)
  rw [pairStep_force ops false G objs del tf i j oi oj gi gj ti tj hi hj hgi1 hgj1 hc]
  simp

theorem innerLoop_free_off (ops : FloatOps F) (G : F) (i : Nat) (objs : List (SceneObject F))
    (oi : SceneObject F) (hfree : CollisionFree ops objs) (hi : objs[i]? = some oi) :
    ∀ (js : List Nat) (tf : Vec3 F), (∀ j ∈ js, j < objs.length) →
      innerLoop ops false G i js objs [] tf = some (objs, [], tf) := by
  intro js
  induction js with
  | nil => intro tf _; simp [innerLoop]
  | cons j js ih =>
    intro tf hjs
    have hjs1 : ∀ j ∈ js, j < objs.length := fun k hk => hjs k (List.mem_cons_of_mem _ hk)
    have hj : j < objs.length := hjs j (List.mem_cons_self _ _)
    unfold innerLoop
    by_cases hij : i = j
    · rw [if_pos hij, ih tf hjs1]
    · rw [if_neg hij, if_neg (List.not_mem_nil j)]
      have hj1 : objs[j]? = some objs[j] := List.getElem?_eq_getElem hj
      have hmi : oi ∈ objs := List.getElem?_mem hi
      rw [pairStep_free_off ops G objs [] tf i j oi objs[j] hi hj1 (hfree.1 oi hmi)
        (hfree.1 _ (List.getElem_mem hj)) (hfree.2 i j oi objs[j] hij hi hj1)]
      simp only []
      rw [ih _ hjs1]

end GravityOff

section StepShape
open SceneObject
variable {F : Type} [LinearOrderedField F]

theorem ApplyForce_velocity (o : SceneObject F) (f : Vec3 F) (dt : F) (hm : 0 < o.Mass) :
    (o.ApplyForce f dt).velocity = o.velocity + (f / o.Mass) * dt := by
  unfold ApplyForce
  rw [if_pos hm]

theorem ApplyForce_zero (o : SceneObject F) (dt : F) :
    (o.ApplyForce (Vec3.splat 0) dt).velocity = o.velocity := by
  unfold ApplyForce
  split_ifs
  · show o.velocity + (Vec3.splat 0 / o.Mass) * dt = o.velocity
    ext <;> simp
  · rfl

/-- One body through `ApplyForce` and `Update`: the velocity is advanced first, and the
position is advanced with the new velocity. -/
theorem body_step (ops : FloatOps F) (o : SceneObject F) (f : Vec3 F) (dt : F)
    (hg : o.gpuObjects ≠ []) (hm : 0 < o.Mass) :
    ∃ o2, (o.ApplyForce f dt).Update ops dt = some o2 ∧
      o2.velocity = o.velocity + (f / o.Mass) * dt ∧
      o2.GetPosition = o.GetPosition + o2.velocity * dt := by
  obtain ⟨o2, hup, hv, hp, -⟩ := Update_total ops (o.ApplyForce f dt) dt
    (by rw [ApplyForce_gpuObjects]; exact hg)
  refine ⟨o2, hup, ?_, ?_⟩
  · rw [hv, ApplyForce_velocity _ _ _ hm]
  · rw [hp, hv, GetPosition_congr _ o (ApplyForce_gpuObjects _ _ _)]

/-- The loop that updates every body returns on bodies with a primary geometry record, and
its result holds, index by index, the result of `Update`. -/
theorem updateAll_pointwise (ops : FloatOps F) (dt : F) :
    ∀ l : List (SceneObject F), HasGeometry l →
      ∃ l2, updateAll ops dt l = some l2 ∧ l2.length = l.length ∧
        ∀ (i : Nat) (o : SceneObject F), l[i]? = some o →
          ∃ o2, l2[i]? = some o2 ∧ o.Update ops dt = some o2 := by
  intro l
  induction l with
  | nil =>
    intro _
    exact ⟨[], rfl, rfl, fun i o h => by simp at h⟩
  | cons a l ih =>
    intro hg
    obtain ⟨a2, ha, -, -, -⟩ := Update_total ops a dt (hg a (List.mem_cons_self _ _))
    obtain ⟨l2, hl, hlen, hpt⟩ := ih (fun o ho => hg o (List.mem_cons_of_mem _ ho))
    refine ⟨a2 :: l2, ?_, by simp [hlen], ?_⟩
    · unfold updateAll
      rw [ha, hl]
    · intro i o hi
      cases i with
      | zero =>
        simp only [List.getElem?_cons_zero, Option.some.injEq] at hi
        subst hi
        exact ⟨a2, List.getElem?_cons_zero, ha⟩
      | succ i =>
        simp only [List.getElem?_cons_succ] at hi
        simpa using hpt i o hi

end StepShape

section TraceLemmas
open SceneObject
variable {F : Type} [LinearOrderedField F]

/-- Without its report the traced inner loop is the inner loop of `update`. -/
theorem innerLoopTraced_fst (ops : FloatOps F) (gE : Bool) (G : F) (i : Nat) :
    ∀ (js : List Nat) (objs : List (SceneObject F)) (del : List Nat) (tf : Vec3 F),
      (innerLoopTraced ops gE G i js objs del tf).map (fun r => (r.1, r.2.1, r.2.2.1))
        = innerLoop ops gE G i js objs del tf := by
  intro js
  induction js with
  | nil => intro objs del tf; rfl
  | cons j js ih =>
    intro objs del tf
    unfold innerLoopTraced innerLoop
    by_cases hij : i = j
    · rw [if_pos hij, if_pos hij]; exact ih objs del tf
    · rw [if_neg hij, if_neg hij]
      by_cases hjd : j ∈ del
      · rw [if_pos hjd, if_pos hjd]; exact ih objs del tf
      · rw [if_neg hjd, if_neg hjd]
        rcases hp : pairStep ops gE G objs del tf i j with _ | (⟨o1, d1⟩ | tf1)
        · rfl
        · rfl
        · exact ih objs del tf1

/-- Without its record the traced outer loop is the outer loop of `update`. -/
theorem outerLoopTraced_fst (ops : FloatOps F) (gE : Bool) (G dt : F) :
    ∀ (is : List Nat) (objs : List (SceneObject F)) (del : List Nat)
      (ap : List (Nat × Vec3 F)) (col : List Nat),
      (outerLoopTraced ops gE G dt is objs del ap col).map (fun r => (r.1, r.2.1))
        = outerLoop ops gE G dt is objs del := by
  intro is
  induction is with
  | nil => intro objs del ap col; rfl
  | cons i is ih =>
    intro objs del ap col
    unfold outerLoopTraced outerLoop
    by_cases hid : i ∈ del
    · rw [if_pos hid, if_pos hid]; exact ih objs del ap col
    · rw [if_neg hid, if_neg hid]
      unfold outerStep
      rw [← innerLoopTraced_fst ops gE G i]
      rcases hin : innerLoopTraced ops gE G i (List.range objs.length) objs del (Vec3.splat 0)
        with _ | ⟨o1, d1, tf1, hit⟩
      · rfl
      · cases hit with
        | none => exact ih _ _ _ _
        | some j => exact ih _ _ _ _

/-- Without its record the traced pair loop is the pair loop of `update`. -/
theorem pairLoopTraced_fst (ops : FloatOps F) (gE : Bool) (G dt : F)
    (objs : List (SceneObject F)) :
    (pairLoopTraced ops gE G dt objs).map (fun r => (r.1, r.2.1)) = pairLoop ops gE G dt objs :=
  outerLoopTraced_fst ops gE G dt _ _ _ _ _

/-- One pass through the inner-loop body either merges, writing one of the two bodies and
marking the other, or continues with a force, which is the old one when gravity is
disabled. -/
theorem pairStep_shape (ops : FloatOps F) (gE : Bool) (G : F)
    (objs : List (SceneObject F)) (del : List Nat) (tf : Vec3 F) (i j : Nat)
    (hgeo : HasGeometry objs) (hi : i < objs.length) (hj : j < objs.length) :
    (∃ (l s : Nat) (x : SceneObject F),
        pairStep ops gE G objs del tf i j = some (PairOutcome.merged (objs.set l x) (del ++ [s])) ∧
        (l = i ∧ s = j ∨ l = j ∧ s = i) ∧ x.gpuObjects ≠ []) ∨
    (∃ tf1, pairStep ops gE G objs del tf i j = some (PairOutcome.force tf1) ∧
        (gE = false → tf1 = tf)) := by
  have hi1 : objs[i]? = some objs[i] := List.getElem?_eq_getElem hi
  have hj1 : objs[j]? = some objs[j] := List.getElem?_eq_getElem hj
  obtain ⟨gi, ti, hgi⟩ := List.exists_cons_of_ne_nil (hgeo _ (List.getElem_mem hi))
  obtain ⟨gj, tj, hgj⟩ := List.exists_cons_of_ne_nil (hgeo _ (List.getElem_mem hj))
  by_cases hcol : ops.sqrt (dot (gj.center - gi.center) (gj.center - gi.center)) ≤ gi.r1 + gj.r1
  · left
    by_cases hm : objs[i].Mass > objs[j].Mass
    · exact ⟨i, j, _, pairStep_merge_gt ops gE G objs del tf i j _ _ gi gj ti tj hi1 hj1 hgi hgj
        hcol hm, Or.inl ⟨rfl, rfl⟩, by simp⟩
    · exact ⟨j, i, _, pairStep_merge_le ops gE G objs del tf i j _ _ gi gj ti tj hi1 hj1 hgi hgj
        hcol hm, Or.inr ⟨rfl, rfl⟩, by simp⟩
  · right
    refine ⟨_, pairStep_force ops gE G objs del tf i j _ _ gi gj ti tj hi1 hj1 hgi hgj hcol, ?_⟩
    intro hoff
    rw [hoff]
    rfl

/-- The traced inner loop ends: either without a collision, leaving the bodies and the
marks as they are, or with one collision of body `i` with a body `j`, which writes one of
the two and marks the other. -/
theorem innerLoopTraced_shape (ops : FloatOps F) (gE : Bool) (G : F) (i : Nat)
    (objs : List (SceneObject F)) (del : List Nat)
    (hgeo : HasGeometry objs) (hi : i < objs.length) :
    ∀ (js : List Nat) (tf : Vec3 F), (∀ j ∈ js, j < objs.length) →
      (∃ tf1, innerLoopTraced ops gE G i js objs del tf = some (objs, del, tf1, none) ∧
          (gE = false → tf1 = tf)) ∨
      (∃ (tf1 : Vec3 F) (j l s : Nat) (x : SceneObject F),
          innerLoopTraced ops gE G i js objs del tf
            = some (objs.set l x, del ++ [s], tf1, some j) ∧
          (l = i ∧ s = j ∨ l = j ∧ s = i) ∧ x.gpuObjects ≠ []) := by
  intro js
  induction js with
  | nil =>
    intro tf _
    exact Or.inl ⟨tf, rfl, fun _ => rfl⟩
  | cons j js ih =>
    intro tf hjs
    have hjs1 : ∀ j ∈ js, j < objs.length := fun k hk => hjs k (List.mem_cons_of_mem _ hk)
    have hj : j < objs.length := hjs j (List.mem_cons_self _ _)
    unfold innerLoopTraced
    by_cases hij : i = j
    · rw [if_pos hij]; exact ih tf hjs1
    · rw [if_neg hij]
      by_cases hjd : j ∈ del
      · rw [if_pos hjd]; exact ih tf hjs1
      · rw [if_neg hjd]
        rcases pairStep_shape ops gE G objs del tf i j hgeo hi hj with
          ⟨l, s, x, hp, hls, hx⟩ | ⟨tf1, hp, hoff⟩
        · rw [hp]
          exact Or.inr ⟨tf, j, l, s, x, rfl, hls, hx⟩
        · rw [hp]
          rcases ih tf1 hjs1 with ⟨tf2, h2, hoff2⟩ | h2
          · exact Or.inl ⟨tf2, h2, fun h => (hoff2 h).trans (hoff h)⟩
          · exact Or.inr h2

end TraceLemmas

section TraceInvariant
open SceneObject
variable {F : Type} [LinearOrderedField F]

theorem getElem?_applyForceAt_ne (objs : List (SceneObject F)) (i k : Nat) (f : Vec3 F) (dt : F)
    (h : i ≠ k) : (applyForceAt objs i f dt)[k]? = objs[k]? := by
  unfold applyForceAt
  rw [List.getElem?_modify]
  cases objs[k]? with
  | none => rfl
  | some a => simp [h]

theorem getElem?_applyForceAt_self (objs : List (SceneObject F)) (i : Nat) (f : Vec3 F) (dt : F)
    (o : SceneObject F) (h : objs[i]? = some o) :
    (applyForceAt objs i f dt)[i]? = some (o.ApplyForce f dt) := by
  unfold applyForceAt
  rw [List.getElem?_modify, h]
  simp

/-- The traced outer loop ends, every marked body is recorded as collided, two indices are
recorded for every mark, and a body that is not recorded as collided has, at the end of the
loop, gone through exactly one `ApplyForce`, with the force recorded for it, and through
nothing else. -/
theorem outerLoopTraced_untouched (ops : FloatOps F) (gE : Bool) (G dt : F)
    (objs0 : List (SceneObject F)) :
    ∀ (len m : Nat) (cur : List (SceneObject F)) (del : List Nat)
      (ap : List (Nat × Vec3 F)) (col : List Nat),
      m + len = objs0.length → cur.length = objs0.length → HasGeometry cur →
      (∀ k ∈ del, k ∈ col) → (∀ p ∈ ap, p.1 < m) → col.length = 2 * del.length →
      (∀ (k : Nat) (o : SceneObject F), objs0[k]? = some o → k ∉ col →
        (m ≤ k → cur[k]? = some o) ∧
        (k < m → ∃ f, (k, f) ∈ ap ∧ (∀ f1, (k, f1) ∈ ap → f1 = f) ∧
          cur[k]? = some (o.ApplyForce f dt) ∧ (gE = false → f = Vec3.splat 0))) →
      ∃ fin del1 ap1 col1,
        outerLoopTraced ops gE G dt (List.range' m len) cur del ap col
          = some (fin, del1, ap1, col1) ∧
        (∀ k ∈ del1, k ∈ col1) ∧ col1.length = 2 * del1.length ∧
        ∀ (k : Nat) (o : SceneObject F), objs0[k]? = some o → k ∉ col1 →
          ∃ f, (k, f) ∈ ap1 ∧ (∀ f1, (k, f1) ∈ ap1 → f1 = f) ∧
            fin[k]? = some (o.ApplyForce f dt) ∧ (gE = false → f = Vec3.splat 0) := by
  intro len
  induction len with
  | zero =>
    intro m cur del ap col hm hlen hgeo hdc hap hcl hinv
    refine ⟨cur, del, ap, col, rfl, hdc, hcl, ?_⟩
    intro k o hk hkc
    have hk1 : k < objs0.length := by
      by_contra hge
      rw [List.getElem?_eq_none (by omega)] at hk
      cases hk
    exact (hinv k o hk hkc).2 (by omega)
  | succ len ih =>
    intro m cur del ap col hm hlen hgeo hdc hap hcl hinv
    rw [List.range'_succ]
    unfold outerLoopTraced
    by_cases hmd : m ∈ del
    · rw [if_pos hmd]
      apply ih (m + 1) cur del ap col (by omega) hlen hgeo hdc
        (fun p hp => Nat.lt_succ_of_lt (hap p hp)) hcl
      intro k o hk hkc
      have hkm : k ≠ m := fun e => hkc (hdc k (e ▸ hmd))
      obtain ⟨h1, h2⟩ := hinv k o hk hkc
      exact ⟨fun h => h1 (by omega), fun h => h2 (by omega)⟩
    · rw [if_neg hmd]
      have hmlt : m < cur.length := by omega
      have hnew : ∀ (tf1 : Vec3 F), ∀ p ∈ ap ++ [(m, tf1)], p.1 < m + 1 := by
        intro tf1 p hp
        rcases List.mem_append.1 hp with h | h
        · exact Nat.lt_succ_of_lt (hap p h)
        · rw [List.mem_singleton.1 h]
          exact Nat.lt_succ_self m
      have hold : ∀ (tf1 : Vec3 F) (k : Nat) (o : SceneObject F) (cur1 : List (SceneObject F)),
          objs0[k]? = some o → k ∉ col → k < m → cur1[k]? = cur[k]? →
          ∃ f, (k, f) ∈ ap ++ [(m, tf1)] ∧ (∀ f1, (k, f1) ∈ ap ++ [(m, tf1)] → f1 = f) ∧
            cur1[k]? = some (o.ApplyForce f dt) ∧ (gE = false → f = Vec3.splat 0) := by
        intro tf1 k o cur1 hk hkc hlt hsame
        obtain ⟨f, hf, hu, hc, ho⟩ := (hinv k o hk hkc).2 hlt
        refine ⟨f, List.mem_append_left _ hf, ?_, by rw [hsame]; exact hc, ho⟩
        intro f1 hf1
        rcases List.mem_append.1 hf1 with h | h
        · exact hu f1 h
        · have := List.mem_singleton.1 h
          injection this with e1 e2
          omega
      rcases innerLoopTraced_shape ops gE G m cur del hgeo hmlt (List.range cur.length)
          (Vec3.splat 0) (fun j hj => List.mem_range.1 hj) with
        ⟨tf1, hin, hoff⟩ | ⟨tf1, j, l, s, x, hin, hls, hx⟩
      · rw [hin]
        simp only []
        apply ih (m + 1) (applyForceAt cur m tf1 dt) del (ap ++ [(m, tf1)]) col (by omega)
          (by rw [length_applyForceAt, hlen]) (HasGeometry_applyForceAt _ _ _ _ hgeo) hdc
          (hnew tf1) hcl
        intro k o hk hkc
        constructor
        · intro hge
          rw [getElem?_applyForceAt_ne cur m k tf1 dt (by omega)]
          exact (hinv k o hk hkc).1 (by omega)
        · intro hlt
          by_cases hkm : k = m
          · subst hkm
            refine ⟨tf1, List.mem_append_right _ (List.mem_singleton_self _), ?_,
              getElem?_applyForceAt_self cur k tf1 dt o ((hinv k o hk hkc).1 (le_refl k)), hoff⟩
            intro f1 hf1
            rcases List.mem_append.1 hf1 with h | h
            · exact absurd (hap _ h) (lt_irrefl k)
            · have := List.mem_singleton.1 h
              injection this
          · exact hold tf1 k o _ hk hkc (by omega)
              (getElem?_applyForceAt_ne cur m k tf1 dt (fun e => hkm e.symm))
      · rw [hin]
        simp only []
        have hl : l = m ∨ l = j := by
          rcases hls with ⟨h, -⟩ | ⟨h, -⟩
          · exact Or.inl h
          · exact Or.inr h
        have hs : s = m ∨ s = j := by
          rcases hls with ⟨-, h⟩ | ⟨-, h⟩
          · exact Or.inr h
          · exact Or.inl h
        apply ih (m + 1) (applyForceAt (cur.set l x) m tf1 dt) (del ++ [s]) (ap ++ [(m, tf1)])
          (col ++ [m, j]) (by omega)
          (by rw [length_applyForceAt, List.length_set, hlen])
          (HasGeometry_applyForceAt _ _ _ _ (HasGeometry_set _ _ _ hgeo hx))
          ?_ (hnew tf1) (by simp only [List.length_append, List.length_cons, List.length_nil]; omega)
        · intro k o hk hkc
          have hkc0 : k ∉ col := fun h => hkc (List.mem_append_left _ h)
          have hkm : k ≠ m := fun e => hkc (List.mem_append_right _ (by simp [e]))
          have hkj : k ≠ j := fun e => hkc (List.mem_append_right _ (by simp [e]))
          have hkl : l ≠ k := by
            rcases hl with h | h
            · rw [h]; exact fun e => hkm e.symm
            · rw [h]; exact fun e => hkj e.symm
          have hsame : (applyForceAt (cur.set l x) m tf1 dt)[k]? = cur[k]? := by
            rw [getElem?_applyForceAt_ne _ m k tf1 dt (fun e => hkm e.symm),
              getElem?_set_other cur l k x hkl]
          constructor
          · intro hge
            rw [hsame]
            exact (hinv k o hk hkc0).1 (by omega)
          · intro hlt
            exact hold tf1 k o _ hk hkc0 (by omega) hsame
        · intro k hk
          rcases List.mem_append.1 hk with h | h
          · exact List.mem_append_left _ (hdc k h)
          · rw [List.mem_singleton.1 h]
            rcases hs with h1 | h1
            · rw [h1]; exact List.mem_append_right _ (by simp)
            · rw [h1]; exact List.mem_append_right _ (by simp)

/-- The traced pair loop of `update` on bodies that all have a primary geometry record. -/
theorem pairLoopTraced_untouched (ops : FloatOps F) (gE : Bool) (G dt : F)
    (objs : List (SceneObject F)) (hgeo : HasGeometry objs) :
    ∃ fin del ap col,
      pairLoopTraced ops gE G dt objs = some (fin, del, ap, col) ∧
      (∀ k ∈ del, k ∈ col) ∧ col.length = 2 * del.length ∧
      ∀ (k : Nat) (o : SceneObject F), objs[k]? = some o → k ∉ col →
        ∃ f, (k, f) ∈ ap ∧ (∀ f1, (k, f1) ∈ ap → f1 = f) ∧
          fin[k]? = some (o.ApplyForce f dt) ∧ (gE = false → f = Vec3.splat 0) := by
  unfold pairLoopTraced
  rw [List.range_eq_range']
  exact outerLoopTraced_untouched ops gE G dt objs objs.length 0 objs [] [] [] (by omega) rfl
    hgeo (fun k hk => absurd hk (List.not_mem_nil k))
    (fun p hp => absurd hp (List.not_mem_nil p)) rfl
    (fun k o hk _ => ⟨fun _ => hk, fun h => absurd h (Nat.not_lt_zero k)⟩)

end TraceInvariant

section TraceFree
open SceneObject
variable {F : Type} [LinearOrderedField F]

/-- In a collision-free world the inner loop of body `i` runs to its end, marks nothing and
hands on the net force on body `i` (the zero force when gravity is disabled). -/
theorem innerLoopTraced_free (ops : FloatOps F) (gE : Bool) (G : F) (i : Nat)
    (cur : List (SceneObject F)) (ci : SceneObject F) (hfree : CollisionFree ops cur)
    (hi : cur[i]? = some ci) :
    innerLoopTraced ops gE G i (List.range cur.length) cur [] (Vec3.splat 0)
      = some (cur, [], (if gE = true then netForce ops G cur ci i else Vec3.splat 0), none) := by
  have hilt : i < cur.length := by
    by_contra hge
    rw [List.getElem?_eq_none (by omega)] at hi
    cases hi
  have hin : innerLoop ops gE G i (List.range cur.length) cur [] (Vec3.splat 0)
      = some (cur, [], (if gE = true then netForce ops G cur ci i else Vec3.splat 0)) := by
    cases gE with
    | true =>
      rw [innerLoop_free ops G i cur ci hfree hi (List.range cur.length) (Vec3.splat 0)
        (fun j hj => List.mem_range.1 hj), sum_filter_range_eq]
      have h0 : (Vec3.splat 0 : Vec3 F) = 0 := rfl
      rw [h0, zero_add]
      rfl
    | false =>
      rw [innerLoop_free_off ops G i cur ci hfree hi (List.range cur.length) (Vec3.splat 0)
        (fun j hj => List.mem_range.1 hj)]
      rfl
  have hfst := innerLoopTraced_fst ops gE G i (List.range cur.length) cur [] (Vec3.splat 0)
  rw [hin] at hfst
  rcases innerLoopTraced_shape ops gE G i cur [] hfree.1 hilt (List.range cur.length)
    (Vec3.splat 0) (fun j hj => List.mem_range.1 hj) with
    ⟨tf1, h1, -⟩ | ⟨tf1, j, l, s, x, h1, -, -⟩
  · rw [h1] at hfst ⊢
    simp only [Option.map_some', Option.some.injEq, Prod.mk.injEq, true_and] at hfst
    rw [hfst]
  · rw [h1] at hfst
    simp at hfst

/-- The traced outer loop in a collision-free world, started after the bodies below `m` have
received their net force: nothing is marked, no collision is recorded, and the record of the
applied forces holds the net force of every body. -/
theorem outerLoopTraced_free (ops : FloatOps F) (gE : Bool) (G dt : F)
    (objs : List (SceneObject F)) (hfree : CollisionFree ops objs) :
    ∀ (len m : Nat) (cur : List (SceneObject F)) (ap : List (Nat × Vec3 F)),
      m + len = objs.length → cur.length = objs.length →
      (∀ (k : Nat) (ok : SceneObject F), objs[k]? = some ok →
        cur[k]? = some (if k < m then
          ok.ApplyForce (if gE = true then netForce ops G objs ok k else Vec3.splat 0) dt
          else ok)) →
      (∀ (k : Nat) (ok : SceneObject F), objs[k]? = some ok → k < m →
        (k, (if gE = true then netForce ops G objs ok k else Vec3.splat 0)) ∈ ap) →
      ∃ fin ap1, outerLoopTraced ops gE G dt (List.range' m len) cur [] ap []
          = some (fin, [], ap1, []) ∧
        ∀ (k : Nat) (ok : SceneObject F), objs[k]? = some ok →
          (k, (if gE = true then netForce ops G objs ok k else Vec3.splat 0)) ∈ ap1 := by
  intro len
  induction len with
  | zero =>
    intro m cur ap hm hlen hcur hap
    refine ⟨cur, ap, rfl, ?_⟩
    intro k ok hk
    have hk1 : k < objs.length := by
      by_contra hge
      rw [List.getElem?_eq_none (by omega)] at hk
      cases hk
    exact hap k ok hk (by omega)
  | succ len ih =>
    intro m cur ap hm hlen hcur hap
    have hsame : SameBodies cur objs := by
      refine ⟨hlen, ?_⟩
      intro k a b ha hb
      rw [hcur k b hb] at ha
      have := Option.some.inj ha
      rw [← this]
      by_cases hkm : k < m
      · rw [if_pos hkm]
        exact SameBody_ApplyForce _ _ _
      · rw [if_neg hkm]
        exact SameBody_refl _
    have hfc : CollisionFree ops cur := CollisionFree_of_SameBodies ops cur objs hsame hfree
    have hmlt : m < objs.length := by omega
    have hom : objs[m]? = some objs[m] := List.getElem?_eq_getElem hmlt
    have hcm : cur[m]? = some objs[m] := by
      rw [hcur m _ hom, if_neg (lt_irrefl m)]
    have hnf : netForce ops G cur objs[m] m = netForce ops G objs objs[m] m :=
      netForce_congr ops G cur objs hsame _ _ (SameBody_refl _) m
    rw [List.range'_succ]
    unfold outerLoopTraced
    rw [if_neg (List.not_mem_nil m), innerLoopTraced_free ops gE G m cur _ hfc hcm, hnf]
    simp only []
    apply ih (m + 1) _ _ (by omega) (by rw [length_applyForceAt, hlen])
    · intro k ok hk
      unfold applyForceAt
      rw [List.getElem?_modify, hcur k ok hk]
      simp only [Option.map_eq_map, Option.map_some']
      by_cases hkm : m = k
      · subst hkm
        have hok : ok = objs[m] := by
          rw [hom] at hk; exact (Option.some.inj hk).symm
        rw [if_pos rfl, if_neg (lt_irrefl m), if_pos (Nat.lt_succ_self m), hok]
      · rw [if_neg hkm]
        by_cases hlt : k < m
        · rw [if_pos hlt, if_pos (show k < m + 1 by omega)]
        · rw [if_neg hlt, if_neg (show ¬ k < m + 1 by omega)]
    · intro k ok hk hkm
      by_cases hlt : k < m
      · exact List.mem_append_left _ (hap k ok hk hlt)
      · have hkeq : k = m := by omega
        subst hkeq
        have hok : ok = objs[k] := by
          rw [hom] at hk; exact (Option.some.inj hk).symm
        rw [hok]
        exact List.mem_append_right _ (List.mem_singleton_self _)

/-- The traced pair loop of `update` in a collision-free world: no body is marked, no
collision is recorded, and the force recorded for every body is its net force when gravity is
enabled and the zero force when it is disabled. -/
theorem pairLoopTraced_free (ops : FloatOps F) (gE : Bool) (G dt : F)
    (objs : List (SceneObject F)) (hfree : CollisionFree ops objs) :
    ∃ fin ap, pairLoopTraced ops gE G dt objs = some (fin, [], ap, []) ∧
      ∀ (k : Nat) (ok : SceneObject F), objs[k]? = some ok →
        (k, (if gE = true then netForce ops G objs ok k else Vec3.splat 0)) ∈ ap := by
  unfold pairLoopTraced
  rw [List.range_eq_range']
  apply outerLoopTraced_free ops gE G dt objs hfree objs.length 0 objs [] (by omega) rfl
  · intro k ok hk
    rw [hk, if_neg (Nat.not_lt_zero k)]
  · intro k ok _ hk
    exact absurd hk (Nat.not_lt_zero k)

end TraceFree

section SurvivorLemmas
open SceneObject

/-- Keeping the elements of a list whose index passes a test moves the element of index `k`
(which passes) to the index that counts the passing indices below `k`. -/
theorem keep_getElem? {α : Type} (P : Nat → Bool) :
    ∀ (l : List α) (c k : Nat) (a : α), l[k]? = some a → P (c + k) = true →
      (((List.enumFrom c l).filter (fun p => P p.1)).map Prod.snd)[
        ((List.range k).filter (fun j => P (c + j))).length]? = some a := by
  intro l
  induction l with
  | nil => intro c k a h; simp at h
  | cons b l ih =>
    intro c k a h hP
    cases k with
    | zero =>
      simp only [List.getElem?_cons_zero, Option.some.injEq] at h
      subst h
      have hc : P c = true := by simpa using hP
      simp [List.enumFrom_cons, List.filter_cons, hc]
    | succ k =>
      simp only [List.getElem?_cons_succ] at h
      have hP1 : P (c + 1 + k) = true := by
        have e : c + 1 + k = c + (k + 1) := by omega
        rw [e]; exact hP
      have hih := ih (c + 1) k a h hP1
      have hcount : ((List.range (k + 1)).filter (fun j => P (c + j))).length
          = (if P c = true then 1 else 0)
            + ((List.range k).filter (fun j => P (c + 1 + j))).length := by
        have e : ((fun j => P (c + j)) ∘ Nat.succ) = (fun j => P (c + 1 + j)) := by
          funext j
          show P (c + (j + 1)) = P (c + 1 + j)
          congr 1
          omega
        rw [List.range_succ_eq_map, List.filter_cons, List.filter_map, e]
        by_cases hc : P c = true
        · rw [Nat.add_zero, if_pos hc, if_pos hc, List.length_cons, List.length_map]
          omega
        · rw [Nat.add_zero, if_neg hc, if_neg hc, List.length_map, Nat.zero_add]
      rw [hcount, List.enumFrom_cons, List.filter_cons]
      by_cases hc : P c = true
      · simp only [hc, if_true, List.map_cons]
        rw [Nat.add_comm 1, List.getElem?_cons_succ]
        exact hih
      · simp only [hc, if_false, Bool.false_eq_true, Nat.zero_add]
        exact hih

/-- After the removal block the body that had the index `k`, which is not marked, has the
index `survivorIndex objects_to_delete k`. -/
theorem eraseMarked_getElem? {F : Type} [LinearOrderedField F] (objs : List (SceneObject F))
    (del : List Nat) (hnd : del.Nodup) (k : Nat) (o : SceneObject F) (hk : objs[k]? = some o)
    (hkd : k ∉ del) :
    (if del.isEmpty then objs else eraseMarked objs del)[survivorIndex del k]? = some o := by
  have he : (if del.isEmpty then objs else eraseMarked objs del) = eraseMarked objs del := by
    split_ifs with hemp
    · rw [List.isEmpty_iff.1 hemp]
      rfl
    · rfl
  rw [he, eraseMarked_eq objs del hnd]
  have := keep_getElem? (fun j => decide (j ∉ del)) objs 0 k o hk (by simpa using hkd)
  simp only [Nat.zero_add] at this
  exact this

theorem HasGeometry_foldl_eraseIdx {F : Type} [LinearOrderedField F] :
    ∀ (s : List Nat) (l : List (SceneObject F)), HasGeometry l →
      HasGeometry (s.foldl (fun objs index => objs.eraseIdx index) l) := by
  intro s
  induction s with
  | nil => intro l h; exact h
  | cons k s ih =>
    intro l h
    rw [List.foldl_cons]
    exact ih _ (fun o ho => h o ((List.eraseIdx_sublist l k).subset ho))

/-- The removal block keeps bodies that have a primary geometry record. -/
theorem HasGeometry_survivors {F : Type} [LinearOrderedField F] (objs : List (SceneObject F))
    (del : List Nat) (h : HasGeometry objs) :
    HasGeometry (if del.isEmpty then objs else eraseMarked objs del) := by
  split_ifs
  · exact h
  · exact HasGeometry_foldl_eraseIdx _ objs h

end SurvivorLemmas

section TrailFrame
open SceneObject
variable {F : Type} [LinearOrderedField F] [FloorRing F]

/-- The method `update_trails` changes neither the velocity nor the geometry of a body. -/
theorem update_trails_frame (ops : FloatOps F) (timeScale : F) (com : Vec3 F)
    (l l1 : List (SceneObject F)) (h : update_trails ops timeScale com l = some l1) :
    l1.length = l.length ∧
      ∀ (i : Nat) (o : SceneObject F), l[i]? = some o →
        ∃ o1, l1[i]? = some o1 ∧ o1.velocity = o.velocity ∧ o1.gpuObjects = o.gpuObjects := by
  unfold update_trails at h
  obtain ⟨hlen, hpt⟩ := updateTrailsLoop_pointwise ops timeScale com _ _ l l1 h
  refine ⟨hlen, ?_⟩
  intro i o hi
  obtain ⟨o1, ho1, hup⟩ := hpt i o hi
  obtain ⟨hv, hg, -, -⟩ := updateTrail_frame ops timeScale com _ _ o o1 hup
  exact ⟨o1, ho1, hv, hg⟩

/-- When `update` returns after a step with `dt * timeScale > 0`, its bodies are what
`update_trails` made of the result of the loop that updates every body. -/
theorem update_stages_inv (ops : FloatOps F) (app app1 : Application F)
    (objs : List (SceneObject F)) (del : List Nat) (objs2 : List (SceneObject F))
    (hdt : app.dt * app.timeScale > 0)
    (h1 : pairLoop ops app.gravityEnabled app.gravitationalConstant (app.dt * app.timeScale)
      app.sceneObjects = some (objs, del))
    (h2 : updateAll ops (app.dt * app.timeScale)
      (if del.isEmpty then objs else eraseMarked objs del) = some objs2)
    (h : update ops app = some app1) :
    update_trails ops app.timeScale (centerOfMassOf app.sceneObjects) objs2
      = some app1.sceneObjects := by
  unfold update at h
  simp only [Option.pure_def, Option.bind_eq_bind, hdt, if_true, h1, Option.some_bind, h2] at h
  rcases h3 : update_trails ops app.timeScale (centerOfMassOf app.sceneObjects) objs2 with
    _ | objs3
  · rw [h3] at h
    cases h
  · rw [h3] at h
    simp only [Option.some_bind] at h
    split_ifs at h
    · rw [Option.bind_eq_some] at h
      obtain ⟨obj, -, h5⟩ := h
      injection h5 with e
      subst e
      rfl
    · injection h with e
      subst e
      rfl

theorem ApplyForce_velocity_cases (o : SceneObject F) (f : Vec3 F) (dt : F) :
    (o.ApplyForce f dt).velocity
      = if 0 < o.Mass then o.velocity + (f / o.Mass) * dt else o.velocity := by
  unfold ApplyForce
  split_ifs <;> rfl

/-- One step of `update` with `dt * timeScale > 0` on bodies that all have a primary
geometry record: the pair loop and the loop that updates every body return, and every body
that the pair loop does not record as collided is still in the world afterwards, with its old
velocity plus `(F / Mass) * dt` for the force `F` recorded for it when its mass is positive,
with its old velocity otherwise, and with its old position plus the new velocity times
`dt`. -/
theorem update_untouched (ops : FloatOps F) (app : Application F)
    (hgeo : HasGeometry app.sceneObjects) (hdt : app.dt * app.timeScale > 0) :
    ∃ objs1 del applied collided objs2,
      pairLoopTraced ops app.gravityEnabled app.gravitationalConstant
        (app.dt * app.timeScale) app.sceneObjects = some (objs1, del, applied, collided) ∧
      pairLoop ops app.gravityEnabled app.gravitationalConstant (app.dt * app.timeScale)
        app.sceneObjects = some (objs1, del) ∧
      updateAll ops (app.dt * app.timeScale)
        (if del.isEmpty then objs1 else eraseMarked objs1 del) = some objs2 ∧
      (∀ k ∈ del, k ∈ collided) ∧ collided.length = 2 * del.length ∧
      (∀ (k : Nat) (o : SceneObject F), app.sceneObjects[k]? = some o → k ∉ collided →
        ∃ f o2, (k, f) ∈ applied ∧ (∀ f1, (k, f1) ∈ applied → f1 = f) ∧
          (app.gravityEnabled = false → f = Vec3.splat 0) ∧
          objs2[survivorIndex del k]? = some o2 ∧
          o2.velocity = (if 0 < o.Mass then
            o.velocity + (f / o.Mass) * (app.dt * app.timeScale) else o.velocity) ∧
          o2.GetPosition = o.GetPosition + o2.velocity * (app.dt * app.timeScale) ∧
          (app.gravityEnabled = false → o2.velocity = o.velocity) ∧
          ∀ app1, update ops app = some app1 →
            ∃ o3, app1.sceneObjects[survivorIndex del k]? = some o3 ∧
              o3.velocity = o2.velocity ∧ o3.GetPosition = o2.GetPosition) ∧
      (CollisionFree ops app.sceneObjects →
        del = [] ∧ collided = [] ∧
        ∀ (k : Nat) (o : SceneObject F), app.sceneObjects[k]? = some o →
          (k, (if app.gravityEnabled = true then
            netForce ops app.gravitationalConstant app.sceneObjects o k
            else Vec3.splat 0)) ∈ applied) ∧
      (∀ objs3, update_trails ops app.timeScale (centerOfMassOf app.sceneObjects) objs2
          = some objs3 →
        ∃ app1, update ops app = some app1 ∧ app1.sceneObjects = objs3) ∧
      ((∀ o ∈ objs2, ∃ s, trailSpeed ops objs2 o = some s ∧
          trailDenominator ops app.timeScale s ≠ 0 ∧ -1 < trailQuotient ops app.timeScale s ∧
          trailQuotient ops app.timeScale s < 2 ^ 64) →
        ∃ app1, update ops app = some app1) := by
  obtain ⟨fin, del, ap, col, htr, hdc, hcl, hinv⟩ :=
    pairLoopTraced_untouched ops app.gravityEnabled app.gravitationalConstant
      (app.dt * app.timeScale) app.sceneObjects hgeo
  have hloop : pairLoop ops app.gravityEnabled app.gravitationalConstant
      (app.dt * app.timeScale) app.sceneObjects = some (fin, del) := by
    rw [← pairLoopTraced_fst, htr]
    rfl
  obtain ⟨fin', del', h1, -, hgfin, hnd, -, -, -⟩ :=
    outerLoop_total ops app.gravityEnabled app.gravitationalConstant (app.dt * app.timeScale)
      (List.range app.sceneObjects.length) app.sceneObjects [] hgeo
      (fun i hi => List.mem_range.1 hi) List.nodup_nil
      (fun k hk => absurd hk (List.not_mem_nil k))
  have he : (fin', del') = (fin, del) := by
    have h2 : pairLoop ops app.gravityEnabled app.gravitationalConstant
        (app.dt * app.timeScale) app.sceneObjects = some (fin', del') := h1
    rw [hloop] at h2
    exact (Option.some.inj h2).symm
  injection he with e1 e2
  subst e1
  subst e2
  obtain ⟨objs2, hall, hlen2, hpt2⟩ := updateAll_pointwise ops (app.dt * app.timeScale) _
    (HasGeometry_survivors fin' del' hgfin)
  refine ⟨fin', del', ap, col, objs2, htr, hloop, hall, hdc, hcl, ?_, ?_, ?_, ?_⟩
  · intro k o hk hkc
    obtain ⟨f, hf, hu, hfin, hoff⟩ := hinv k o hk hkc
    have hkd : k ∉ del' := fun h => hkc (hdc k h)
    have hsurv := eraseMarked_getElem? fin' del' hnd k _ hfin hkd
    obtain ⟨o2, ho2, hup⟩ := hpt2 _ _ hsurv
    have hg : o.gpuObjects ≠ [] := hgeo o (List.getElem?_mem hk)
    obtain ⟨o2', hup', hv, hp, -⟩ := Update_total ops (o.ApplyForce f (app.dt * app.timeScale))
      (app.dt * app.timeScale) (by rw [ApplyForce_gpuObjects]; exact hg)
    rw [hup] at hup'
    have e := Option.some.inj hup'
    subst e
    have hvel : o2.velocity = (if 0 < o.Mass then
        o.velocity + (f / o.Mass) * (app.dt * app.timeScale) else o.velocity) := by
      rw [hv, ApplyForce_velocity_cases]
    refine ⟨f, o2, hf, hu, hoff, ho2, hvel, ?_, ?_, ?_⟩
    · rw [hp, hv, GetPosition_congr _ o (ApplyForce_gpuObjects _ _ _)]
    · intro hgE
      rw [hv, hoff hgE]
      exact ApplyForce_zero o _
    · intro app1 happ
      have htrails := update_stages_inv ops app app1 fin' del' objs2 hdt hloop hall happ
      obtain ⟨-, hpt3⟩ := update_trails_frame ops _ _ objs2 app1.sceneObjects htrails
      obtain ⟨o3, ho3, hv3, hg3⟩ := hpt3 _ o2 ho2
      exact ⟨o3, ho3, hv3, GetPosition_congr _ _ hg3⟩
  · intro hfree
    obtain ⟨fin2, ap2, h2, hmem⟩ := pairLoopTraced_free ops app.gravityEnabled
      app.gravitationalConstant (app.dt * app.timeScale) app.sceneObjects hfree
    rw [htr] at h2
    simp only [Option.some.injEq, Prod.mk.injEq] at h2
    obtain ⟨-, hd, ha, hc⟩ := h2
    rw [ha]
    exact ⟨hd, hc, hmem⟩
  · intro objs3 h3
    exact update_of_stages ops app fin' del' objs2 objs3 hdt hloop hall h3
  · intro h
    obtain ⟨objs3, h3⟩ := update_trails_defined ops app.timeScale
      (centerOfMassOf app.sceneObjects) objs2 h
    obtain ⟨app1, happ, -⟩ := update_of_stages ops app fin' del' objs2 objs3 hdt hloop hall h3
    exact ⟨app1, happ⟩

end TrailFrame

section EulerClaims
open SceneObject
variable {F : Type} [LinearOrderedField F] [FloorRing F]

end EulerClaims

section EulerLemmas
open SceneObject

/-- The evolution check leaves a rocky planet as it is when it neither collapses nor is
heavier than 50. -/
theorem check_rocky_stays {F : Type} [LinearOrderedField F] (o : SceneObject F)
    (g : GPUobject F) (hg : o.GetGpuObject 0 = some g) (ht : o.Type_ = ObjectType.RockyPlanet)
    (hr : ¬ g.r1 < o.Mass * (5368709 / 2 ^ 30)) (hm : ¬ o.Mass > 50) :
    o.CheckForTypeTransition = some o := by
  simp only [CheckForTypeTransition, checkTransitions, hg, Option.pure_def, Option.bind_eq_bind,
    Option.some_bind]
  rw [if_neg (fun h => hr h.2), ht]
  simp only []
  rw [if_neg hm]

end EulerLemmas

section BystanderLemmas
open SceneObject

/-- Three bodies of which body 0 is heavier than body 1 and collides with it, while body 2
is away from the merged body: the pass of body 0 merges, the pass of body 1 is skipped, and
the pass of body 2 accumulates the force of the merged body. -/
theorem pairLoopTraced_pair_and_bystander {F : Type} [LinearOrderedField F] (ops : FloatOps F)
    (gE : Bool) (G dt : F) (a b c : SceneObject F)
    (ga gb gc : GPUobject F) (ta tb tc : List (GPUobject F))
    (hga : a.gpuObjects = ga :: ta) (hgb : b.gpuObjects = gb :: tb)
    (hgc : c.gpuObjects = gc :: tc)
    (hcol : ops.sqrt (dot (gb.center - ga.center) (gb.center - ga.center)) ≤ ga.r1 + gb.r1)
    (hm : a.Mass > b.Mass)
    (hfar : ¬ ops.sqrt (dot (ga.center - gc.center) (ga.center - gc.center))
      ≤ gc.r1 + ops.cbrt (ga.r1 ^ 3 + gb.r1 ^ 3)) :
    ∃ a0 f, pairLoopTraced ops gE G dt [a, b, c]
        = some ([a0, b, c.ApplyForce f dt], [1], [(0, Vec3.splat 0), (2, f)], [0, 1]) ∧
      a0.Mass = a.Mass + b.Mass ∧ a0.Type_ = a.Type_ ∧
      a0.gpuObjects = { ga with r1 := ops.cbrt (ga.r1 ^ 3 + gb.r1 ^ 3) } :: ta := by
  have h012 : List.range 3 = [0, 1, 2] := rfl
  have hp1 := pairStep_merge_gt ops gE G [a, b, c] [] (Vec3.splat 0) 0 1 a b ga gb ta tb rfl rfl
    hga hgb hcol hm
  obtain ⟨a0, ha0⟩ : ∃ x : SceneObject F, x = SceneObject.ApplyForce
      { a with
        Mass := a.Mass + b.Mass
        velocity := (a.velocity * a.Mass + b.velocity * b.Mass) / (a.Mass + b.Mass)
        gpuObjects := { ga with r1 := ops.cbrt (ga.r1 ^ 3 + gb.r1 ^ 3) } :: ta }
      (Vec3.splat 0) dt := ⟨_, rfl⟩
  have hga0 : a0.gpuObjects = { ga with r1 := ops.cbrt (ga.r1 ^ 3 + gb.r1 ^ 3) } :: ta := by
    rw [ha0, ApplyForce_gpuObjects]
  obtain ⟨f, hp2⟩ : ∃ f, pairStep ops gE G [a0, b, c] [1] (Vec3.splat 0) 2 0
      = some (PairOutcome.force f) :=
    ⟨_, pairStep_force ops gE G [a0, b, c] [1] (Vec3.splat 0) 2 0 c a0 gc _ tc ta rfl rfl
      hgc hga0 hfar⟩
  have hstep1 : applyForceAt ([a, b, c].set 0
      { a with
        Mass := a.Mass + b.Mass
        velocity := (a.velocity * a.Mass + b.velocity * b.Mass) / (a.Mass + b.Mass)
        gpuObjects := { ga with r1 := ops.cbrt (ga.r1 ^ 3 + gb.r1 ^ 3) } :: ta })
      0 (Vec3.splat 0) dt = [a0, b, c] := by
    rw [ha0]
    rfl
  refine ⟨a0, f, ?_, by rw [ha0, ApplyForce_Mass], by rw [ha0, ApplyForce_Type], hga0⟩
  unfold pairLoopTraced
  rw [show [a, b, c].length = 3 from rfl, h012]
  unfold outerLoopTraced
  rw [if_neg (List.not_mem_nil 0), show [a, b, c].length = 3 from rfl, h012]
  have hin1 : innerLoopTraced ops gE G 0 [0, 1, 2] [a, b, c] [] (Vec3.splat 0)
      = some ([a, b, c].set 0
          { a with
            Mass := a.Mass + b.Mass
            velocity := (a.velocity * a.Mass + b.velocity * b.Mass) / (a.Mass + b.Mass)
            gpuObjects := { ga with r1 := ops.cbrt (ga.r1 ^ 3 + gb.r1 ^ 3) } :: ta },
          [1], Vec3.splat 0, some 1) := by
    unfold innerLoopTraced
    rw [if_pos rfl]
    unfold innerLoopTraced
    rw [if_neg (by decide), if_neg (List.not_mem_nil 1), hp1]
    rfl
  rw [hin1]
  simp only []
  rw [hstep1]
  unfold outerLoopTraced
  rw [if_pos (by simp)]
  unfold outerLoopTraced
  rw [if_neg (by simp), show [a0, b, c].length = 3 from rfl, h012]
  have hin2 : innerLoopTraced ops gE G 2 [0, 1, 2] [a0, b, c] [1] (Vec3.splat 0)
      = some ([a0, b, c], [1], f, none) := by
    unfold innerLoopTraced
    rw [if_neg (by decide), if_neg (by simp), hp2]
    simp only []
    unfold innerLoopTraced
    rw [if_neg (by decide), if_pos (by simp)]
    unfold innerLoopTraced
    rw [if_pos rfl]
    rfl
  rw [hin2]
  simp only []
  unfold outerLoopTraced
  rfl

theorem realCbrt_quarter_le_one : realCbrt ((0.5 : ℝ) ^ 3 + (0.5 : ℝ) ^ 3) ≤ 1 := by
  by_contra h
  have h1 : (1 : ℝ) < realCbrt ((0.5 : ℝ) ^ 3 + (0.5 : ℝ) ^ 3) := not_le.1 h
  have h3 := realCbrt_cube ((0.5 : ℝ) ^ 3 + (0.5 : ℝ) ^ 3)
  have h4 : (1 : ℝ) ^ 3 < realCbrt ((0.5 : ℝ) ^ 3 + (0.5 : ℝ) ^ 3) ^ 3 :=
    pow_lt_pow_left₀ h1 (by norm_num) (by norm_num)
  rw [h3] at h4
  norm_num at h4

theorem realCbrt_quarter_ge_half : 1 / 2 ≤ realCbrt ((0.5 : ℝ) ^ 3 + (0.5 : ℝ) ^ 3) := by
  by_contra h
  have h1 : realCbrt ((0.5 : ℝ) ^ 3 + (0.5 : ℝ) ^ 3) < 1 / 2 := not_le.1 h
  have h0 : 0 ≤ realCbrt ((0.5 : ℝ) ^ 3 + (0.5 : ℝ) ^ 3) := realCbrt_nonneg _ (by norm_num)
  have h3 := realCbrt_cube ((0.5 : ℝ) ^ 3 + (0.5 : ℝ) ^ 3)
  have h4 : realCbrt ((0.5 : ℝ) ^ 3 + (0.5 : ℝ) ^ 3) ^ 3 < ((1 : ℝ) / 2) ^ 3 :=
    pow_lt_pow_left₀ h1 h0 (by norm_num)
  rw [h3] at h4
  norm_num at h4

/-- The step of `pairAndBystanderApp`: the first two bodies merge into a rocky planet of
mass 50 (body 1 is marked, the pair 0 and 1 is recorded as collided) and the third body,
which is in no collision, has one recorded force. -/
theorem pairAndBystanderApp_trace :
    ∃ a0 f, pairLoopTraced realOps (pairAndBystanderApp ℝ).gravityEnabled
        (pairAndBystanderApp ℝ).gravitationalConstant
        ((pairAndBystanderApp ℝ).dt * (pairAndBystanderApp ℝ).timeScale)
        (pairAndBystanderApp ℝ).sceneObjects
        = some ([a0, rocky ℝ ⟨1 / 2, 0, 0⟩ 20,
            (rocky ℝ ⟨0, 4, 0⟩ 10).ApplyForce f
              ((pairAndBystanderApp ℝ).dt * (pairAndBystanderApp ℝ).timeScale)],
          [1], [(0, Vec3.splat 0), (2, f)], [0, 1]) ∧
      a0.Mass = 50 ∧ a0.Type_ = ObjectType.RockyPlanet ∧
      ∃ g0, a0.gpuObjects = [g0] ∧ g0.r1 = realCbrt ((0.5 : ℝ) ^ 3 + (0.5 : ℝ) ^ 3) := by
  obtain ⟨ga, hga, hca, hra⟩ := rocky_gpuObjects (⟨0, 0, 0⟩ : Vec3 ℝ) 30
  obtain ⟨gb, hgb, hcb, hrb⟩ := rocky_gpuObjects (⟨1 / 2, 0, 0⟩ : Vec3 ℝ) 20
  obtain ⟨gc, hgc, hcc, hrc⟩ := rocky_gpuObjects (⟨0, 4, 0⟩ : Vec3 ℝ) 10
  have hma := rocky_Mass (⟨0, 0, 0⟩ : Vec3 ℝ) 30 (by norm_num)
  have hmb := rocky_Mass (⟨1 / 2, 0, 0⟩ : Vec3 ℝ) 20 (by norm_num)
  have hcol : realOps.sqrt (dot (gb.center - ga.center) (gb.center - ga.center))
      ≤ ga.r1 + gb.r1 := by
    rw [hca, hcb, hra, hrb]
    show Real.sqrt _ ≤ _
    rw [Real.sqrt_le_iff]
    constructor <;> norm_num [dot]
  have hfar : ¬ realOps.sqrt (dot (ga.center - gc.center) (ga.center - gc.center))
      ≤ gc.r1 + realOps.cbrt (ga.r1 ^ 3 + gb.r1 ^ 3) := by
    rw [hca, hcc, hra, hrb, hrc]
    show ¬ Real.sqrt _ ≤ (0.5 : ℝ) + realCbrt ((0.5 : ℝ) ^ 3 + (0.5 : ℝ) ^ 3)
    have hd : dot ((⟨0, 0, 0⟩ : Vec3 ℝ) - ⟨0, 4, 0⟩) ((⟨0, 0, 0⟩ : Vec3 ℝ) - ⟨0, 4, 0⟩)
        = 4 ^ 2 := by
      simp only [dot, Vec3.sub_x, Vec3.sub_y, Vec3.sub_z]
      norm_num
    rw [hd, Real.sqrt_sq (by norm_num)]
    have := realCbrt_quarter_le_one
    intro h
    norm_num at h
    linarith
  obtain ⟨a0, f, htr, hm0, ht0, hg0⟩ :=
    pairLoopTraced_pair_and_bystander realOps (pairAndBystanderApp ℝ).gravityEnabled
      (pairAndBystanderApp ℝ).gravitationalConstant
      ((pairAndBystanderApp ℝ).dt * (pairAndBystanderApp ℝ).timeScale)
      (rocky ℝ ⟨0, 0, 0⟩ 30) (rocky ℝ ⟨1 / 2, 0, 0⟩ 20) (rocky ℝ ⟨0, 4, 0⟩ 10)
      ga gb gc [] [] [] hga hgb hgc hcol (by rw [hma, hmb]; norm_num) hfar
  refine ⟨a0, f, htr, ?_, ?_, _, hg0, ?_⟩
  · rw [hm0, hma, hmb]; norm_num
  · rw [ht0]; exact rocky_Type _ _
  · show realCbrt (ga.r1 ^ 3 + gb.r1 ^ 3) = _
    rw [hra, hrb]

end BystanderLemmas

section StepWitnesses
open SceneObject

theorem threeOverlapping_radii : RadiiNonneg (threeOverlapping ℝ) := by
  intro o ho g hg
  simp only [threeOverlapping, List.mem_cons, List.mem_singleton, List.not_mem_nil,
    or_false] at ho
  have key : ∀ (p : Vec3 ℝ) (m : ℝ) (g : GPUobject ℝ),
      (rocky ℝ p m).GetGpuObject 0 = some g → 0 ≤ g.r1 := by
    intro p m g hg
    obtain ⟨g0, hg0, -, hr⟩ := rocky_gpuObjects p m
    simp only [GetGpuObject, hg0, List.getElem?_cons_zero, Option.some.injEq] at hg
    rw [← hg, hr]
    norm_num
  rcases ho with rfl | rfl | rfl <;> exact key _ _ g hg

/-- Witness of C27: three mutually overlapping bodies. -/
theorem batch_removal_is_exact_witness :
    ∃ objs1 del, pairLoop realOps true (1 / 2) (1 / 60) (threeOverlapping ℝ)
        = some (objs1, del) ∧
      objs1.length = (threeOverlapping ℝ).length ∧ del.Nodup ∧
      (∀ k ∈ del, k < (threeOverlapping ℝ).length) ∧
      (if del.isEmpty then objs1 else eraseMarked objs1 del)
        = (objs1.enum.filter (fun p => decide (p.1 ∉ del))).map Prod.snd ∧
      (if del.isEmpty then objs1 else eraseMarked objs1 del).length
        = (threeOverlapping ℝ).length - del.length :=
  batch_removal_is_exact realOps true (1 / 2) (1 / 60) (threeOverlapping ℝ)
    threeOverlapping_hasGeometry

/-- Witness of C26: three mutually overlapping bodies over the real numbers. -/
theorem coincident_centres_always_merge_witness :
    (∃ objs1 del, pairLoop realOps true (1 / 2) (1 / 60) (threeOverlapping ℝ)
        = some (objs1, del) ∧
      pairLoopChecked realOps true (1 / 2) (1 / 60) (threeOverlapping ℝ) = some (objs1, del) ∧
      RadiiNonneg objs1) ∧
    (∀ (cur : List (SceneObject ℝ)) (del : List Nat) (tf : Vec3 ℝ) (i j : Nat)
        (oi oj : SceneObject ℝ), HasGeometry cur → RadiiNonneg cur →
        cur[i]? = some oi → cur[j]? = some oj →
      (oi.GetPosition = oj.GetPosition →
        ∃ cur1 del1, pairStep realOps true (1 / 2) cur del tf i j
          = some (PairOutcome.merged cur1 del1)) ∧
      (∀ tf1, pairStep realOps true (1 / 2) cur del tf i j = some (PairOutcome.force tf1) →
        oj.GetPosition ≠ oi.GetPosition ∧
        0 < length realOps (oj.GetPosition - oi.GetPosition))) :=
  coincident_centres_always_merge realOps Real.sqrt_zero realCbrt_nonneg true (1 / 2) (1 / 60)
    (threeOverlapping ℝ) threeOverlapping_hasGeometry threeOverlapping_radii

end StepWitnesses

section EulerWitnesses
open SceneObject

end EulerWitnesses

section BystanderStep
open SceneObject

theorem pairAndBystanderApp_hasGeometry : HasGeometry (pairAndBystanderApp ℝ).sceneObjects := by
  intro o ho
  simp only [pairAndBystanderApp, List.mem_cons, List.mem_singleton, List.not_mem_nil,
    or_false] at ho
  rcases ho with rfl | rfl | rfl <;> exact rocky_hasGeometry _ _

/-- The step of `pairAndBystanderApp` returns. -/
theorem update_pairAndBystanderApp :
    ∃ app1, update realOps (pairAndBystanderApp ℝ) = some app1 := by
  obtain ⟨a0, f, htr, hm0, ht0, g0, hg0, hr0⟩ := pairAndBystanderApp_trace
  obtain ⟨gc, hgc, -, hrc⟩ := rocky_gpuObjects (⟨0, 4, 0⟩ : Vec3 ℝ) 10
  have hmc := rocky_Mass (⟨0, 4, 0⟩ : Vec3 ℝ) 10 (by norm_num)
  have hdt : (pairAndBystanderApp ℝ).dt * (pairAndBystanderApp ℝ).timeScale > 0 := by
    norm_num [pairAndBystanderApp, twoRockyApp]
  have hloop : pairLoop realOps (pairAndBystanderApp ℝ).gravityEnabled
      (pairAndBystanderApp ℝ).gravitationalConstant
      ((pairAndBystanderApp ℝ).dt * (pairAndBystanderApp ℝ).timeScale)
      (pairAndBystanderApp ℝ).sceneObjects
      = some ([a0, rocky ℝ ⟨1 / 2, 0, 0⟩ 20,
          (rocky ℝ ⟨0, 4, 0⟩ 10).ApplyForce f
            ((pairAndBystanderApp ℝ).dt * (pairAndBystanderApp ℝ).timeScale)], [1]) := by
    rw [← pairLoopTraced_fst, htr]
    rfl
  have hcx : a0.CheckForTypeTransition = some a0 := by
    refine check_rocky_stays a0 g0 ?_ ht0 ?_ ?_
    · rw [GetGpuObject_zero]; exact ⟨[], hg0⟩
    · rw [hm0, hr0]
      have := realCbrt_quarter_ge_half
      intro h
      norm_num at h
      linarith
    · rw [hm0]; norm_num
  have hcy : ((rocky ℝ ⟨0, 4, 0⟩ 10).ApplyForce f
      ((pairAndBystanderApp ℝ).dt * (pairAndBystanderApp ℝ).timeScale)).CheckForTypeTransition
      = some ((rocky ℝ ⟨0, 4, 0⟩ 10).ApplyForce f
        ((pairAndBystanderApp ℝ).dt * (pairAndBystanderApp ℝ).timeScale)) := by
    refine check_rocky_stays _ gc ?_ ?_ ?_ ?_
    · rw [GetGpuObject_zero]; exact ⟨[], by rw [ApplyForce_gpuObjects]; exact hgc⟩
    · rw [ApplyForce_Type]; exact rocky_Type _ _
    · rw [ApplyForce_Mass, hmc, hrc]; norm_num
    · rw [ApplyForce_Mass, hmc]; norm_num
  obtain ⟨x2, hux, -, hmx⟩ := Update_of_check realOps _ _
    ((pairAndBystanderApp ℝ).dt * (pairAndBystanderApp ℝ).timeScale) hcx
  obtain ⟨y2, huy, -, hmy⟩ := Update_of_check realOps _ _
    ((pairAndBystanderApp ℝ).dt * (pairAndBystanderApp ℝ).timeScale) hcy
  have hmy1 : y2.Mass = 10 := by rw [hmy, ApplyForce_Mass, hmc]
  have hall : updateAll realOps ((pairAndBystanderApp ℝ).dt * (pairAndBystanderApp ℝ).timeScale)
      (if ([1] : List Nat).isEmpty then [a0, rocky ℝ ⟨1 / 2, 0, 0⟩ 20,
          (rocky ℝ ⟨0, 4, 0⟩ 10).ApplyForce f
            ((pairAndBystanderApp ℝ).dt * (pairAndBystanderApp ℝ).timeScale)]
        else eraseMarked [a0, rocky ℝ ⟨1 / 2, 0, 0⟩ 20,
          (rocky ℝ ⟨0, 4, 0⟩ 10).ApplyForce f
            ((pairAndBystanderApp ℝ).dt * (pairAndBystanderApp ℝ).timeScale)] [1])
      = some [x2, y2] := by
    show updateAll realOps _ [a0, (rocky ℝ ⟨0, 4, 0⟩ 10).ApplyForce f _] = some [x2, y2]
    unfold updateAll
    rw [hux]
    simp only []
    unfold updateAll
    rw [huy]
    rfl
  obtain ⟨l1, htrails, -⟩ := updateTrailsLoop_some realOps (fun _ => rfl)
    (pairAndBystanderApp ℝ).timeScale (centerOfMassOf (pairAndBystanderApp ℝ).sceneObjects)
    (List.foldl (fun acc obj => acc + obj.velocity * obj.Mass) (Vec3.mk 0 0 0) [x2, y2])
    (List.foldl (fun acc obj => acc + obj.Mass) (0 : ℝ) [x2, y2])
    (by
      simp only [List.foldl_cons, List.foldl_nil, hmx, hm0, hmy1]
      norm_num)
    (by norm_num [pairAndBystanderApp, twoRockyApp]) [x2, y2]
  obtain ⟨app1, happ, -⟩ := update_of_stages realOps (pairAndBystanderApp ℝ) _ [1] [x2, y2] l1
    hdt hloop hall htrails
  exact ⟨app1, happ⟩

/-- In the step of `pairAndBystanderApp` the first two bodies merge, and the third body,
which is in no collision, moves from index 2 to index 1 and ends the step with its old
velocity plus `(f / 10) * dt` for the one force `f` recorded for it, and with its old
position plus the new velocity times `dt`. -/
theorem pairAndBystanderApp_bystander :
    ∃ (a0 : SceneObject ℝ) (f : Vec3 ℝ) (app1 : Application ℝ) (o3 : SceneObject ℝ),
      pairLoopTraced realOps (pairAndBystanderApp ℝ).gravityEnabled
        (pairAndBystanderApp ℝ).gravitationalConstant
        ((pairAndBystanderApp ℝ).dt * (pairAndBystanderApp ℝ).timeScale)
        (pairAndBystanderApp ℝ).sceneObjects
        = some ([a0, rocky ℝ ⟨1 / 2, 0, 0⟩ 20,
            (rocky ℝ ⟨0, 4, 0⟩ 10).ApplyForce f
              ((pairAndBystanderApp ℝ).dt * (pairAndBystanderApp ℝ).timeScale)],
          [1], [(0, Vec3.splat 0), (2, f)], [0, 1]) ∧
      (pairAndBystanderApp ℝ).sceneObjects[2]? = some (rocky ℝ ⟨0, 4, 0⟩ 10) ∧
      update realOps (pairAndBystanderApp ℝ) = some app1 ∧
      app1.sceneObjects[1]? = some o3 ∧
      o3.velocity = (rocky ℝ ⟨0, 4, 0⟩ 10).velocity
        + (f / (10 : ℝ)) * ((pairAndBystanderApp ℝ).dt * (pairAndBystanderApp ℝ).timeScale) ∧
      o3.GetPosition = (rocky ℝ ⟨0, 4, 0⟩ 10).GetPosition
        + o3.velocity * ((pairAndBystanderApp ℝ).dt * (pairAndBystanderApp ℝ).timeScale) := by
  obtain ⟨a0, f, htr1, -⟩ := pairAndBystanderApp_trace
  obtain ⟨app1, happ⟩ := update_pairAndBystanderApp
  obtain ⟨objs1', del, ap, col, objs2, htr, -, -, -, -, hbody, -, -, -⟩ :=
    update_untouched realOps (pairAndBystanderApp ℝ) pairAndBystanderApp_hasGeometry
      (by norm_num [pairAndBystanderApp, twoRockyApp])
  rw [htr1] at htr
  simp only [Option.some.injEq, Prod.mk.injEq] at htr
  obtain ⟨h1, h2, h3, h4⟩ := htr
  subst h1
  subst h2
  subst h3
  subst h4
  have hc : (pairAndBystanderApp ℝ).sceneObjects[2]? = some (rocky ℝ ⟨0, 4, 0⟩ 10) := rfl
  obtain ⟨f1, o2, hmem, -, -, -, hvel, hpos, -, hupd⟩ := hbody 2 _ hc (by decide)
  have hf : f1 = f := by
    simp only [List.mem_cons, Prod.mk.injEq, List.mem_singleton, List.not_mem_nil,
      or_false] at hmem
    rcases hmem with ⟨h, -⟩ | ⟨-, h⟩
    · omega
    · exact h
  subst hf
  have hm := rocky_Mass (⟨0, 4, 0⟩ : Vec3 ℝ) 10 (by norm_num)
  rw [hm, if_pos (by norm_num)] at hvel
  obtain ⟨o3, ho3, hv3, hp3⟩ := hupd app1 happ
  have hs : survivorIndex [1] 2 = 1 := by decide
  rw [hs] at ho3
  refine ⟨a0, f1, app1, o3, htr1, hc, happ, ho3, ?_, ?_⟩
  · rw [hv3, hvel]
  · rw [hp3, hv3, hpos]

end BystanderStep

section SceneFileClaims
open SceneObject

/-- C24 (the code at the failing input): a world of one ringed rocky planet of mass 2 is
written by `save_scene_to_file` and read back by `load_scene_from_file`; the body that comes
back equals the one saved in every member except that its `Mass` is 1, the default mass of
a rocky planet. -/
theorem ringed_body_reloads_with_default_mass :
    (ringedRocky ℚ).Mass = 2 ∧
    readSceneFile (0 : ℚ) (some (save_scene_to_file [ringedRocky ℚ]))
      = some (SceneFileRead.loaded [{ ringedRocky ℚ with Mass := 1 }]) ∧
    (load_scene_from_file (SceneFileRead.loaded [{ ringedRocky ℚ with Mass := 1 }])
      (twoRockyApp ℚ)).sceneObjects.map (fun o => o.Mass) = [1] := by
  refine ⟨rfl, ?_, rfl⟩
  rfl

end SceneFileClaims

section SceneFileLemmas
open SceneObject

/-- A world without ringed planets (a rocky planet of mass 2 and a black hole) comes back
from the file as it was saved. -/
theorem unringed_world_round_trip :
    readSceneFile (0 : ℚ)
        (some (save_scene_to_file [{ rocky ℚ ⟨0, 0, 0⟩ 1 with Mass := 2 }, blackHole ℚ]))
      = some (SceneFileRead.loaded [{ rocky ℚ ⟨0, 0, 0⟩ 1 with Mass := 2 }, blackHole ℚ]) := by
  rfl

end SceneFileLemmas

end NBody
